import Mathlib

/-!
# Engagement-tracking pipeline of the phishing-simulation platform

A shallow embedding of `controllers/phish.go` (request context setup and the
Track / Report / Phish handlers), of `imap/monitor.go` (regex registry, message
scan, polling cycle and the worker of one account), of `models/non_campaign.go`
(the non-campaign log) and of `models/template_context.go` (the URLs of the
template context), with the properties of the specification stated and proved
over it.

Conventions of the embedding.

* A Go `string` is a sequence of bytes; it is modelled as a `List Char`, one
  `Char` per byte.
* The persistent stores (`models.*`), the template engine, the regular
  expression engine and the mail parser are collaborators that live outside
  the translated files.  They are fields of an environment record; every
  theorem quantifies over the environment, so it holds for every behaviour of
  the collaborators.  The database is an abstract state `σ` that is threaded
  through every call that may write to it.
* Every call to a store is also appended to a call log, so that "is called",
  "is called once" and "is not called" are statements about that log.
* A Go panic and `log.Fatal` end the handler; they are outcomes of the handler
  result.
-/

namespace Anglerphish

/-- A Go string: a sequence of bytes, one `Char` per byte. -/
abbrev GoString := List Char

/-- A Go `time.Time`, as a number of nanoseconds; `0` is the zero time. -/
abbrev Time := Int

/-! ## The `strings` package -/

/-- Function `strings.Split(s, sep)` for a one-byte separator. -/
def Split (sep : Char) : GoString → List GoString
  | [] => [[]]
  | c :: cs =>
    if c = sep then [] :: Split sep cs
    else
      match Split sep cs with
      | [] => [[c]]
      | p :: ps => (c :: p) :: ps

/-- Function `strings.Contains(s, sep)` for a one-byte `sep`. -/
def Contains (s : GoString) (sep : Char) : Bool := s.elem sep

/-- Function `strings.HasSuffix`. -/
def HasSuffix (s suffix : GoString) : Bool := suffix.isSuffixOf s

/-- Function `strings.HasPrefix`. -/
def HasPrefix (s pre : GoString) : Bool := pre.isPrefixOf s

/-- Function `strings.TrimRight(s, cutset)` for a one-byte cutset. -/
def TrimRight (s : GoString) (c : Char) : GoString :=
  (s.reverse.dropWhile (fun x => x == c)).reverse

/-- Function `strings.TrimSuffix`. -/
def TrimSuffix (s suffix : GoString) : GoString :=
  if HasSuffix s suffix then s.take (s.length - suffix.length) else s

/-- Function `strings.Cut(s, sep)` for a one-byte separator, without the
found flag: the text before the first `sep` and the text after it. -/
def Cut (sep : Char) : GoString → GoString × GoString
  | [] => ([], [])
  | c :: cs =>
    if c = sep then ([], cs)
    else ((c :: (Cut sep cs).1), (Cut sep cs).2)

/-- Function `strings.ReplaceAll(s, old, new)` for a one-byte `old`. -/
def ReplaceAll (s : GoString) (old : Char) (new : GoString) : GoString :=
  s.flatMap (fun c => if c = old then new else [c])

/-! ## The `net/url` package: `url.Values` and `url.ParseQuery` -/

/-- Type `url.Values`, a `map[string][]string`, as an association list with
one entry per key. -/
abbrev Values := List (GoString × List GoString)

/-- Method `Values.Get`: the first value stored under `key`, or `""`. -/
def Values.Get (v : Values) (key : GoString) : GoString :=
  match v.lookup key with
  | some (x :: _) => x
  | _ => []

/-- Statement `m[key] = append(m[key], value)`. -/
def Values.Add (v : Values) (key value : GoString) : Values :=
  match v.lookup key with
  | some _ => v.map (fun e => if e.1 = key then (e.1, e.2 ++ [value]) else e)
  | none => v ++ [(key, [value])]

/-- Function `ishex` of `net/url`. -/
def ishex (c : Char) : Bool :=
  ('0' ≤ c && c ≤ '9') || ('a' ≤ c && c ≤ 'f') || ('A' ≤ c && c ≤ 'F')

/-- Function `unhex` of `net/url`. -/
def unhex (c : Char) : Nat :=
  if '0' ≤ c && c ≤ '9' then c.toNat - '0'.toNat
  else if 'a' ≤ c && c ≤ 'f' then c.toNat - 'a'.toNat + 10
  else if 'A' ≤ c && c ≤ 'F' then c.toNat - 'A'.toNat + 10
  else 0

/-- Function `url.QueryUnescape`: `%XX` becomes the byte `XX`, `+` becomes a
space; `none` is the `EscapeError` for a `%` not followed by two hex digits. -/
def QueryUnescape : GoString → Option GoString
  | [] => some []
  | '%' :: a :: b :: rest =>
    if ishex a && ishex b then
      (QueryUnescape rest).map (fun t => Char.ofNat (16 * unhex a + unhex b) :: t)
    else none
  | '%' :: _ => none
  | c :: rest =>
    (QueryUnescape rest).map (fun t => (if c = '+' then ' ' else c) :: t)

/-- The error text of a failed `url.QueryUnescape`. -/
def escapeError : GoString := "invalid URL escape".toList

/-- The error text of `url.ParseQuery` for a piece that contains `;`. -/
def semicolonError : GoString := "invalid semicolon separator in query".toList

/-- One iteration of the loop of `parseQuery` in `net/url`, on the piece `key`
cut off the query at `&`. -/
def parseQueryStep (acc : Values × Option GoString) (key : GoString) :
    Values × Option GoString :=
  if Contains key ';' then (acc.1, some semicolonError)
  else if key = [] then acc
  else
    match QueryUnescape (Cut '=' key).1, QueryUnescape (Cut '=' key).2 with
    | some k, some v => (acc.1.Add k v, acc.2)
    | _, _ => (acc.1, if acc.2.isNone then some escapeError else acc.2)

/-- Function `url.ParseQuery`: the values it could parse and the first error
it met.  The loop `for query != "" { key, query, _ = strings.Cut(query, "&") … }`
visits the pieces of the query between `&`, in order. -/
def ParseQuery (query : GoString) : Values × Option GoString :=
  (Split '&' query).foldl parseQueryStep ([], none)

/-! ## The request -/

/-- The parts of an `*http.Request` that the handlers read. -/
structure Request where
  /-- Field `r.Method`. -/
  Method : GoString
  /-- Field `r.URL.RawQuery`. -/
  RawQuery : GoString
  /-- Result of `r.URL.String()`. -/
  URLString : GoString
  /-- Field `r.RemoteAddr`. -/
  RemoteAddr : GoString
  /-- Result of `r.Header.Get("User-Agent")`. -/
  UserAgent : GoString
  /-- Result of `r.Header.Get("X-Tracked")`. -/
  XTracked : GoString
  /-- Result of `r.BasicAuth()`. -/
  BasicAuth : GoString × GoString × Bool
  /-- Values of `parsePostForm(r)`: the form fields of the request body. -/
  PostForm : Values
  /-- Error of `parsePostForm(r)`. -/
  PostFormErr : Option GoString
  deriving DecidableEq

/-- Method name `"GET"`. -/
def GET : GoString := "GET".toList

/-- Method name `"POST"`. -/
def POST : GoString := "POST".toList

/-- Method `r.URL.Query()`: the parsed query, errors dropped. -/
def Request.Query (r : Request) : Values := (ParseQuery r.RawQuery).1

/-- Whether `r.ParseForm` reads the request body. -/
def Request.hasBodyForm (r : Request) : Bool :=
  r.Method = POST || r.Method = "PUT".toList || r.Method = "PATCH".toList

/-- Function `copyValues(dst, src)` of `net/http`. -/
def copyValues (dst src : Values) : Values :=
  src.foldl (fun d e => e.2.foldl (fun d2 v => Values.Add d2 e.1 v) d) dst

/-- Method `r.ParseForm()`: the resulting `r.Form` and the returned error (the
body's error first, else the query's). -/
def Request.ParseForm (r : Request) : Values × Option GoString :=
  let postForm : Values := if r.hasBodyForm then r.PostForm else []
  let err : Option GoString := if r.hasBodyForm then r.PostFormErr else none
  (copyValues postForm (ParseQuery r.RawQuery).1,
    if err.isSome then err else (ParseQuery r.RawQuery).2)

/-! ## The data model (`models` package) -/

/-- Modelled from the spec: type `models.BaseRecipient`, whose declaration is not
among the translated files; the fields are those `ValidateTemplate` sets. -/
structure BaseRecipient where
  Email : GoString
  FirstName : GoString
  LastName : GoString
  Position : GoString
  Custom : GoString
  deriving DecidableEq

/-- Modelled from the spec: type `models.Result` (§3, Result), whose declaration is
not among the translated files; the fields are those the translated code reads
and those §3 names for the status. -/
structure Result where
  Id : Int
  CampaignId : Int
  UserId : Int
  RId : GoString
  Status : GoString
  Reported : Bool
  SendDate : Time
  ModifiedDate : Time
  BaseRecipient : BaseRecipient
  deriving DecidableEq

/-- Modelled from the spec: type `models.EmailRequest` (§3, EmailRequest), a
preview, whose declaration is not among the translated files; the fields are
those the translated code reads. -/
structure EmailRequest where
  Id : Int
  UserId : Int
  PageId : Int
  RId : GoString
  BaseRecipient : BaseRecipient
  deriving DecidableEq

/-- Modelled from the spec: type `models.Campaign` (§3, Campaign), whose
declaration is not among the translated files. -/
structure Campaign where
  Id : Int
  UserId : Int
  Status : GoString
  PageId : Int
  URLParam : GoString
  CreatedDate : Time
  HTTPAuth : Bool
  deriving DecidableEq

/-- Modelled from the spec: type `models.Page` (§4.4), whose declaration is not
among the translated files; the fields are those the translated code reads. -/
structure Page where
  HTML : GoString
  RedirectURL : GoString
  CapturePasswords : Bool
  deriving DecidableEq

/-- Modelled from the spec: type `models.EventDetails` (§3, EventDetails), whose
declaration is not among the translated files. -/
structure EventDetails where
  Payload : Values
  Browser : List (GoString × GoString)
  deriving DecidableEq

/-- Type `models.PhishingTemplateContext` (`template_context.go`). -/
structure PhishingTemplateContext where
  From : GoString
  URL : GoString
  Tracker : GoString
  TrackingURL : GoString
  RId : GoString
  BaseURL : GoString
  QRBase64 : GoString
  QRName : GoString
  QR : GoString
  BaseRecipient : BaseRecipient
  deriving DecidableEq

/-- The two implementations of the interface `models.TemplateContext` that the
handlers pass to `NewPhishingTemplateContext`. -/
inductive TemplateSource where
  | campaign (c : Campaign)
  | emailRequest (e : EmailRequest)
  deriving DecidableEq

/-- Type `TransparencyResponse` of `controllers/phish.go`. -/
structure TransparencyResponse where
  Server : GoString
  ContactAddress : GoString
  SendDate : Time
  deriving DecidableEq

/-- An `error` value.  `ErrInvalidRequest` and `ErrCampaignComplete` are the two
sentinels of `controllers/phish.go`; every error that comes out of a
collaborator (a store, the form parser) is some other value, carried with its
text. -/
inductive Err where
  | ErrInvalidRequest
  | ErrCampaignComplete
  | other (text : GoString)
  deriving DecidableEq

/-- Constant `TransparencySuffix`. -/
def TransparencySuffix : GoString := "+".toList

/-- A call to the store layer, as written in the call log.  A method of a
`Result` is logged with the `RId` of its receiver. -/
inductive Call where
  | GetEmailRequestByResultId (id : GoString)
  | GetResult (id : GoString)
  | GetCampaign (id uid : Int)
  | GetPage (id uid : Int)
  | UpdateGeo (rid : GoString) (ip : GoString)
  | HandleEmailOpened (rid : GoString) (d : EventDetails)
  | HandleClickedLink (rid : GoString) (d : EventDetails)
  | HandleFormSubmit (rid : GoString) (d : EventDetails)
  | HandleEmailReport (rid : GoString) (d : EventDetails)
  deriving DecidableEq

/-- Whether a call is one of the four event recorders `Handle*`. -/
def Call.isRecorder : Call → Bool
  | .HandleEmailOpened _ _ => true
  | .HandleClickedLink _ _ => true
  | .HandleFormSubmit _ _ => true
  | .HandleEmailReport _ _ => true
  | _ => false

/-- Whether a call is `UpdateGeo`. -/
def Call.isUpdateGeo : Call → Bool
  | .UpdateGeo _ _ => true
  | _ => false

/-- Whether a call is a lookup in a store. -/
def Call.isLookup : Call → Bool
  | .GetEmailRequestByResultId _ => true
  | .GetResult _ => true
  | .GetCampaign _ _ => true
  | .GetPage _ _ => true
  | _ => false

/-- What rendering `templates/404.html` does in `customNotFound`. -/
inductive NotFoundTemplate where
  | parseFails
  | executeFails
  | renders (body : GoString)
  deriving DecidableEq

/-- The collaborators of the phishing server, over a database state `σ`:
the constants and functions of the `models` and `config` packages and of the
libraries that `controllers/phish.go` calls.  A lookup reads the database; a
method with a pointer receiver returns the new database, the receiver as the
method left it, and its error. -/
structure Env (σ : Type) where
  /-- Constant `models.PreviewPrefix`. -/
  PreviewPrefix : GoString
  /-- Constant `models.CampaignComplete`. -/
  CampaignComplete : GoString
  /-- Constant `config.ServerName`. -/
  ServerName : GoString
  GetEmailRequestByResultId : σ → GoString → Except GoString EmailRequest
  GetResult : σ → GoString → Except GoString Result
  GetCampaign : σ → Int → Int → Except GoString Campaign
  GetPage : σ → Int → Int → Except GoString Page
  UpdateGeo : σ → Result → GoString → σ × Result × Option GoString
  HandleEmailOpened : σ → Result → EventDetails → σ × Result × Option GoString
  HandleClickedLink : σ → Result → EventDetails → σ × Result × Option GoString
  HandleFormSubmit : σ → Result → EventDetails → σ × Result × Option GoString
  HandleEmailReport : σ → Result → EventDetails → σ × Result × Option GoString
  NewPhishingTemplateContext :
    TemplateSource → BaseRecipient → GoString → Except GoString PhishingTemplateContext
  ExecuteTemplate : GoString → PhishingTemplateContext → Except GoString GoString
  /-- Function `net.SplitHostPort`: host and port, or `none` on error. -/
  SplitHostPort : GoString → Option (GoString × GoString)
  /-- Method `Sanitize` of `bluemonday.StripTagsPolicy()`. -/
  Sanitize : GoString → GoString
  /-- Outcome of `templates/404.html` in `customNotFound`. -/
  notFoundTemplate : NotFoundTemplate
  /-- Whether `tracked-data.csv` can be opened and written. -/
  trackedFileWritable : Bool

/-! ## Request context setup (`setupContext`) -/

/-- The dynamic value stored under the context key `"result"`. -/
inductive Subject where
  | live (rs : Result)
  | preview (er : EmailRequest)
  deriving DecidableEq

/-- Modelled from the spec: the request context of package `context` (`ctx.Set`,
`ctx.Get`), which is not among the translated files: a string-keyed bag read
with unchecked casts (§9).  It holds the values set under the keys `"rid"`,
`"result"`, `"campaign"` and `"details"`; `none` is a key that was never set, for
which `ctx.Get` returns `nil`, and the cast of `nil` to a struct type panics. -/
structure Ctx where
  rid : Option GoString := none
  result : Option Subject := none
  campaign : Option Campaign := none
  details : Option EventDetails := none
  deriving DecidableEq

/-- The result of `setupContext`: the database and the call log after it, the
context of the returned request and the returned error. -/
structure SetupResult (σ : Type) where
  db : σ
  calls : List Call
  ctx : Ctx
  err : Option Err

/-- The default parameter name. -/
def defaultParam : GoString := "rid".toList

/-- The choice of `urlparam` in `setupContext`, from `r.URL.RawQuery`. -/
def urlparamOf (queryString : GoString) : GoString :=
  if queryString ≠ [] then
    let pairs := Split '&' queryString
    if pairs.length > 0 then
      let lastPair := pairs.getLastD []
      if Contains lastPair '=' then
        let keyValue := Split '=' lastPair
        if keyValue.length > 0 ∧ keyValue.headD [] ≠ [] then keyValue.headD []
        else defaultParam
      else defaultParam
    else defaultParam
  else defaultParam

/-- The rid as `setupContext` stores it: a value that ends with a space loses
its trailing spaces and gets the transparency suffix. -/
def normalizeRid (rid : GoString) : GoString :=
  if HasSuffix rid " ".toList then TrimRight rid ' ' ++ TransparencySuffix else rid

/-- The value `setupContext` reads as the RID:
`rid := r.URL.Query().Get(urlparam)`. -/
def ridValue (r : Request) : GoString := r.Query.Get (urlparamOf r.RawQuery)

/-- The key `setupContext` looks up in the stores:
`id := strings.TrimSuffix(rid, TransparencySuffix)`, for the rid as stored. -/
def lookupKey (r : Request) : GoString :=
  TrimSuffix (normalizeRid (ridValue r)) TransparencySuffix

/-- The client address in `setupContext`: the host of `r.RemoteAddr`, or all of
`r.RemoteAddr` when `net.SplitHostPort` fails. -/
def clientIP {σ : Type} (env : Env σ) (r : Request) : GoString :=
  match env.SplitHostPort r.RemoteAddr with
  | some hp => hp.1
  | none => r.RemoteAddr

/-- Function `setupContext`. -/
def setupContext {σ : Type} (env : Env σ) (db : σ) (r : Request) : SetupResult σ :=
  match r.ParseForm.2 with
  | some e => ⟨db, [], {}, some (.other e)⟩
  | none =>
    if ridValue r = [] then ⟨db, [], {}, some .ErrInvalidRequest⟩
    else
      let rid := normalizeRid (ridValue r)
      let id := lookupKey r
      if HasPrefix id env.PreviewPrefix then
        match env.GetEmailRequestByResultId db id with
        | .error e => ⟨db, [.GetEmailRequestByResultId id], {}, some (.other e)⟩
        | .ok rs =>
          ⟨db, [.GetEmailRequestByResultId id], { result := some (.preview rs) }, none⟩
      else
        match env.GetResult db id with
        | .error e => ⟨db, [.GetResult id], {}, some (.other e)⟩
        | .ok rs =>
          match env.GetCampaign db rs.CampaignId rs.UserId with
          | .error e =>
            ⟨db, [.GetResult id, .GetCampaign rs.CampaignId rs.UserId], {}, some (.other e)⟩
          | .ok c =>
            if c.Status = env.CampaignComplete then
              ⟨db, [.GetResult id, .GetCampaign rs.CampaignId rs.UserId], {},
                some .ErrCampaignComplete⟩
            else
              let ip := clientIP env r
              let geo := env.UpdateGeo db rs ip
              let d : EventDetails :=
                { Payload := r.ParseForm.1,
                  Browser := [("address".toList, ip), ("user-agent".toList, r.UserAgent)] }
              ⟨geo.1,
                [.GetResult id, .GetCampaign rs.CampaignId rs.UserId, .UpdateGeo rs.RId ip],
                { rid := some rid, result := some (.live geo.2.1), campaign := some c,
                  details := some d },
                none⟩

/-! ## The HTTP surface (`controllers/phish.go`) -/

/-- An operation on the `http.ResponseWriter`, in the order the handler
performs it. -/
inductive RespOp where
  | SetHeader (key value : GoString)
  | AddHeader (key value : GoString)
  | WriteHeader (code : Nat)
  | Write (body : GoString)
  | ServeFile (name : GoString)
  | Redirect (url : GoString) (code : Nat)
  | NotFound
  | JSONResponse (tr : TransparencyResponse) (code : Nat)
  deriving DecidableEq

/-- How a handler ended: it returned, it panicked, or `log.Fatal` ended the
process. -/
inductive Outcome where
  | returned
  | panicked
  | exited
  deriving DecidableEq

/-- Everything a handler can change: the database, the call log, the response
and the lines appended to `tracked-data.csv`. -/
structure World (σ : Type) where
  db : σ
  calls : List Call
  resp : List RespOp
  tracked : List GoString

/-- The result of a handler. -/
structure HandlerResult (σ : Type) where
  world : World σ
  outcome : Outcome

/-- Append operations to the response. -/
def World.emit {σ : Type} (w : World σ) (ops : List RespOp) : World σ :=
  { w with resp := w.resp ++ ops }

/-- Record a store call and the database it leaves. -/
def World.call {σ : Type} (w : World σ) (db : σ) (c : Call) : World σ :=
  { w with db := db, calls := w.calls ++ [c] }

/-- Type `PhishingServer`: the field the handlers read. -/
structure PhishingServer where
  contactAddress : GoString

/-- The path of the tracking pixel. -/
def pixelPath : GoString := "static/images/pixel.png".toList

/-- Function `customError`. -/
def customError (error : GoString) (code : Nat) : List RespOp :=
  [ .SetHeader "Server".toList "Microsoft-IIS/10.0".toList,
    .SetHeader "Content-Type".toList "text/html; charset=utf-8".toList,
    .SetHeader "X-Content-Type-Options".toList "nosniff".toList,
    .SetHeader "X-XSS-Protection".toList "1; mode=block".toList,
    .SetHeader "X-Frame-Options".toList "SAMEORIGIN".toList,
    .SetHeader "Content-Security-Policy".toList "default-src https:".toList,
    .WriteHeader code,
    .Write (error ++ "\n".toList) ]

/-- Function `customNotFound`. -/
def customNotFound {σ : Type} (env : Env σ) (w : World σ) : HandlerResult σ :=
  match env.notFoundTemplate with
  | .parseFails => ⟨w, .exited⟩
  | .executeFails => ⟨w.emit [.NotFound], .returned⟩
  | .renders body => ⟨w.emit (customError body 404), .returned⟩

/-- Method `TransparencyHandler`. -/
def TransparencyHandler {σ : Type} (ps : PhishingServer) (env : Env σ) (ctx : Ctx)
    (w : World σ) : HandlerResult σ :=
  match ctx.result with
  | some (.live rs) =>
    ⟨w.emit [.JSONResponse
      { Server := env.ServerName, SendDate := rs.SendDate,
        ContactAddress := ps.contactAddress } 200], .returned⟩
  | _ => ⟨w, .panicked⟩

/-- Method `TrackHandler`. -/
def TrackHandler {σ : Type} (ps : PhishingServer) (env : Env σ) (db : σ) (r : Request) :
    HandlerResult σ :=
  let s := setupContext env db r
  let w : World σ := ⟨s.db, s.calls, [], []⟩
  match s.err with
  | some _ => customNotFound env w
  | none =>
    match s.ctx.result with
    | some (.preview _) => ⟨w.emit [.ServeFile pixelPath], .returned⟩
    | none => ⟨w, .panicked⟩
    | some (.live rs) =>
      match s.ctx.rid, s.ctx.details with
      | some rid, some d =>
        if HasSuffix rid TransparencySuffix then TransparencyHandler ps env s.ctx w
        else
          let h := env.HandleEmailOpened w.db rs d
          ⟨(w.call h.1 (.HandleEmailOpened rs.RId d)).emit [.ServeFile pixelPath], .returned⟩
      | _, _ => ⟨w, .panicked⟩

/-- Method `ReportHandler`. -/
def ReportHandler {σ : Type} (ps : PhishingServer) (env : Env σ) (db : σ) (r : Request) :
    HandlerResult σ :=
  let s := setupContext env db r
  let w : World σ :=
    ⟨s.db, s.calls, [.SetHeader "Access-Control-Allow-Origin".toList "*".toList], []⟩
  match s.err with
  | some _ => customNotFound env w
  | none =>
    match s.ctx.result with
    | some (.preview _) => ⟨w.emit [.WriteHeader 204], .returned⟩
    | none => ⟨w, .panicked⟩
    | some (.live rs) =>
      match s.ctx.rid, s.ctx.details with
      | some rid, some d =>
        if HasSuffix rid TransparencySuffix then TransparencyHandler ps env s.ctx w
        else
          let h := env.HandleEmailReport w.db rs d
          ⟨(w.call h.1 (.HandleEmailReport rs.RId d)).emit [.WriteHeader 204], .returned⟩
      | _, _ => ⟨w, .panicked⟩

/-- Function `customTrackedPhishRequests`, with `appendToFile`. -/
def customTrackedPhishRequests {σ : Type} (env : Env σ) (r : Request) (w : World σ) :
    World σ :=
  let data := ReplaceAll r.URLString '/' []
  let data := ReplaceAll data '?' ",".toList
  let data := ReplaceAll data '&' ",".toList
  if env.trackedFileWritable then { w with tracked := w.tracked ++ [data ++ "\n".toList] }
  else w

/-- Function `renderPhishResponse`. -/
def renderPhishResponse {σ : Type} (env : Env σ) (r : Request)
    (ptx : PhishingTemplateContext) (p : Page) (w : World σ) : HandlerResult σ :=
  if r.Method = POST ∧ p.RedirectURL ≠ [] then
    match env.ExecuteTemplate p.RedirectURL ptx with
    | .error _ => customNotFound env w
    | .ok redirectURL => ⟨w.emit [.Redirect redirectURL 302], .returned⟩
  else
    match env.ExecuteTemplate p.HTML ptx with
    | .error _ => customNotFound env w
    | .ok html => ⟨w.emit [.Write html], .returned⟩

/-- The body of the 401 response of `renderBasicAuth`. -/
def unauthorizedBody : GoString :=
  ['{', '"'] ++ "message".toList ++ ['"', ':', ' ', '"'] ++
    "You are not authorized to view this page.".toList ++ ['"', '}']

/-- Function `renderBasicAuth`. -/
def renderBasicAuth {σ : Type} (env : Env σ) (r : Request)
    (ptx : PhishingTemplateContext) (p : Page) (w : World σ) : HandlerResult σ :=
  if r.BasicAuth.2.2 = true ∧ r.BasicAuth.1 ≠ [] ∧ r.BasicAuth.2.1 ≠ [] then
    match env.ExecuteTemplate p.RedirectURL ptx with
    | .error _ => customNotFound env w
    | .ok redirectURL => ⟨w.emit [.Redirect redirectURL 302], .returned⟩
  else
    ⟨w.emit
      [ .AddHeader "WWW-Authenticate".toList
          ("Basic realm=".toList ++ ['"'] ++ env.Sanitize p.HTML ++ ['"']),
        .WriteHeader 401,
        .Write unauthorizedBody ], .returned⟩

/-- The zero value `PhishingTemplateContext{}`, which
`NewPhishingTemplateContext` returns next to an error. -/
def zeroPTX : PhishingTemplateContext :=
  { From := [], URL := [], Tracker := [], TrackingURL := [], RId := [], BaseURL := [],
    QRBase64 := [], QRName := [], QR := [], BaseRecipient := ⟨[], [], [], [], []⟩ }

/-- The recording step of `PhishHandler` for a live Result: the world and the
Result as the recorder left them. -/
def recordPhish {σ : Type} (env : Env σ) (r : Request) (c : Campaign) (p : Page)
    (rs : Result) (d : EventDetails) (w : World σ) : World σ × Result :=
  if ¬ c.HTTPAuth then
    if r.Method = GET then
      let h := env.HandleClickedLink w.db rs d
      (w.call h.1 (.HandleClickedLink rs.RId d), h.2.1)
    else if r.Method = POST then
      let h := env.HandleFormSubmit w.db rs d
      (w.call h.1 (.HandleFormSubmit rs.RId d), h.2.1)
    else (w, rs)
  else
    let username := r.BasicAuth.1
    let password := r.BasicAuth.2.1
    let ok := r.BasicAuth.2.2
    if ¬ ok ∧ (username = [] ∨ password = []) then
      let h := env.HandleClickedLink w.db rs d
      (w.call h.1 (.HandleClickedLink rs.RId d), h.2.1)
    else if ok ∧ (username = [] ∨ password = []) then (w, rs)
    else
      let payload : Values :=
        if p.CapturePasswords then
          [("Username".toList, [username]), ("Password".toList, [password])]
        else [("Username".toList, [username])]
      let d2 : EventDetails := { d with Payload := payload }
      let h := env.HandleFormSubmit w.db rs d2
      (w.call h.1 (.HandleFormSubmit rs.RId d2), h.2.1)

/-- The response step of `PhishHandler` for a live Result, from
`ptx, err = models.NewPhishingTemplateContext(&c, rs.BaseRecipient, rs.RId)` to the
end of the function.  After `customNotFound` the function does not return. -/
def respondPhish {σ : Type} (env : Env σ) (r : Request) (c : Campaign) (p : Page)
    (rs : Result) (w : World σ) : HandlerResult σ :=
  match env.NewPhishingTemplateContext (.campaign c) rs.BaseRecipient rs.RId with
  | .error _ =>
    let nf := customNotFound env w
    match nf.outcome with
    | .returned =>
      if ¬ c.HTTPAuth then renderPhishResponse env r zeroPTX p nf.world
      else renderBasicAuth env r zeroPTX p nf.world
    | _ => nf
  | .ok ptx =>
    if ¬ c.HTTPAuth then renderPhishResponse env r ptx p w
    else renderBasicAuth env r ptx p w

/-- Method `PhishHandler`. -/
def PhishHandler {σ : Type} (ps : PhishingServer) (env : Env σ) (db : σ) (r : Request) :
    HandlerResult σ :=
  let s := setupContext env db r
  let w : World σ := ⟨s.db, s.calls, [], []⟩
  match s.err with
  | some _ =>
    customNotFound env
      (if r.XTracked = "true".toList then customTrackedPhishRequests env r w else w)
  | none =>
    match s.ctx.campaign with
    | none => ⟨w, .panicked⟩
    | some c =>
      let w := w.emit [.SetHeader "X-Server".toList env.ServerName]
      match s.ctx.result with
      | some (.preview preview) =>
        match env.NewPhishingTemplateContext (.emailRequest preview) preview.BaseRecipient
            preview.RId with
        | .error _ => customNotFound env w
        | .ok ptx =>
          let w := w.call w.db (.GetPage preview.PageId preview.UserId)
          match env.GetPage w.db preview.PageId preview.UserId with
          | .error _ => customNotFound env w
          | .ok p =>
            if ¬ c.HTTPAuth then renderPhishResponse env r ptx p w
            else renderBasicAuth env r ptx p w
      | none => ⟨w, .panicked⟩
      | some (.live rs) =>
        match s.ctx.rid, s.ctx.details with
        | some rid, some d =>
          if HasSuffix rid TransparencySuffix then TransparencyHandler ps env s.ctx w
          else
            let w := w.call w.db (.GetPage c.PageId c.UserId)
            match env.GetPage w.db c.PageId c.UserId with
            | .error _ => customNotFound env w
            | .ok p =>
              let rec1 := recordPhish env r c p rs d w
              respondPhish env r c p rec1.2 rec1.1
        | _, _ => ⟨w, .panicked⟩

/-! ## The parameter name as the specification words it -/

/-- The RID parameter name in the words of the specification: split the raw
query on `&`; when the last piece contains `=` and the text before its first
`=` is not empty, that text; in every other case `rid`. -/
def specParamName (rawQuery : GoString) : GoString :=
  let lastPiece := (Split '&' rawQuery).getLastD []
  if Contains lastPiece '=' ∧ (Cut '=' lastPiece).1 ≠ [] then (Cut '=' lastPiece).1
  else defaultParam

/-- The event recorders in a call log, in order. -/
def recorderCalls (calls : List Call) : List Call := calls.filter Call.isRecorder

/-- The seven ways `setupContext` can end. -/
inductive SetupCase {σ : Type} (env : Env σ) (db : σ) (r : Request) : Prop where
  | parseError (e : GoString) (h : r.ParseForm.2 = some e)
  | empty (h : r.ParseForm.2 = none) (hv : ridValue r = [])
  | previewError (e : GoString) (h : r.ParseForm.2 = none) (hv : ridValue r ≠ [])
      (hp : HasPrefix (lookupKey r) env.PreviewPrefix = true)
      (hr : env.GetEmailRequestByResultId db (lookupKey r) = .error e)
  | preview (er : EmailRequest) (h : r.ParseForm.2 = none) (hv : ridValue r ≠ [])
      (hp : HasPrefix (lookupKey r) env.PreviewPrefix = true)
      (hr : env.GetEmailRequestByResultId db (lookupKey r) = .ok er)
  | resultError (e : GoString) (h : r.ParseForm.2 = none) (hv : ridValue r ≠ [])
      (hp : HasPrefix (lookupKey r) env.PreviewPrefix = false)
      (hr : env.GetResult db (lookupKey r) = .error e)
  | campaignError (rs : Result) (e : GoString) (h : r.ParseForm.2 = none)
      (hv : ridValue r ≠ [])
      (hp : HasPrefix (lookupKey r) env.PreviewPrefix = false)
      (hr : env.GetResult db (lookupKey r) = .ok rs)
      (hc : env.GetCampaign db rs.CampaignId rs.UserId = .error e)
  | complete (rs : Result) (c : Campaign) (h : r.ParseForm.2 = none)
      (hv : ridValue r ≠ [])
      (hp : HasPrefix (lookupKey r) env.PreviewPrefix = false)
      (hr : env.GetResult db (lookupKey r) = .ok rs)
      (hc : env.GetCampaign db rs.CampaignId rs.UserId = .ok c)
      (hs : c.Status = env.CampaignComplete)
  | live (rs : Result) (c : Campaign) (h : r.ParseForm.2 = none)
      (hv : ridValue r ≠ [])
      (hp : HasPrefix (lookupKey r) env.PreviewPrefix = false)
      (hr : env.GetResult db (lookupKey r) = .ok rs)
      (hc : env.GetCampaign db rs.CampaignId rs.UserId = .ok c)
      (hs : c.Status ≠ env.CampaignComplete)

/-! ## The header `X-Server` of a response -/

/-- Method `RobotsHandler`: `fmt.Fprintln(w, "User-agent: *\nDisallow: /")`. -/
def RobotsHandler {σ : Type} (_ps : PhishingServer) (_env : Env σ) (db : σ)
    (_r : Request) : HandlerResult σ :=
  ⟨⟨db, [], [.Write ("User-agent: *\nDisallow: /".toList ++ "\n".toList)], []⟩, .returned⟩

/-- The name of the header `X-Server`. -/
def xServerKey : GoString := "X-Server".toList

/-- Whether an operation on the response writer sets or adds the header
`X-Server`. -/
def RespOp.touchesXServer : RespOp → Bool
  | .SetHeader key _ => key = xServerKey
  | .AddHeader key _ => key = xServerKey
  | _ => false

/-- The value of the header `X-Server` that the client receives, from the value
`h` it has before the operations `ops`: `Header().Set` and `Header().Add` change
the header map until the first operation that writes the status line, which
sends the map as it is; a handler that writes nothing sends it when it
returns. -/
def xServerSent : List RespOp → Option GoString → Option GoString
  | [], h => h
  | .SetHeader key value :: rest, h =>
    xServerSent rest (if key = xServerKey then some value else h)
  | .AddHeader key value :: rest, h =>
    xServerSent rest (if key = xServerKey ∧ h = none then some value else h)
  | _ :: _, h => h

/-- The value of the header `X-Server` in the response of a handler. -/
def responseXServer (resp : List RespOp) : Option GoString := xServerSent resp none

/-! ## What `PhishHandler` does on a campaign with HTTP auth -/

/-- Whether `HandleFormSubmit` is in a call log. -/
def callsFormSubmit (calls : List Call) : Bool :=
  calls.any (fun c =>
    match c with
    | .HandleFormSubmit _ _ => true
    | _ => false)

/-- Whether an operation on the response writer only changes the header map. -/
def RespOp.isHeaderOp : RespOp → Bool
  | .SetHeader _ _ => true
  | .AddHeader _ _ => true
  | _ => false

/-- The answer the client receives: the first operation that writes the status
line.  What the handler writes after it cannot change the status any more. -/
def answer (resp : List RespOp) : Option RespOp :=
  resp.find? (fun op => !op.isHeaderOp)

/-- The world of `PhishHandler` for an accepted request for a live Result of the
campaign `c`, after `models.GetPage` and before the recording step. -/
def phishWorld {σ : Type} (env : Env σ) (db : σ) (r : Request) (c : Campaign) : World σ :=
  World.call
    (World.emit ⟨(setupContext env db r).db, (setupContext env db r).calls, [], []⟩
      [.SetHeader "X-Server".toList env.ServerName])
    (setupContext env db r).db (.GetPage c.PageId c.UserId)

/-- The Result as the recording step of `PhishHandler` leaves it: the receiver
`rs` of the recorder that was called. -/
def recordedResult {σ : Type} (env : Env σ) (db : σ) (r : Request) (c : Campaign)
    (p : Page) (rs : Result) (d : EventDetails) : Result :=
  (recordPhish env r c p rs d (phishWorld env db r c)).2

/-! ## The store lookup of `setupContext` -/

/-- The store lookup that `setupContext` makes with the key `id`: in the
previews when `id` has the preview prefix, else in the Results. -/
def lookupCall {σ : Type} (env : Env σ) (id : GoString) : Call :=
  if HasPrefix id env.PreviewPrefix then .GetEmailRequestByResultId id else .GetResult id

/-- The key `id` resolves to the live Result `rs` of the campaign `c`, which is
not completed. -/
def ResolvesLive {σ : Type} (env : Env σ) (db : σ) (id : GoString) (rs : Result)
    (c : Campaign) : Prop :=
  HasPrefix id env.PreviewPrefix = false ∧ env.GetResult db id = .ok rs ∧
    env.GetCampaign db rs.CampaignId rs.UserId = .ok c ∧ c.Status ≠ env.CampaignComplete

/-! ## The mailbox monitor (`imap/monitor.go`): data -/

/-- A Go `map[string]V`, as an association list with one entry per key. -/
abbrev GoMap (ν : Type) := List (GoString × ν)

/-- The lookup `m[key]` with its presence flag. -/
def GoMap.get? {ν : Type} (m : GoMap ν) (key : GoString) : Option ν := m.lookup key

/-- The assignment `m[key] = value`. -/
def GoMap.set {ν : Type} (m : GoMap ν) (key : GoString) (value : ν) : GoMap ν :=
  match m.lookup key with
  | some _ => m.map (fun e => if e.1 = key then (key, value) else e)
  | none => m ++ [(key, value)]

/-- The keys of a map. -/
def GoMap.keys {ν : Type} (m : GoMap ν) : List GoString := m.map Prod.fst

/-- A compiled `*regexp.Regexp`, identified by the pattern it was compiled
from. -/
structure Regexp where
  pattern : GoString
  deriving DecidableEq

/-- The pattern of `goPhishRegex`, the default regex. -/
def goPhishPattern : GoString :=
  "((\\?|%3F)rid(=|%3D)(3D)?([A-Za-z0-9]\x7b7\x7d))".toList

/-- Variable `goPhishRegex`. -/
def goPhishRegex : Regexp := ⟨goPhishPattern⟩

/-- The anchored pattern for the parameter name `p`:
`(?i)((\?|%3F|\s\?|\s%3F)p(=|%3D|\s=|\s%3D)(3D)?([A-Za-z0-9]+))`. -/
def anchoredPattern (p : GoString) : GoString :=
  "(?i)((\\?|%3F|\\s\\?|\\s%3F)".toList ++ p ++
    "(=|%3D|\\s=|\\s%3D)(3D)?([A-Za-z0-9]+))".toList

/-- The direct pattern for the parameter name `p`:
`(?i)p\s*?[=:]\s*?([A-Za-z0-9]+)`. -/
def directPattern (p : GoString) : GoString :=
  "(?i)".toList ++ p ++ "\\s*?[=:]\\s*?([A-Za-z0-9]+)".toList

/-- The suffix of the key of a direct pattern. -/
def directSuffix : GoString := "_direct".toList

/-- Modelled from the spec: type `models.IMAP` (§3, MailboxAccount), whose
declaration is not among the translated files; the fields are those the monitor
reads. -/
structure IMAP where
  Id : Int
  UserId : Int
  Enabled : Bool
  Host : GoString
  Port : Nat
  Username : GoString
  Password : GoString
  TLS : Bool
  IgnoreCertErrors : Bool
  Folder : GoString
  RestrictDomain : GoString
  DeleteReportedCampaignEmail : Bool
  IMAPFreq : Nat
  LoginFailures : Nat
  ModifiedDate : Time
  deriving DecidableEq

/-- An attachment of an `email.Email`: its file name, the result of
`a.Header.Get("Content-Type")` and its content. -/
structure Attachment where
  Filename : GoString
  ContentType : GoString
  Content : GoString
  deriving DecidableEq

/-- The fields of `email.Email` that the monitor reads. -/
structure Email where
  From : GoString
  Subject : GoString
  Text : GoString
  HTML : GoString
  Attachments : List Attachment
  deriving DecidableEq

/-- Modelled from the spec: an unread message as the mailbox driver `GetUnread`
returns it (§4.6): its sequence number and the parsed email. -/
structure Message where
  SeqNum : Nat
  Email : Email
  deriving DecidableEq

/-- A call the monitor makes to a store or to the mailbox, as written in the
call log. -/
inductive MonitorCall where
  | RecordLoginFailure
  | SuccessfulLogin
  | RecordNonCampaignReport (userId imapId : Int) (reporter subject : GoString)
  | GetResult (rid : GoString)
  | HandleEmailReport (rid : GoString)
  | MarkAsUnread (seqs : List Nat)
  | DeleteEmails (seqs : List Nat)
  | MarkAsRead (seqs : List Nat)
  deriving DecidableEq

/-- Whether a call is `RecordNonCampaignReport`. -/
def MonitorCall.isNonCampaignReport : MonitorCall → Bool
  | .RecordNonCampaignReport _ _ _ _ => true
  | _ => false

/-- The collaborators of the monitor, over a database state `σ`. -/
structure MonitorEnv (σ : Type) where
  /-- Whether `regexp.Compile` accepts a pattern; `regexp.MustCompile` panics
  when it does not. -/
  compiles : GoString → Bool
  /-- Method `FindAllStringSubmatch(s, -1)`: for every match, the whole match
  followed by its capture groups. -/
  FindAllStringSubmatch : Regexp → GoString → List (List GoString)
  /-- The order in which `range` visits the entries of the regex map: some
  arrangement of them. -/
  rangeRegexes : GoMap Regexp → GoMap Regexp
  /-- The order in which `range` visits the keys of the rid set. -/
  rangeRids : List GoString → List GoString
  GetResult : σ → GoString → Except GoString Result
  HandleEmailReport : σ → Result → EventDetails → σ × Result × Option GoString
  RecordNonCampaignReport : σ → Int → Int → GoString → GoString → σ × Option GoString
  RecordLoginFailure : σ → IMAP → σ × IMAP × Option GoString
  SuccessfulLogin : σ → IMAP → σ × Option GoString
  /-- Function `email.NewEmailFromReader` on the content of an attachment. -/
  NewEmailFromReader : GoString → Except GoString Email

/-! ## The regex registry -/

/-- The process-wide variables of `imap/monitor.go`: the regex registry, its two
timestamps, and whether `regexUpdateMutex` is held. -/
structure MonitorState where
  paramRegexes : GoMap Regexp
  lastRegexUpdate : Time
  lastCampaignChangeTime : Time
  mutexHeld : Bool
  deriving DecidableEq

/-- The loop `for _, c := range campaigns` of `updateParameterRegexes`, on the
map and the set `seenParams`; the flag tells that `regexp.MustCompile`
panicked, with the map as it was at that point. -/
def addCampaignRegexes {σ : Type} (env : MonitorEnv σ) :
    List Campaign → GoMap Regexp → List GoString → GoMap Regexp × Bool
  | [], m, _ => (m, false)
  | c :: cs, m, seenParams =>
    if c.URLParam = [] ∨ c.URLParam ∈ seenParams then
      addCampaignRegexes env cs m seenParams
    else if env.compiles (anchoredPattern c.URLParam) = false then (m, true)
    else if env.compiles (directPattern c.URLParam) = false then
      (m.set c.URLParam ⟨anchoredPattern c.URLParam⟩, true)
    else
      addCampaignRegexes env cs
        ((m.set c.URLParam ⟨anchoredPattern c.URLParam⟩).set
          (c.URLParam ++ directSuffix) ⟨directPattern c.URLParam⟩)
        (c.URLParam :: seenParams)

/-- Function `updateParameterRegexes`, given the result of
`models.GetActiveCampaigns()`: the new registry, and whether it panicked. -/
def updateParameterRegexes {σ : Type} (env : MonitorEnv σ) (st : MonitorState)
    (active : Except GoString (List Campaign)) : MonitorState × Bool :=
  let cleared : GoMap Regexp := []
  match active with
  | .error _ => ({ st with paramRegexes := cleared }, false)
  | .ok campaigns =>
    if campaigns.length = 0 then
      ({ st with paramRegexes := cleared.set defaultParam goPhishRegex }, false)
    else
      let m := cleared.set defaultParam ⟨anchoredPattern defaultParam⟩
      let m := m.set (defaultParam ++ directSuffix) ⟨directPattern defaultParam⟩
      let out := addCampaignRegexes env campaigns m [defaultParam]
      ({ st with paramRegexes := out.1 }, out.2)

/-- Five minutes, in nanoseconds. -/
def fiveMinutes : Int := 5 * 60 * 1000000000

/-- The newest `CreatedDate` among the campaigns, or the zero time. -/
def latestCreatedDate (campaigns : List Campaign) : Time :=
  campaigns.foldl (fun latestDate c =>
    if c.CreatedDate > latestDate then c.CreatedDate else latestDate) 0

/-- Function `shouldUpdateRegexes`, given the result of
`models.GetActiveCampaigns()` and the current time: its answer and the state it
leaves. -/
def shouldUpdateRegexes (st : MonitorState) (active : Except GoString (List Campaign))
    (now : Time) : Bool × MonitorState :=
  match active with
  | .error _ => (true, st)
  | .ok campaigns =>
    let latestDate := latestCreatedDate campaigns
    if latestDate ≠ 0 ∧ latestDate > st.lastCampaignChangeTime then
      (true, { st with lastCampaignChangeTime := latestDate })
    else if now - st.lastRegexUpdate > fiveMinutes then (true, st)
    else (false, st)

/-- Function `NewMonitor`, from the zero-valued variables: the state it leaves,
or `none` when `updateParameterRegexes` panicked. -/
def NewMonitor {σ : Type} (env : MonitorEnv σ) (active : Except GoString (List Campaign))
    (now : Time) : Option MonitorState :=
  let out := updateParameterRegexes env ⟨[], 0, 0, false⟩ active
  if out.2 then none else some { out.1 with lastRegexUpdate := now }

/-! ## The message scan (`checkRIDs`, `matchEmail`) -/

/-- The loop of the fallback branch of `checkRIDs`: every match's last group is
put in the set. -/
def addDefaultMatches (rids : List GoString) (found : List (List GoString)) :
    List GoString :=
  found.foldl (fun rids r =>
    let newrid := r.getLastD []
    if newrid ∈ rids then rids else rids ++ [newrid]) rids

/-- The two loops over matches in the main branch of `checkRIDs`: the group
`pick r` of every match is put in the set when it is new and
`models.GetResult` finds it. -/
def addVerifiedMatches {σ : Type} (env : MonitorEnv σ) (db : σ)
    (pick : List GoString → GoString) (rids : List GoString)
    (found : List (List GoString)) : List GoString :=
  found.foldl (fun rids r =>
    let newrid := pick r
    if newrid ∈ rids then rids
    else
      match env.GetResult db newrid with
      | .error _ => rids
      | .ok _ => rids ++ [newrid]) rids

/-- The body of the loop `for paramName, regex := range paramRegexes` of
`checkRIDs`. -/
def checkParam {σ : Type} (env : MonitorEnv σ) (db : σ) (paramRegexes : GoMap Regexp)
    (emailContent : GoString) (rids : List GoString) (entry : GoString × Regexp) :
    List GoString :=
  if HasSuffix entry.1 directSuffix then rids
  else
    let rids := addVerifiedMatches env db (fun r => r.getLastD []) rids
      (env.FindAllStringSubmatch entry.2 emailContent)
    match paramRegexes.get? (entry.1 ++ directSuffix) with
    | some directRegex =>
      addVerifiedMatches env db (fun r => r.getD 1 []) rids
        (env.FindAllStringSubmatch directRegex emailContent)
    | none => rids

/-- Function `checkRIDs`: the rid set after scanning the text and the HTML of
one email. -/
def checkRIDs {σ : Type} (env : MonitorEnv σ) (db : σ) (paramRegexes : GoMap Regexp)
    (em : Email) (rids : List GoString) : List GoString :=
  let emailContent := em.Text ++ em.HTML
  if paramRegexes.length = 0 then
    addDefaultMatches rids (env.FindAllStringSubmatch goPhishRegex emailContent)
  else
    (env.rangeRegexes paramRegexes).foldl (checkParam env db paramRegexes emailContent) rids

/-- Function `filepath.Ext`. -/
def filepathExt (path : GoString) : GoString :=
  let tail := path.reverse.takeWhile (fun c => c ≠ '.' ∧ c ≠ '/')
  match path.reverse.drop tail.length with
  | '.' :: _ => '.' :: tail.reverse
  | _ => []

/-- The loop over the attachments in `matchEmail`. -/
def scanAttachments {σ : Type} (env : MonitorEnv σ) (db : σ)
    (paramRegexes : GoMap Regexp) :
    List Attachment → List GoString → List GoString × Option GoString
  | [], rids => (rids, none)
  | a :: rest, rids =>
    if a.ContentType = "message/rfc822".toList ∨ filepathExt a.Filename = ".eml".toList then
      match env.NewEmailFromReader a.Content with
      | .error e => (rids, some e)
      | .ok attachmentEmail =>
        scanAttachments env db paramRegexes rest
          (checkRIDs env db paramRegexes attachmentEmail rids)
    else scanAttachments env db paramRegexes rest rids

/-- Function `matchEmail`: the rid set and the error. -/
def matchEmail {σ : Type} (env : MonitorEnv σ) (db : σ) (paramRegexes : GoMap Regexp)
    (em : Email) : List GoString × Option GoString :=
  scanAttachments env db paramRegexes em.Attachments
    (checkRIDs env db paramRegexes em [])

/-! ## The polling cycle (`checkForNewEmails`) -/

/-- The variables of the classification loop of `checkForNewEmails`, with the
database and the call log. -/
structure LoopState (σ : Type) where
  db : σ
  calls : List MonitorCall
  reportingFailed : List Nat
  deleteEmails : List Nat
  processedEmails : List Nat

/-- The loop `for rid := range rids` of `checkForNewEmails` for the message with
sequence number `seq`, on the loop state and the flag `validRIDFound`. -/
def reportRids {σ : Type} (env : MonitorEnv σ) (seq : Nat) :
    List GoString → LoopState σ × Bool → LoopState σ × Bool
  | [], acc => acc
  | rid :: rest, (st, validRIDFound) =>
    match env.GetResult st.db rid with
    | .error _ =>
      reportRids env seq rest
        ({ st with calls := st.calls ++ [.GetResult rid],
                   reportingFailed := st.reportingFailed ++ [seq] }, validRIDFound)
    | .ok result =>
      reportRids env seq rest
        ({ st with db := (env.HandleEmailReport st.db result ⟨[], []⟩).1,
                   calls := st.calls ++ [.GetResult rid, .HandleEmailReport rid] }, true)

/-- Whether the sender passes the domain check of `checkForNewEmails`: no
`RestrictDomain` is set, or `From` has an `@` and the piece after its last `@`
is `RestrictDomain`. -/
def senderAllowed (im : IMAP) (m : Message) : Bool :=
  if im.RestrictDomain ≠ [] then
    if (Split '@' m.Email.From).length < 2 then false
    else if (Split '@' m.Email.From).getLastD [] ≠ im.RestrictDomain then false
    else true
  else true

/-- The body of the loop `for _, m := range msgs` of `checkForNewEmails`. -/
def processMessage {σ : Type} (env : MonitorEnv σ) (im : IMAP)
    (paramRegexes : GoMap Regexp) (st : LoopState σ) (m : Message) : LoopState σ :=
  let st := { st with processedEmails := st.processedEmails ++ [m.SeqNum] }
  if senderAllowed im m = false then st
  else
    match matchEmail env st.db paramRegexes m.Email with
    | (_, some _) => st
    | (rids, none) =>
      if rids.length < 1 then
        { st with
          db := (env.RecordNonCampaignReport st.db im.UserId im.Id m.Email.From
            m.Email.Subject).1,
          calls := st.calls ++
            [.RecordNonCampaignReport im.UserId im.Id m.Email.From m.Email.Subject] }
      else
        let out := reportRids env m.SeqNum (env.rangeRids rids) (st, false)
        if out.2 = true ∧ im.DeleteReportedCampaignEmail = true then
          { out.1 with processedEmails := out.1.processedEmails.erase m.SeqNum,
                       deleteEmails := out.1.deleteEmails ++ [m.SeqNum] }
        else out.1

/-- The part of `checkForNewEmails` after the classification loop: mark the
failed messages unread, delete, mark the rest read. -/
def finishCycle {σ : Type} (st : LoopState σ) : LoopState σ :=
  let st :=
    if st.reportingFailed.length > 0 then
      { st with calls := st.calls ++ [.MarkAsUnread st.reportingFailed],
                processedEmails :=
                  st.reportingFailed.foldl (fun p failedSeq => p.erase failedSeq)
                    st.processedEmails }
    else st
  let st :=
    if st.deleteEmails.length > 0 then
      { st with calls := st.calls ++ [.DeleteEmails st.deleteEmails] }
    else st
  if st.processedEmails.length > 0 then
    { st with calls := st.calls ++ [.MarkAsRead st.processedEmails] }
  else st

/-- What one polling cycle is given from outside: the two results of
`models.GetActiveCampaigns()`, the clock at the two places it is read, and the
result of `GetUnread`. -/
structure CycleInput where
  activeAtCheck : Except GoString (List Campaign)
  activeAtUpdate : Except GoString (List Campaign)
  nowAtCheck : Time
  nowAfterUpdate : Time
  unread : Except GoString (List Message)

/-- How a polling cycle ended: it returned, it recovered from a panic and
returned, or it blocks on `regexUpdateMutex`. -/
inductive CycleOutcome where
  | returned
  | recovered
  | blocked
  deriving DecidableEq

/-- The result of one polling cycle. -/
structure CycleResult (σ : Type) where
  state : MonitorState
  db : σ
  calls : List MonitorCall
  /-- The back-off that the cycle logged after a failed `GetUnread`. -/
  backoffSeconds : Option Nat
  outcome : CycleOutcome

/-- The refresh step at the head of `checkForNewEmails`, between the lock and
the unlock of `regexUpdateMutex`: the state it leaves and whether
`updateParameterRegexes` panicked, in which case the mutex stays held. -/
def refreshRegexes {σ : Type} (env : MonitorEnv σ) (st : MonitorState)
    (inp : CycleInput) : MonitorState × Bool :=
  let check := shouldUpdateRegexes st inp.activeAtCheck inp.nowAtCheck
  if check.1 then
    let out := updateParameterRegexes env check.2 inp.activeAtUpdate
    if out.2 then ({ out.1 with mutexHeld := true }, true)
    else ({ out.1 with lastRegexUpdate := inp.nowAfterUpdate }, false)
  else (check.2, false)

/-- Function `checkForNewEmails`. -/
def checkForNewEmails {σ : Type} (env : MonitorEnv σ) (im : IMAP) (st : MonitorState)
    (db : σ) (inp : CycleInput) : CycleResult σ :=
  if st.mutexHeld then ⟨st, db, [], none, .blocked⟩
  else
    let refreshed := refreshRegexes env st inp
    if refreshed.2 then ⟨refreshed.1, db, [], none, .recovered⟩
    else
      match inp.unread with
      | .error _ =>
        let failed := env.RecordLoginFailure db im
        let backoffSeconds :=
          if failed.2.1.LoginFailures > 1 then min 1800 (2 ^ failed.2.1.LoginFailures)
          else 60
        ⟨refreshed.1, failed.1, [.RecordLoginFailure], some backoffSeconds, .returned⟩
      | .ok msgs =>
        let login := env.SuccessfulLogin db im
        if msgs.length > 0 then
          let st0 : LoopState σ := ⟨login.1, [.SuccessfulLogin], [], [], []⟩
          let done := finishCycle
            (msgs.foldl (processMessage env im refreshed.1.paramRegexes) st0)
          ⟨refreshed.1, done.db, done.calls, none, .returned⟩
        else ⟨refreshed.1, login.1, [.SuccessfulLogin], none, .returned⟩

/-- The states of the regex registry that `NewMonitor` and polling cycles can
produce. -/
inductive Reachable {σ : Type} (env : MonitorEnv σ) : MonitorState → Prop where
  | newMonitor (active : Except GoString (List Campaign)) (now : Time) (st : MonitorState)
      (h : NewMonitor env active now = some st) : Reachable env st
  | cycle (im : IMAP) (st : MonitorState) (db : σ) (inp : CycleInput)
      (h : Reachable env st) : Reachable env (checkForNewEmails env im st db inp).state

/-! ## What the classification loop does with one message -/

/-- Whether a call is one of the three mailbox operations `MarkAsUnread`,
`DeleteEmails`, `MarkAsRead`. -/
def MonitorCall.isMailboxOp : MonitorCall → Bool
  | .MarkAsUnread _ => true
  | .DeleteEmails _ => true
  | .MarkAsRead _ => true
  | _ => false

/-- Whether `seq` is in a list passed to `MarkAsUnread`. -/
def passedToMarkAsUnread (calls : List MonitorCall) (seq : Nat) : Bool :=
  calls.any (fun c =>
    match c with
    | .MarkAsUnread seqs => seqs.contains seq
    | _ => false)

/-- Whether `seq` is in a list passed to `DeleteEmails`. -/
def passedToDeleteEmails (calls : List MonitorCall) (seq : Nat) : Bool :=
  calls.any (fun c =>
    match c with
    | .DeleteEmails seqs => seqs.contains seq
    | _ => false)

/-- Whether `seq` is in a list passed to `MarkAsRead`. -/
def passedToMarkAsRead (calls : List MonitorCall) (seq : Nat) : Bool :=
  calls.any (fun c =>
    match c with
    | .MarkAsRead seqs => seqs.contains seq
    | _ => false)

/-- Whether `DeleteEmails` is called at all. -/
def callsDeleteEmails (calls : List MonitorCall) : Bool :=
  calls.any (fun c =>
    match c with
    | .DeleteEmails _ => true
    | _ => false)

/-- The rids looked up with `models.GetResult` in a call log, in order. -/
def lookedUp (calls : List MonitorCall) : List GoString :=
  calls.filterMap (fun c =>
    match c with
    | .GetResult rid => some rid
    | _ => none)

/-- The outcomes of the lookups `models.GetResult(rid)` that the loop
`for rid := range rids` makes from the database `db`: for every rid in the order
of the loop, whether the lookup found a Result.  After a lookup that succeeds,
`HandleEmailReport` has written to the database. -/
def lookupOutcomes {σ : Type} (env : MonitorEnv σ) : List GoString → σ → List (GoString × Bool)
  | [], _ => []
  | rid :: rest, db =>
    match env.GetResult db rid with
    | .error _ => (rid, false) :: lookupOutcomes env rest db
    | .ok result =>
      (rid, true) :: lookupOutcomes env rest (env.HandleEmailReport db result ⟨[], []⟩).1

/-- The rids over which the body of the classification loop runs its rid loop
for the message `m`: none when the body leaves the message before that loop
(sender not allowed, scan error, no rid found). -/
def messageRids {σ : Type} (env : MonitorEnv σ) (im : IMAP) (paramRegexes : GoMap Regexp)
    (st : LoopState σ) (m : Message) : List GoString :=
  if senderAllowed im m = false then []
  else
    match matchEmail env st.db paramRegexes m.Email with
    | (_, some _) => []
    | (rids, none) => if rids.length < 1 then [] else env.rangeRids rids

/-- The outcomes of the Result-store lookups made for the message `m`. -/
def messageLookups {σ : Type} (env : MonitorEnv σ) (im : IMAP)
    (paramRegexes : GoMap Regexp) (st : LoopState σ) (m : Message) :
    List (GoString × Bool) :=
  lookupOutcomes env (messageRids env im paramRegexes st m) st.db

/-- Whether a lookup made for the message failed. -/
def lookupFailed (outcomes : List (GoString × Bool)) : Bool :=
  outcomes.any (fun o => !o.2)

/-- Whether a lookup made for the message found a Result: the value of
`validRIDFound` after the rid loop. -/
def lookupSucceeded (outcomes : List (GoString × Bool)) : Bool :=
  outcomes.any (fun o => o.2)

/-- The classification loop `for _, m := range msgs` of `checkForNewEmails`. -/
def classify {σ : Type} (env : MonitorEnv σ) (im : IMAP) (paramRegexes : GoMap Regexp)
    (msgs : List Message) (st : LoopState σ) : LoopState σ :=
  msgs.foldl (processMessage env im paramRegexes) st

/-- The loop state of `checkForNewEmails` before the classification loop. -/
def loopStart {σ : Type} (env : MonitorEnv σ) (im : IMAP) (db : σ) : LoopState σ :=
  ⟨(env.SuccessfulLogin db im).1, [.SuccessfulLogin], [], [], []⟩

/-- The registry with which a cycle scans its messages: the one the refresh
step leaves. -/
def cycleRegexes {σ : Type} (env : MonitorEnv σ) (st : MonitorState) (inp : CycleInput) :
    GoMap Regexp :=
  (refreshRegexes env st inp).1.paramRegexes

/-- The list `processedEmails` as it is passed to `MarkAsRead`: without one
occurrence for every entry of `reportingFailed`. -/
def remainingProcessed {σ : Type} (st : LoopState σ) : List Nat :=
  st.reportingFailed.foldl (fun p failedSeq => p.erase failedSeq) st.processedEmails

/-! ## The worker of one mailbox account (`monitorIMAPConfig`) -/

/-- A Go `time.Duration`, a number of nanoseconds.  The durations of the worker
stay far below the range of an `int64`, so they are not wrapped here. -/
abbrev Duration := Int

/-- Constant `time.Second`. -/
def Second : Duration := 1000000000

/-- Constant `time.Hour`. -/
def Hour : Duration := 3600 * Second

/-- Constant `minTimeBetweenChecks`. -/
def minTimeBetweenChecks : Int := 10

/-- A Go `map[int64]time.Time`, as an association list with one entry per key. -/
abbrev TimeMap := List (Int × Time)

/-- The lookup `m[id]` with its presence flag. -/
def TimeMap.get? (m : TimeMap) (id : Int) : Option Time := m.lookup id

/-- The assignment `m[id] = t`. -/
def TimeMap.set (m : TimeMap) (id : Int) (t : Time) : TimeMap :=
  match m.lookup id with
  | some _ => m.map (fun e => if e.1 = id then (id, t) else e)
  | none => m ++ [(id, t)]

/-- The variables `lastCheckTimes` and `lastConfigUpdateTimes`. -/
structure CheckTimes where
  lastCheckTimes : TimeMap
  lastConfigUpdateTimes : TimeMap
  deriving DecidableEq

/-- The clock at the four places where `monitorIMAPConfig` reads it:
`time.Now()` for an account without recorded check, `time.Since(lastCheckTime)`,
`startTime := time.Now()` and `time.Since(startTime)`. -/
structure ConfigClock where
  atEntry : Time
  atSince : Time
  atStart : Time
  atElapsed : Time
  deriving DecidableEq

/-- What one call of `monitorIMAPConfig` does: the two maps it leaves, the
duration of the `time.Sleep` before the check (0 when it does not sleep), the
`startTime` it records, the polling cycle, and the duration of the `time.Sleep`
after the check (0 when it does not sleep). -/
structure ConfigRun (σ : Type) where
  times : CheckTimes
  waitDuration : Duration
  startTime : Time
  cycle : CycleResult σ
  sleepDuration : Duration

/-- Function `monitorIMAPConfig`. -/
def monitorIMAPConfig {σ : Type} (env : MonitorEnv σ) (im : IMAP) (times : CheckTimes)
    (clock : ConfigClock) (st : MonitorState) (db : σ) (inp : CycleInput) : ConfigRun σ :=
  let lastCheckTime : Time :=
    match times.lastCheckTimes.get? im.Id with
    | some t => t
    | none => clock.atEntry + (-1) * Hour
  let lastConfigUpdateTimes : TimeMap :=
    match times.lastConfigUpdateTimes.get? im.Id with
    | some lastUpdateTime =>
      if im.ModifiedDate > lastUpdateTime then
        times.lastConfigUpdateTimes.set im.Id im.ModifiedDate
      else times.lastConfigUpdateTimes
    | none => times.lastConfigUpdateTimes.set im.Id im.ModifiedDate
  let timeSinceLastCheck : Duration := clock.atSince - lastCheckTime
  let minWaitTime : Duration := minTimeBetweenChecks * Second
  let waitDuration : Duration :=
    if timeSinceLastCheck < minWaitTime then minWaitTime - timeSinceLastCheck else 0
  let startTime := clock.atStart
  let lastCheckTimes := times.lastCheckTimes.set im.Id startTime
  let cycle := checkForNewEmails env im st db inp
  let elapsed : Duration := clock.atElapsed - startTime
  let sleepDuration : Duration := (im.IMAPFreq : Int) * Second - elapsed
  ⟨⟨lastCheckTimes, lastConfigUpdateTimes⟩, waitDuration, startTime, cycle,
    if sleepDuration > 0 then sleepDuration else 0⟩

/-- The wait before the check in the words of the specification: until
`max(10 s, imap_freq)` has passed since the last check. -/
def specWait (im : IMAP) (timeSinceLastCheck : Duration) : Duration :=
  max 0 (max (10 * Second) ((im.IMAPFreq : Int) * Second) - timeSinceLastCheck)

/-! ## The non-campaign log (`models/non_campaign.go`) -/

/-- Type `NonCampaignReport`, a row of the table `non_campaign_reports`. -/
structure NonCampaignReport where
  Id : Int
  UserId : Int
  ImapId : Int
  ReporterEmail : GoString
  Subject : GoString
  ReportedAt : Time
  deriving DecidableEq

/-- Type `NonCampaignStats`, a row of the table `non_campaign_stats`, with the
primary key `UserId`.  `ReportCount` is a Go `int`; a count of rows stays far
below its range, so it is not wrapped here. -/
structure NonCampaignStats where
  UserId : Int
  ReportCount : Int
  LastReportedAt : Time
  deriving DecidableEq

/-- The part of the database `db` that `models/non_campaign.go` uses: the two
tables, and the id the next inserted report gets. -/
structure NonCampaignDB where
  reports : List NonCampaignReport
  stats : List NonCampaignStats
  nextId : Int
  deriving DecidableEq

/-- The text of an error of the database. -/
def dbError : GoString := "database error".toList

/-- The statements of `RecordNonCampaignReport` that the database refuses in
one call; `findStats` is an error of the query for the stats row other than a
missing row. -/
structure RecordFaults where
  createReport : Bool
  findStats : Bool
  createStats : Bool
  saveStats : Bool
  commit : Bool
  deriving DecidableEq

/-- The statements of `ClearNonCampaignReports` that the database refuses in
one call. -/
structure ClearFaults where
  delete : Bool
  count : Bool
  updateStats : Bool
  commit : Bool
  deriving DecidableEq

/-- The query `Where("user_id = ?", userId).First(&stats)`. -/
def findStats (db : NonCampaignDB) (userId : Int) : Option NonCampaignStats :=
  db.stats.find? (fun s => s.UserId = userId)

/-- The end of a transaction: `tx.Commit()`; a refused commit leaves the
database `db` as it was before the transaction. -/
def commitTx (refused : Bool) (db tx : NonCampaignDB) : NonCampaignDB × Option GoString :=
  if refused then (db, some dbError) else (tx, none)

/-- Function `RecordNonCampaignReport`, with the two readings of the clock
(`time.Now().UTC()` for the report and for the stats row): the database it
leaves and the error it returns.  On every error the transaction is rolled
back. -/
def RecordNonCampaignReport (faults : RecordFaults) (nowReport nowStats : Time)
    (db : NonCampaignDB) (userId imapId : Int) (reporterEmail subject : GoString) :
    NonCampaignDB × Option GoString :=
  if faults.createReport then (db, some dbError)
  else
    let report : NonCampaignReport :=
      { Id := db.nextId, UserId := userId, ImapId := imapId,
        ReporterEmail := reporterEmail, Subject := subject, ReportedAt := nowReport }
    let tx : NonCampaignDB :=
      { db with reports := db.reports ++ [report], nextId := db.nextId + 1 }
    match (if faults.findStats then none else findStats tx userId) with
    | none =>
      if faults.createStats ∨ (findStats tx userId).isSome then (db, some dbError)
      else
        commitTx faults.commit db
          { tx with stats := tx.stats ++
              [{ UserId := userId, ReportCount := 1, LastReportedAt := nowStats }] }
    | some stats =>
      if faults.saveStats then (db, some dbError)
      else
        commitTx faults.commit db
          { tx with stats := tx.stats.map (fun s =>
              if s.UserId = userId then
                { stats with ReportCount := stats.ReportCount + 1,
                             LastReportedAt := nowStats }
              else s) }

/-- Function `GetNonCampaignStats`; `queryFails` is an error of the query other
than a missing row. -/
def GetNonCampaignStats (queryFails : Bool) (db : NonCampaignDB) (userId : Int) :
    NonCampaignStats × Option GoString :=
  if queryFails then ({ UserId := 0, ReportCount := 0, LastReportedAt := 0 }, some dbError)
  else
    match findStats db userId with
    | none => ({ UserId := userId, ReportCount := 0, LastReportedAt := 0 }, none)
    | some stats => (stats, none)

/-- The rows that `ClearNonCampaignReports` deletes: those of the user, and
when `imapId > 0` only those of that mailbox account. -/
def clearMatches (userId imapId : Int) (r : NonCampaignReport) : Bool :=
  r.UserId = userId && (if imapId > 0 then r.ImapId = imapId else true)

/-- The statement `Updates(map[string]interface{}{"report_count": n})` on the
stats rows of the user. -/
def setReportCount (stats : List NonCampaignStats) (userId : Int) (n : Int) :
    List NonCampaignStats :=
  stats.map (fun s => if s.UserId = userId then { s with ReportCount := n } else s)

/-- Function `ClearNonCampaignReports`: the database it leaves and the error it
returns.  On every error the transaction is rolled back. -/
def ClearNonCampaignReports (faults : ClearFaults) (db : NonCampaignDB)
    (userId imapId : Int) : NonCampaignDB × Option GoString :=
  if faults.delete then (db, some dbError)
  else
    let tx : NonCampaignDB :=
      { db with reports := db.reports.filter (fun r => !clearMatches userId imapId r) }
    if imapId = 0 then
      if faults.updateStats then (db, some dbError)
      else commitTx faults.commit db { tx with stats := setReportCount tx.stats userId 0 }
    else
      if faults.count then (db, some dbError)
      else
        let count : Int := ((tx.reports.filter (fun r => r.UserId = userId)).length : Nat)
        if faults.updateStats then (db, some dbError)
        else
          commitTx faults.commit db { tx with stats := setReportCount tx.stats userId count }

/-- The report rows of a user. -/
def reportsOf (db : NonCampaignDB) (userId : Int) : List NonCampaignReport :=
  db.reports.filter (fun r => r.UserId = userId)

/-! ## The non-campaign log: the states of the store -/

/-- The store before any call: both tables empty. -/
def emptyStore : NonCampaignDB := ⟨[], [], 1⟩

/-- The states of the store that successful calls of `RecordNonCampaignReport`
and `ClearNonCampaignReports` produce from the empty store, for any user and any
mailbox id. -/
inductive StoreReachable : NonCampaignDB → Prop where
  | empty : StoreReachable emptyStore
  | record (faults : RecordFaults) (nowReport nowStats : Time) (db out : NonCampaignDB)
      (userId imapId : Int) (reporterEmail subject : GoString) (h : StoreReachable db)
      (hok : RecordNonCampaignReport faults nowReport nowStats db userId imapId
        reporterEmail subject = (out, none)) : StoreReachable out
  | clear (faults : ClearFaults) (db out : NonCampaignDB) (userId imapId : Int)
      (h : StoreReachable db)
      (hok : ClearNonCampaignReports faults db userId imapId = (out, none)) :
      StoreReachable out

/-- The count `GetNonCampaignStats` returns for every user is the number of the
report rows of that user. -/
def CountsAgree (db : NonCampaignDB) : Prop :=
  ∀ userId : Int,
    (GetNonCampaignStats false db userId).1.ReportCount = ((reportsOf db userId).length : Nat)

/-! ## The line of `tracked-data.csv` as the specification words it -/

/-- The line for a request URL in the words of the specification: the URL with
every `/` removed and every `?` and `&` replaced by `,`, followed by a newline. -/
def specTrackedLine (url : GoString) : GoString :=
  ((url.filter (fun c => c ≠ '/')).map (fun c => if c = '?' ∨ c = '&' then ',' else c)) ++
    ['\n']

/-! ## The template context (`models/template_context.go`) -/

/-- Function `shouldEscape(c, encodeQueryComponent)` of `net/url`: every byte
but the letters, the digits and `-`, `_`, `.`, `~` is escaped. -/
def shouldEscape (c : Char) : Bool :=
  !(c.isAlphanum || c = '-' || c = '_' || c = '.' || c = '~')

/-- The hexadecimal digit of a number below 16, from the table `upperhex` of
`net/url`. -/
def upperhex (n : Nat) : Char := "0123456789ABCDEF".toList.getD n '0'

/-- Function `url.QueryEscape`: a space becomes `+`, every other byte that
`shouldEscape` names becomes `%XX`. -/
def QueryEscape (s : GoString) : GoString :=
  s.flatMap (fun c =>
    if shouldEscape c then
      if c = ' ' then ['+'] else ['%', upperhex (c.toNat / 16), upperhex (c.toNat % 16)]
    else [c])

/-- Method `Values.Encode`: the keys in sorted order, and for every value of a
key the piece `QueryEscape(key)=QueryEscape(value)`, joined by `&`. -/
def Values.Encode (v : Values) : GoString :=
  let keys := (v.map Prod.fst).insertionSort (fun a b => a ≤ b)
  let pieces := keys.flatMap (fun k =>
    (match v.lookup k with
      | some vs => vs
      | none => []).map (fun x => QueryEscape k ++ '=' :: QueryEscape x))
  List.intercalate ['&'] pieces

/-- The fields of `url.URL` that `NewPhishingTemplateContext` and `URL.String`
read.  `User` is the text of the user information, empty when there is none. -/
structure URL where
  Scheme : GoString
  Opaque : GoString
  User : GoString
  Host : GoString
  Path : GoString
  ForceQuery : Bool
  RawQuery : GoString
  Fragment : GoString
  deriving DecidableEq

/-- Type `mail.Address`. -/
structure MailAddress where
  Name : GoString
  Address : GoString
  deriving DecidableEq

/-- The three methods of the interface `TemplateContext`, as the results they
return; the fields are those of `ValidationContext`. -/
structure TemplateContext where
  FromAddress : GoString
  BaseURL : GoString
  QRSize : GoString
  deriving DecidableEq

/-- The collaborators of `NewPhishingTemplateContext`: the constant
`RecipientParameter`, which is declared outside the translated files, and the
library functions it calls. -/
structure TemplateEnv where
  /-- Constant `models.RecipientParameter`. -/
  RecipientParameter : GoString
  /-- Function `mail.ParseAddress`. -/
  ParseAddress : GoString → Except GoString MailAddress
  /-- Function `ExecuteTemplate` on the base URL and the recipient. -/
  ExecuteTemplate : GoString → BaseRecipient → Except GoString GoString
  /-- Function `url.Parse`. -/
  urlParse : GoString → Except GoString URL
  /-- Function `path.Join` of two elements. -/
  pathJoin : GoString → GoString → GoString
  /-- The text that `URL.String` writes before the query: the scheme, the opaque
  part or the authority, and the escaped path. -/
  urlHead : URL → GoString
  /-- Method `URL.EscapedFragment`, on the fragment. -/
  escapedFragment : GoString → GoString
  /-- Function `generateQRCode`: the image and its file name. -/
  generateQRCode : GoString → GoString → Except GoString (GoString × GoString)

/-- Method `URL.String`: the text before the query, then `?` and `RawQuery` when
`ForceQuery` is set or `RawQuery` is not empty, then `#` and the escaped fragment
when `Fragment` is not empty. -/
def URL.String (env : TemplateEnv) (u : URL) : GoString :=
  env.urlHead u ++
    (if u.ForceQuery = true ∨ u.RawQuery ≠ [] then '?' :: u.RawQuery else []) ++
    (if u.Fragment ≠ [] then '#' :: env.escapedFragment u.Fragment else [])

/-- The query that `NewPhishingTemplateContext` gives the phishing URL and the
tracking URL: the query of the template URL, parsed and encoded again, with the
pair `RecipientParameter=rid` after it. -/
def encodedQuery (env : TemplateEnv) (templateQuery : GoString) (rid : GoString) :
    GoString :=
  let q := (ParseQuery templateQuery).1
  let encodedQuery := Values.Encode q
  if encodedQuery = [] then env.RecipientParameter ++ "=".toList ++ rid
  else encodedQuery ++ "&".toList ++ env.RecipientParameter ++ "=".toList ++ rid

/-- The byte `0x27`, the apostrophe. -/
def apostrophe : Char := Char.ofNat 39

/-- The text of the tracking pixel for a tracking URL. -/
def trackerOf (trackingURL : GoString) : GoString :=
  "<img alt=".toList ++ [apostrophe, apostrophe] ++ " style=".toList ++ [apostrophe] ++
    "display: none".toList ++ [apostrophe] ++ " src=".toList ++ [apostrophe] ++
    trackingURL ++ [apostrophe] ++ "/>".toList

/-- Function `NewPhishingTemplateContext`. -/
def NewPhishingTemplateContext (env : TemplateEnv) (ctx : TemplateContext)
    (r : BaseRecipient) (rid : GoString) : Except GoString PhishingTemplateContext :=
  match env.ParseAddress ctx.FromAddress with
  | .error e => .error e
  | .ok f =>
    let fn := if f.Name = [] then f.Address else f.Name
    match env.ExecuteTemplate ctx.BaseURL r with
    | .error e => .error e
    | .ok templateURL =>
      match env.urlParse templateURL with
      | .error e => .error e
      | .ok parsed =>
        let baseURL : URL := { parsed with Path := [], RawQuery := [] }
        let phishURL : URL :=
          { parsed with RawQuery := encodedQuery env parsed.RawQuery rid }
        let trackingURL : URL :=
          { parsed with Path := env.pathJoin parsed.Path "/track".toList,
                        RawQuery := encodedQuery env parsed.RawQuery rid }
        let built : PhishingTemplateContext :=
          { BaseRecipient := r, BaseURL := baseURL.String env, URL := phishURL.String env,
            TrackingURL := trackingURL.String env,
            Tracker := trackerOf (trackingURL.String env), From := fn, RId := rid,
            QRBase64 := [], QRName := [], QR := [] }
        if ctx.QRSize ≠ [] then
          match env.generateQRCode (phishURL.String env) ctx.QRSize with
          | .error e => .error e
          | .ok qr =>
            .ok { built with QRBase64 := qr.1, QRName := qr.2,
                             QR := "<img src=".toList ++ ['"'] ++ "cid:".toList ++ qr.2 ++ ['"'] ++
                               ">".toList }
        else .ok built

/-- The phishing URL that `NewPhishingTemplateContext` builds, when it returns
no error. -/
def phishingURL (env : TemplateEnv) (ctx : TemplateContext) (r : BaseRecipient)
    (rid : GoString) : Option GoString :=
  (NewPhishingTemplateContext env ctx r rid).toOption.map (fun ptx => ptx.URL)

/-- The tracking URL that `NewPhishingTemplateContext` builds, when it returns
no error. -/
def trackingURLOf (env : TemplateEnv) (ctx : TemplateContext) (r : BaseRecipient)
    (rid : GoString) : Option GoString :=
  (NewPhishingTemplateContext env ctx r rid).toOption.map (fun ptx => ptx.TrackingURL)

/-- A name of letters and digits, not empty. -/
def isAlphanumName (s : GoString) : Bool := !s.isEmpty && s.all Char.isAlphanum

/-! ## A sample deployment, for the concrete instances

The database of the sample is the list of the writes made to it. -/

/-- The recipient of the sample Result. -/
def sampleRecipient : BaseRecipient :=
  ⟨"foo@bar.com".toList, "Foo".toList, "Bar".toList, "Test".toList, []⟩

/-- A Result with RID `abcDEF1` in campaign 1 of user 1. -/
def sampleResult : Result :=
  { Id := 1, CampaignId := 1, UserId := 1, RId := "abcDEF1".toList,
    Status := "Email Sent".toList, Reported := false, SendDate := 1000,
    ModifiedDate := 1000, BaseRecipient := sampleRecipient }

/-- A preview with RID `preview-abc`. -/
def samplePreview : EmailRequest :=
  { Id := 1, UserId := 1, PageId := 1, RId := "preview-abc".toList,
    BaseRecipient := sampleRecipient }

/-- Campaign 1 of user 1, with the given status and HTTP-auth flag. -/
def sampleCampaign (status : GoString) (httpAuth : Bool) : Campaign :=
  { Id := 1, UserId := 1, Status := status, PageId := 1, URLParam := "rid".toList,
    CreatedDate := 500, HTTPAuth := httpAuth }

/-- The landing page of the sample. -/
def samplePage : Page :=
  { HTML := "<html>login</html>".toList, RedirectURL := [], CapturePasswords := true }

/-- The text of the store's error for a missing row. -/
def recordNotFound : GoString := "record not found".toList

/-- The status of a running campaign. -/
def statusInProgress : GoString := "In progress".toList

/-- The status of a completed campaign. -/
def statusCompleted : GoString := "Completed".toList

/-- A deployment with one Result, one preview, one campaign and one page.  Every
write appends its name to the database. -/
def sampleEnv (status : GoString) (httpAuth : Bool) : Env (List GoString) :=
  { PreviewPrefix := "preview-".toList
    CampaignComplete := statusCompleted
    ServerName := "gophish".toList
    GetEmailRequestByResultId := fun _ id =>
      if id = "preview-abc".toList then .ok samplePreview else .error recordNotFound
    GetResult := fun _ id =>
      if id = "abcDEF1".toList then .ok sampleResult else .error recordNotFound
    GetCampaign := fun _ id uid =>
      if id = 1 ∧ uid = 1 then .ok (sampleCampaign status httpAuth)
      else .error recordNotFound
    GetPage := fun _ id uid =>
      if id = 1 ∧ uid = 1 then .ok samplePage else .error recordNotFound
    UpdateGeo := fun db rs _ => (db ++ ["UpdateGeo".toList], rs, none)
    HandleEmailOpened := fun db rs _ => (db ++ ["Email Opened".toList], rs, none)
    HandleClickedLink := fun db rs _ => (db ++ ["Clicked Link".toList], rs, none)
    HandleFormSubmit := fun db rs _ => (db ++ ["Submitted Data".toList], rs, none)
    HandleEmailReport := fun db rs _ => (db ++ ["Email Reported".toList], rs, none)
    NewPhishingTemplateContext := fun _ rcpt rid =>
      .ok { zeroPTX with RId := rid, BaseRecipient := rcpt }
    ExecuteTemplate := fun text _ => .ok text
    SplitHostPort := fun addr => some (Cut ':' addr)
    Sanitize := fun html => html
    notFoundTemplate := .renders "<h1>Not Found</h1>".toList
    trackedFileWritable := true }

/-- The phishing server of the sample. -/
def sampleServer : PhishingServer := ⟨"security@example.com".toList⟩

/-- A request with the given method and raw query, without body, credentials
or `X-Tracked` header. -/
def sampleRequest (method rawQuery : GoString) : Request :=
  { Method := method, RawQuery := rawQuery, URLString := "/?".toList ++ rawQuery,
    RemoteAddr := "10.0.0.7:51234".toList, UserAgent := "Mozilla/5.0".toList,
    XTracked := [], BasicAuth := ([], [], false), PostForm := [], PostFormErr := none }

/-- The text of a forwarded message that holds the unknown token `zzzzzzz`. -/
def strangerText : GoString := "see http://x.example/?rid=zzzzzzz".toList

/-- The text of a forwarded campaign message with the RID `abcDEF1`. -/
def campaignText : GoString := "see http://x.example/?rid=abcDEF1".toList

/-- The regex engine of the sample, on the three texts it is asked about: what
Go's `FindAllStringSubmatch` returns for the default regex on `strangerText`
and for the anchored and the direct `rid` regex on `campaignText`. -/
def sampleFind (re : Regexp) (content : GoString) : List (List GoString) :=
  if re = goPhishRegex ∧ content = strangerText then
    [["?rid=zzzzzzz".toList, "?rid=zzzzzzz".toList, "?".toList, "=".toList, [],
      "zzzzzzz".toList]]
  else if re = ⟨anchoredPattern defaultParam⟩ ∧ content = campaignText then
    [["?rid=abcDEF1".toList, "?rid=abcDEF1".toList, "?".toList, "=".toList, [],
      "abcDEF1".toList]]
  else if re = ⟨directPattern defaultParam⟩ ∧ content = campaignText then
    [["rid=abcDEF1".toList, "abcDEF1".toList]]
  else []

/-- The collaborators of the monitor in the sample: the Result store knows the
RID `abcDEF1` only, every write appends its name to the database, and no
attachment parses as an email. -/
def sampleMonitorEnv : MonitorEnv (List GoString) :=
  { compiles := fun _ => true
    FindAllStringSubmatch := sampleFind
    rangeRegexes := fun m => m
    rangeRids := fun rids => rids
    GetResult := fun _ id =>
      if id = "abcDEF1".toList then .ok sampleResult else .error recordNotFound
    HandleEmailReport := fun db rs _ => (db ++ ["Email Reported".toList], rs, none)
    RecordNonCampaignReport := fun db _ _ _ _ => (db ++ ["NonCampaignReport".toList], none)
    RecordLoginFailure := fun db im =>
      (db, { im with LoginFailures := im.LoginFailures + 1 }, none)
    SuccessfulLogin := fun db _ => (db, none)
    NewEmailFromReader := fun _ => .error "malformed MIME".toList }

/-- A mailbox account of user 1 without sender restriction. -/
def sampleIMAP : IMAP :=
  { Id := 7, UserId := 1, Enabled := true, Host := "mail.example.com".toList, Port := 993,
    Username := "reports".toList, Password := "secret".toList, TLS := true,
    IgnoreCertErrors := false, Folder := "INBOX".toList, RestrictDomain := [],
    DeleteReportedCampaignEmail := false, IMAPFreq := 60, LoginFailures := 0,
    ModifiedDate := 100 }

/-- A forwarded message that holds the unknown token `zzzzzzz`. -/
def strangerEmail : Email :=
  { From := "bob@example.com".toList, Subject := "Fwd: invoice".toList,
    Text := strangerText, HTML := [], Attachments := [] }

/-- A forwarded message without any rid, with an attachment `mail.eml` that does
not parse. -/
def brokenAttachmentEmail : Email :=
  { From := "bob@example.com".toList, Subject := "Fwd: strange".toList,
    Text := "please check".toList, HTML := [],
    Attachments := [⟨"mail.eml".toList, "application/octet-stream".toList, "xx".toList⟩] }

/-- A forwarded message without any rid and without attachment. -/
def plainEmail : Email :=
  { From := "bob@example.com".toList, Subject := "Fwd: strange".toList,
    Text := "please check".toList, HTML := [], Attachments := [] }

/-- An empty loop state over the empty sample database. -/
def sampleLoopState : LoopState (List GoString) := ⟨[], [], [], [], []⟩

/-- A campaign of the sample with the parameter name `id`. -/
def idCampaign : Campaign :=
  { Id := 2, UserId := 1, Status := statusInProgress, PageId := 1, URLParam := "id".toList,
    CreatedDate := 600, HTTPAuth := false }

/-- The request `GET /?rid=abcDEF1` with the Basic-Auth credentials
`alice` / `hunter2`. -/
def authRequest : Request :=
  { sampleRequest GET "rid=abcDEF1".toList with
    BasicAuth := ("alice".toList, "hunter2".toList, true) }

/-- The state `NewMonitor` leaves at time 10 when the one active campaign has
the parameter name `id`. -/
def sampleRegistry : MonitorState :=
  ⟨[(defaultParam, ⟨anchoredPattern defaultParam⟩),
    (defaultParam ++ directSuffix, ⟨directPattern defaultParam⟩),
    ("id".toList, ⟨anchoredPattern "id".toList⟩),
    ("id_direct".toList, ⟨directPattern "id".toList⟩)], 10, 0, false⟩

/-- A cycle at time 11 in which no refresh is due and `GetUnread` fails. -/
def failedLoginInput : CycleInput :=
  ⟨.ok [], .ok [], 11, 11, .error "login failed".toList⟩

/-- No statement of `RecordNonCampaignReport` is refused. -/
def noRecordFaults : RecordFaults := ⟨false, false, false, false, false⟩

/-- No statement of `ClearNonCampaignReports` is refused. -/
def noClearFaults : ClearFaults := ⟨false, false, false, false⟩

/-- A database with three reports of user 1 (two from mailbox 7, one from
mailbox 8), one report of user 2, and the stats rows of both users. -/
def sampleReports : NonCampaignDB :=
  { reports :=
      [⟨1, 1, 7, "bob@example.com".toList, "a".toList, 10⟩,
       ⟨2, 1, 8, "bob@example.com".toList, "b".toList, 20⟩,
       ⟨3, 2, 9, "eve@example.com".toList, "c".toList, 30⟩,
       ⟨4, 1, 7, "ann@example.com".toList, "d".toList, 40⟩]
    stats := [⟨1, 3, 40⟩, ⟨2, 1, 30⟩]
    nextId := 5 }

/-- The text of a forwarded message that holds the unknown token `zzzzzzz` and
the RID `abcDEF1`. -/
def twoRidText : GoString :=
  "see http://x.example/?rid=zzzzzzz and http://y.example/?rid=abcDEF1".toList

/-- The regex engine of the sample with two more entries: what Go's
`FindAllStringSubmatch` returns for the default regex on `twoRidText` and on
`campaignText`. -/
def twoRidFind (re : Regexp) (content : GoString) : List (List GoString) :=
  if re = goPhishRegex ∧ content = twoRidText then
    [["?rid=zzzzzzz".toList, "?rid=zzzzzzz".toList, "?".toList, "=".toList, [],
      "zzzzzzz".toList],
     ["?rid=abcDEF1".toList, "?rid=abcDEF1".toList, "?".toList, "=".toList, [],
      "abcDEF1".toList]]
  else if re = goPhishRegex ∧ content = campaignText then
    [["?rid=abcDEF1".toList, "?rid=abcDEF1".toList, "?".toList, "=".toList, [],
      "abcDEF1".toList]]
  else sampleFind re content

/-- The collaborators of the sample with the regex engine `twoRidFind`. -/
def twoRidEnv : MonitorEnv (List GoString) :=
  { sampleMonitorEnv with FindAllStringSubmatch := twoRidFind }

/-- The sample account with `DeleteReportedCampaignEmail` set. -/
def deletingIMAP : IMAP :=
  { sampleIMAP with DeleteReportedCampaignEmail := true }

/-- The registry that `NewMonitor` leaves at time 10 when
`models.GetActiveCampaigns()` fails: no regex at all. -/
def emptyRegistry : MonitorState := ⟨[], 10, 0, false⟩

/-- A forwarded message that holds the unknown token `zzzzzzz` and the RID
`abcDEF1`. -/
def twoRidEmail : Email :=
  { From := "bob@example.com".toList, Subject := "Fwd: offer".toList,
    Text := twoRidText, HTML := [], Attachments := [] }

/-- A forwarded campaign message with the RID `abcDEF1`. -/
def campaignEmail : Email :=
  { From := "bob@example.com".toList, Subject := "Fwd: password".toList,
    Text := campaignText, HTML := [], Attachments := [] }

/-- A cycle at time 11 in which no refresh is due and `GetUnread` returns the
given messages. -/
def fetchInput (msgs : List Message) : CycleInput :=
  ⟨.ok [], .ok [], 11, 11, .ok msgs⟩

/-- Three unread messages: one without any rid, one with the unknown token
`zzzzzzz` and the RID `abcDEF1`, one with the RID `abcDEF1`. -/
def sampleInbox : List Message :=
  [⟨1, plainEmail⟩, ⟨2, twoRidEmail⟩, ⟨3, campaignEmail⟩]

/-- The store after two reports of user 1 from the mailboxes 7 and 8 and a
`ClearNonCampaignReports(1, -3)`. -/
def clearedStore : NonCampaignDB :=
  (ClearNonCampaignReports noClearFaults
    (RecordNonCampaignReport noRecordFaults 20 21
      (RecordNonCampaignReport noRecordFaults 10 11 emptyStore 1 7
        "bob@example.com".toList "a".toList).1
      1 8 "bob@example.com".toList "b".toList).1
    1 (-3)).1

/-- The store after two reports of user 1 from the mailboxes 7 and 8 and a
`ClearNonCampaignReports(1, 7)`. -/
def partlyClearedStore : NonCampaignDB :=
  (ClearNonCampaignReports noClearFaults
    (RecordNonCampaignReport noRecordFaults 20 21
      (RecordNonCampaignReport noRecordFaults 10 11 emptyStore 1 7
        "bob@example.com".toList "a".toList).1
      1 8 "bob@example.com".toList "b".toList).1
    1 7).1

/-- The sample deployment in which `NewPhishingTemplateContext` fails, as it
does for a campaign whose from-address does not parse. -/
def brokenContextEnv (httpAuth : Bool) : Env (List GoString) :=
  { sampleEnv statusInProgress httpAuth with
    NewPhishingTemplateContext := fun _ _ _ => .error "mail: no address".toList }

/-- A campaign whose parameter name `a(` makes both regex patterns of
`updateParameterRegexes` invalid. -/
def parenCampaign : Campaign :=
  { Id := 3, UserId := 1, Status := statusInProgress, PageId := 1, URLParam := "a(".toList,
    CreatedDate := 700, HTTPAuth := false }

/-- The collaborators of the monitor in the sample, with a regex compiler that
refuses the two patterns built from the parameter name `a(`, whose parentheses
do not balance. -/
def strictRegexEnv : MonitorEnv (List GoString) :=
  { sampleMonitorEnv with
    compiles := fun pattern =>
      !(pattern == anchoredPattern "a(".toList || pattern == directPattern "a(".toList) }

/-- A cycle at time 800 in which `models.GetActiveCampaigns()` returns
`parenCampaign`. -/
def parenInput : CycleInput :=
  ⟨.ok [parenCampaign], .ok [parenCampaign], 800, 801, .ok [⟨1, plainEmail⟩]⟩

/-- A cycle at the time `now` in which no campaign is active and `GetUnread`
returns no message. -/
def quietInput (now : Time) : CycleInput := ⟨.ok [], .ok [], now, now, .ok []⟩

/-- The sample account polled every 5 seconds. -/
def quickIMAP : IMAP := { sampleIMAP with IMAPFreq := 5 }

/-- The first call of `monitorIMAPConfig` for the sample account, polled every 5
seconds: it starts at 100 s and the check takes one second. -/
def firstRun : ConfigRun (List GoString) :=
  monitorIMAPConfig sampleMonitorEnv quickIMAP ⟨[], []⟩
    ⟨100 * Second, 100 * Second, 100 * Second, 101 * Second⟩ emptyRegistry []
    (quietInput (100 * Second))

/-- The clock of the next call, 15 seconds after the first check: the worker
slept 4 seconds after the check and `monitor` slept 10 seconds. -/
def secondClock : ConfigClock :=
  ⟨115 * Second, 115 * Second, 115 * Second, 116 * Second⟩

/-- The transparency request `GET /?rid=abcDEF1+` with the Basic-Auth
credentials `alice` / `hunter2`. -/
def authTransparencyRequest : Request :=
  { sampleRequest GET "rid=abcDEF1+".toList with
    BasicAuth := ("alice".toList, "hunter2".toList, true) }

/-- The URL parser of the sample, on the three template URLs it is asked about:
what `url.Parse` returns for them. -/
def sampleUrlParse (text : GoString) : Except GoString URL :=
  if text = "http://x.example/login".toList then
    .ok ⟨"http".toList, [], [], "x.example".toList, "/login".toList, false, [], []⟩
  else if text = "http://x.example/?rid=zzzzzzz".toList then
    .ok ⟨"http".toList, [], [], "x.example".toList, "/".toList, false,
      "rid=zzzzzzz".toList, []⟩
  else if text = "http://x.example/#top".toList then
    .ok ⟨"http".toList, [], [], "x.example".toList, "/".toList, false, [], "top".toList⟩
  else .error "parse error".toList

/-- The collaborators of `NewPhishingTemplateContext` in the sample: the
recipient parameter is `rid`, the base URL holds no template action, and the
URLs are those of `sampleUrlParse`, which need no escaping. -/
def sampleTemplateEnv : TemplateEnv :=
  { RecipientParameter := "rid".toList
    ParseAddress := fun text => .ok ⟨[], text⟩
    ExecuteTemplate := fun text _ => .ok text
    urlParse := sampleUrlParse
    pathJoin := fun a b => if a = "/".toList then b else a ++ b
    urlHead := fun u => u.Scheme ++ "://".toList ++ u.Host ++ u.Path
    escapedFragment := fun fragment => fragment
    generateQRCode := fun _ _ => .error "no QR code".toList }

/-- A campaign of the sample as a template context, with the given base URL. -/
def sampleTemplateContext (baseURL : GoString) : TemplateContext :=
  ⟨"security@example.com".toList, baseURL, []⟩

/-! ## Lemmas on the string functions -/

theorem Split_ne_nil (sep : Char) (s : GoString) : Split sep s ≠ [] := by
  induction s with
  | nil => simp [Split]
  | cons c cs ih =>
    unfold Split
    split
    · simp
    · split <;> simp

theorem Split_length_pos (sep : Char) (s : GoString) : 0 < (Split sep s).length :=
  List.length_pos.mpr (Split_ne_nil sep s)

theorem Split_headD (sep : Char) (s : GoString) :
    (Split sep s).headD [] = (Cut sep s).1 := by
  induction s with
  | nil => simp [Split, Cut]
  | cons c cs ih =>
    unfold Split Cut
    by_cases h : c = sep
    · simp [h]
    · simp only [h, if_false]
      cases hs : Split sep cs with
      | nil => exact absurd hs (Split_ne_nil sep cs)
      | cons p ps =>
        rw [hs] at ih
        simp only [List.headD_cons] at ih
        simp [ih]

theorem urlparamOf_eq_spec (q : GoString) : urlparamOf q = specParamName q := by
  unfold urlparamOf specParamName
  by_cases hq : q = []
  · subst hq
    simp [Split, Contains]
  · simp only [ne_eq, hq, not_false_eq_true, if_true, gt_iff_lt, Split_length_pos,
      Split_headD, true_and]
    generalize (Split '&' q).getLastD [] = lastPiece
    by_cases hc : Contains lastPiece '=' = true
    · by_cases hk : (Cut '=' lastPiece).1 = [] <;> simp [hc, hk]
    · simp [hc]

/-! ## Lemmas on `setupContext` -/

theorem setupContext_parse_error {σ : Type} (env : Env σ) (db : σ) (r : Request)
    (e : GoString) (h : r.ParseForm.2 = some e) :
    setupContext env db r = ⟨db, [], {}, some (.other e)⟩ := by
  simp [setupContext, h]

theorem setupContext_empty {σ : Type} (env : Env σ) (db : σ) (r : Request)
    (h : r.ParseForm.2 = none) (hv : ridValue r = []) :
    setupContext env db r = ⟨db, [], {}, some .ErrInvalidRequest⟩ := by
  simp [setupContext, h, hv]

theorem setupContext_preview_error {σ : Type} (env : Env σ) (db : σ) (r : Request)
    (e : GoString) (h : r.ParseForm.2 = none) (hv : ridValue r ≠ [])
    (hp : HasPrefix (lookupKey r) env.PreviewPrefix = true)
    (hr : env.GetEmailRequestByResultId db (lookupKey r) = .error e) :
    setupContext env db r =
      ⟨db, [.GetEmailRequestByResultId (lookupKey r)], {}, some (.other e)⟩ := by
  simp [setupContext, h, hv, hp, hr]

theorem setupContext_preview {σ : Type} (env : Env σ) (db : σ) (r : Request)
    (er : EmailRequest) (h : r.ParseForm.2 = none) (hv : ridValue r ≠ [])
    (hp : HasPrefix (lookupKey r) env.PreviewPrefix = true)
    (hr : env.GetEmailRequestByResultId db (lookupKey r) = .ok er) :
    setupContext env db r =
      ⟨db, [.GetEmailRequestByResultId (lookupKey r)], { result := some (.preview er) },
        none⟩ := by
  simp [setupContext, h, hv, hp, hr]

theorem setupContext_result_error {σ : Type} (env : Env σ) (db : σ) (r : Request)
    (e : GoString) (h : r.ParseForm.2 = none) (hv : ridValue r ≠ [])
    (hp : HasPrefix (lookupKey r) env.PreviewPrefix = false)
    (hr : env.GetResult db (lookupKey r) = .error e) :
    setupContext env db r = ⟨db, [.GetResult (lookupKey r)], {}, some (.other e)⟩ := by
  simp [setupContext, h, hv, hp, hr]

theorem setupContext_campaign_error {σ : Type} (env : Env σ) (db : σ) (r : Request)
    (rs : Result) (e : GoString) (h : r.ParseForm.2 = none) (hv : ridValue r ≠ [])
    (hp : HasPrefix (lookupKey r) env.PreviewPrefix = false)
    (hr : env.GetResult db (lookupKey r) = .ok rs)
    (hc : env.GetCampaign db rs.CampaignId rs.UserId = .error e) :
    setupContext env db r =
      ⟨db, [.GetResult (lookupKey r), .GetCampaign rs.CampaignId rs.UserId], {},
        some (.other e)⟩ := by
  simp [setupContext, h, hv, hp, hr, hc]

theorem setupContext_complete {σ : Type} (env : Env σ) (db : σ) (r : Request)
    (rs : Result) (c : Campaign) (h : r.ParseForm.2 = none) (hv : ridValue r ≠ [])
    (hp : HasPrefix (lookupKey r) env.PreviewPrefix = false)
    (hr : env.GetResult db (lookupKey r) = .ok rs)
    (hc : env.GetCampaign db rs.CampaignId rs.UserId = .ok c)
    (hs : c.Status = env.CampaignComplete) :
    setupContext env db r =
      ⟨db, [.GetResult (lookupKey r), .GetCampaign rs.CampaignId rs.UserId], {},
        some .ErrCampaignComplete⟩ := by
  simp [setupContext, h, hv, hp, hr, hc, hs]

theorem setupContext_live {σ : Type} (env : Env σ) (db : σ) (r : Request)
    (rs : Result) (c : Campaign) (h : r.ParseForm.2 = none) (hv : ridValue r ≠ [])
    (hp : HasPrefix (lookupKey r) env.PreviewPrefix = false)
    (hr : env.GetResult db (lookupKey r) = .ok rs)
    (hc : env.GetCampaign db rs.CampaignId rs.UserId = .ok c)
    (hs : c.Status ≠ env.CampaignComplete) :
    setupContext env db r =
      ⟨(env.UpdateGeo db rs (clientIP env r)).1,
        [.GetResult (lookupKey r), .GetCampaign rs.CampaignId rs.UserId,
          .UpdateGeo rs.RId (clientIP env r)],
        { rid := some (normalizeRid (ridValue r)),
          result := some (.live (env.UpdateGeo db rs (clientIP env r)).2.1),
          campaign := some c,
          details := some
            { Payload := r.ParseForm.1,
              Browser := [("address".toList, clientIP env r),
                ("user-agent".toList, r.UserAgent)] } },
        none⟩ := by
  simp [setupContext, h, hv, hp, hr, hc, hs]

theorem setupCase_total {σ : Type} (env : Env σ) (db : σ) (r : Request) :
    SetupCase env db r := by
  cases h : r.ParseForm.2 with
  | some e => exact .parseError e h
  | none =>
    by_cases hv : ridValue r = []
    · exact .empty h hv
    · cases hp : HasPrefix (lookupKey r) env.PreviewPrefix with
      | true =>
        cases hr : env.GetEmailRequestByResultId db (lookupKey r) with
        | error e => exact .previewError e h hv hp hr
        | ok er => exact .preview er h hv hp hr
      | false =>
        cases hr : env.GetResult db (lookupKey r) with
        | error e => exact .resultError e h hv hp hr
        | ok rs =>
          cases hc : env.GetCampaign db rs.CampaignId rs.UserId with
          | error e => exact .campaignError rs e h hv hp hr hc
          | ok c =>
            by_cases hs : c.Status = env.CampaignComplete
            · exact .complete rs c h hv hp hr hc hs
            · exact .live rs c h hv hp hr hc hs

/-- The call log of `setupContext` holds no event recorder. -/
theorem setupContext_no_recorder {σ : Type} (env : Env σ) (db : σ) (r : Request) :
    recorderCalls (setupContext env db r).calls = [] := by
  rcases setupCase_total env db r with ⟨e, h⟩ | ⟨h, hv⟩ | ⟨e, h, hv, hp, hr⟩ |
    ⟨er, h, hv, hp, hr⟩ | ⟨e, h, hv, hp, hr⟩ | ⟨rs, e, h, hv, hp, hr, hc⟩ |
    ⟨rs, c, h, hv, hp, hr, hc, hs⟩ | ⟨rs, c, h, hv, hp, hr, hc, hs⟩
  · rw [setupContext_parse_error env db r e h]; rfl
  · rw [setupContext_empty env db r h hv]; rfl
  · rw [setupContext_preview_error env db r e h hv hp hr]; rfl
  · rw [setupContext_preview env db r er h hv hp hr]; rfl
  · rw [setupContext_result_error env db r e h hv hp hr]; rfl
  · rw [setupContext_campaign_error env db r rs e h hv hp hr hc]; rfl
  · rw [setupContext_complete env db r rs c h hv hp hr hc hs]; rfl
  · rw [setupContext_live env db r rs c h hv hp hr hc hs]; rfl

/-- An accepted request for a live Result has all four context keys set. -/
theorem setupContext_accept_live {σ : Type} (env : Env σ) (db : σ) (r : Request)
    (rs : Result) (hacc : (setupContext env db r).err = none)
    (hlive : (setupContext env db r).ctx.result = some (.live rs)) :
    ∃ rid c d, (setupContext env db r).ctx =
      { rid := some rid, result := some (.live rs), campaign := some c,
        details := some d } := by
  rcases setupCase_total env db r with ⟨e, h⟩ | ⟨h, hv⟩ | ⟨e, h, hv, hp, hr⟩ |
    ⟨er, h, hv, hp, hr⟩ | ⟨e, h, hv, hp, hr⟩ | ⟨rs2, e, h, hv, hp, hr, hc⟩ |
    ⟨rs2, c, h, hv, hp, hr, hc, hs⟩ | ⟨rs2, c, h, hv, hp, hr, hc, hs⟩
  · rw [setupContext_parse_error env db r e h] at hacc; cases hacc
  · rw [setupContext_empty env db r h hv] at hacc; cases hacc
  · rw [setupContext_preview_error env db r e h hv hp hr] at hacc; cases hacc
  · rw [setupContext_preview env db r er h hv hp hr] at hlive; cases hlive
  · rw [setupContext_result_error env db r e h hv hp hr] at hacc; cases hacc
  · rw [setupContext_campaign_error env db r rs2 e h hv hp hr hc] at hacc; cases hacc
  · rw [setupContext_complete env db r rs2 c h hv hp hr hc hs] at hacc; cases hacc
  · rw [setupContext_live env db r rs2 c h hv hp hr hc hs] at hlive ⊢
    simp only [Option.some.injEq, Subject.live.injEq] at hlive
    exact ⟨_, _, _, by rw [hlive]⟩

/-! ## C1 — the RID parameter name and the empty RID -/

/-- C1, as stated, fails: for the request URL `/?rid=%zz` the value stored under
the chosen name `rid` is empty, yet `setupContext` does not fail with
`ErrInvalidRequest`: `r.ParseForm()` fails first and its error is returned. -/
theorem C1_counterexample :
    ridValue (sampleRequest GET "rid=%zz".toList) = [] ∧
    specParamName "rid=%zz".toList = "rid".toList ∧
    (setupContext (sampleEnv statusInProgress false) []
        (sampleRequest GET "rid=%zz".toList)).err = some (.other escapeError) ∧
    (setupContext (sampleEnv statusInProgress false) []
        (sampleRequest GET "rid=%zz".toList)).err ≠ some .ErrInvalidRequest := by
  decide

/-- C1, amended: the parameter name `setupContext` chooses is the one the
specification describes, for every raw query.  When `r.ParseForm()` fails,
`setupContext` returns that error; when it succeeds and the first decoded query
value under the chosen name is empty, `setupContext` fails with
`ErrInvalidRequest`; in both cases no store was called and the database is
untouched.  When a request is accepted, the rid in its context is that value
(a trailing run of spaces replaced by the transparency suffix). -/
theorem C1_param_name_and_empty_rid {σ : Type} (env : Env σ) (db : σ) (r : Request) :
    urlparamOf r.RawQuery = specParamName r.RawQuery ∧
    ridValue r = r.Query.Get (specParamName r.RawQuery) ∧
    (∀ e, r.ParseForm.2 = some e →
      (setupContext env db r).err = some (.other e) ∧
      (setupContext env db r).calls = [] ∧ (setupContext env db r).db = db) ∧
    (r.ParseForm.2 = none → r.Query.Get (specParamName r.RawQuery) = [] →
      (setupContext env db r).err = some .ErrInvalidRequest ∧
      (setupContext env db r).calls = [] ∧ (setupContext env db r).db = db) ∧
    (∀ rid, (setupContext env db r).ctx.rid = some rid →
      rid = normalizeRid (r.Query.Get (specParamName r.RawQuery))) := by
  have hname := urlparamOf_eq_spec r.RawQuery
  have hval : ridValue r = r.Query.Get (specParamName r.RawQuery) := by
    unfold ridValue; rw [hname]
  refine ⟨hname, hval, ?_, ?_, ?_⟩
  · intro e he
    rw [setupContext_parse_error env db r e he]
    exact ⟨rfl, rfl, rfl⟩
  · intro hf hv
    rw [← hval] at hv
    rw [setupContext_empty env db r hf hv]
    exact ⟨rfl, rfl, rfl⟩
  · intro rid hrid
    rw [← hval]
    rcases setupCase_total env db r with ⟨e, h⟩ | ⟨h, hv⟩ | ⟨e, h, hv, hp, hr⟩ |
      ⟨er, h, hv, hp, hr⟩ | ⟨e, h, hv, hp, hr⟩ | ⟨rs, e, h, hv, hp, hr, hc⟩ |
      ⟨rs, c, h, hv, hp, hr, hc, hs⟩ | ⟨rs, c, h, hv, hp, hr, hc, hs⟩
    · rw [setupContext_parse_error env db r e h] at hrid; cases hrid
    · rw [setupContext_empty env db r h hv] at hrid; cases hrid
    · rw [setupContext_preview_error env db r e h hv hp hr] at hrid; cases hrid
    · rw [setupContext_preview env db r er h hv hp hr] at hrid; cases hrid
    · rw [setupContext_result_error env db r e h hv hp hr] at hrid; cases hrid
    · rw [setupContext_campaign_error env db r rs e h hv hp hr hc] at hrid; cases hrid
    · rw [setupContext_complete env db r rs c h hv hp hr hc hs] at hrid; cases hrid
    · rw [setupContext_live env db r rs c h hv hp hr hc hs] at hrid
      simp only [Option.some.injEq] at hrid
      exact hrid.symm

/-- C1, amended, at the request URL `/?a=1&rid=`: the form parses, the value
under `rid` is empty and `setupContext` fails with `ErrInvalidRequest`. -/
theorem C1_param_name_and_empty_rid_witness :
    (sampleRequest GET "a=1&rid=".toList).ParseForm.2 = none ∧
    (sampleRequest GET "a=1&rid=".toList).Query.Get (specParamName "a=1&rid=".toList) = [] ∧
    (setupContext (sampleEnv statusInProgress false) []
        (sampleRequest GET "a=1&rid=".toList)).err = some .ErrInvalidRequest :=
  ⟨by decide, by decide,
    ((C1_param_name_and_empty_rid (sampleEnv statusInProgress false) []
      (sampleRequest GET "a=1&rid=".toList)).2.2.2.1 (by decide) (by decide)).1⟩

/-! ## Lemmas on the response helpers -/

theorem customNotFound_calls {σ : Type} (env : Env σ) (w : World σ) :
    (customNotFound env w).world.calls = w.calls := by
  unfold customNotFound
  split <;> rfl

theorem customNotFound_db {σ : Type} (env : Env σ) (w : World σ) :
    (customNotFound env w).world.db = w.db := by
  unfold customNotFound
  split <;> rfl

theorem customTrackedPhishRequests_calls {σ : Type} (env : Env σ) (r : Request)
    (w : World σ) : (customTrackedPhishRequests env r w).calls = w.calls := by
  unfold customTrackedPhishRequests
  split <;> rfl

theorem customTrackedPhishRequests_db {σ : Type} (env : Env σ) (r : Request)
    (w : World σ) : (customTrackedPhishRequests env r w).db = w.db := by
  unfold customTrackedPhishRequests
  split <;> rfl

theorem renderPhishResponse_calls {σ : Type} (env : Env σ) (r : Request)
    (ptx : PhishingTemplateContext) (p : Page) (w : World σ) :
    (renderPhishResponse env r ptx p w).world.calls = w.calls := by
  unfold renderPhishResponse
  split <;> split <;> first | rfl | exact customNotFound_calls env w

theorem renderBasicAuth_calls {σ : Type} (env : Env σ) (r : Request)
    (ptx : PhishingTemplateContext) (p : Page) (w : World σ) :
    (renderBasicAuth env r ptx p w).world.calls = w.calls := by
  unfold renderBasicAuth
  split
  · split <;> first | rfl | exact customNotFound_calls env w
  · rfl

theorem respondPhish_calls {σ : Type} (env : Env σ) (r : Request) (c : Campaign)
    (p : Page) (rs : Result) (w : World σ) :
    (respondPhish env r c p rs w).world.calls = w.calls := by
  unfold respondPhish
  split
  · simp only []
    split
    · split
      · rw [renderPhishResponse_calls, customNotFound_calls]
      · rw [renderBasicAuth_calls, customNotFound_calls]
    · exact customNotFound_calls env w
  · split
    · exact renderPhishResponse_calls env r _ p w
    · exact renderBasicAuth_calls env r _ p w

/-! ## C2 — the completed-campaign gate -/

/-- When `setupContext` looked a key up in the Result store, the form had
parsed, the RID was not empty, and the key is the request's lookup key, without
the preview prefix. -/
theorem setupContext_looked_up_result {σ : Type} (env : Env σ) (db : σ) (r : Request)
    (id : GoString) (h : Call.GetResult id ∈ (setupContext env db r).calls) :
    r.ParseForm.2 = none ∧ ridValue r ≠ [] ∧
      HasPrefix (lookupKey r) env.PreviewPrefix = false ∧ id = lookupKey r := by
  rcases setupCase_total env db r with ⟨e, h1⟩ | ⟨h1, hv⟩ | ⟨e, h1, hv, hp, hr⟩ |
    ⟨er, h1, hv, hp, hr⟩ | ⟨e, h1, hv, hp, hr⟩ | ⟨rs, e, h1, hv, hp, hr, hc⟩ |
    ⟨rs, c, h1, hv, hp, hr, hc, hs⟩ | ⟨rs, c, h1, hv, hp, hr, hc, hs⟩
  · rw [setupContext_parse_error env db r e h1] at h; simp at h
  · rw [setupContext_empty env db r h1 hv] at h; simp at h
  · rw [setupContext_preview_error env db r e h1 hv hp hr] at h; simp at h
  · rw [setupContext_preview env db r er h1 hv hp hr] at h; simp at h
  · rw [setupContext_result_error env db r e h1 hv hp hr] at h
    simp only [List.mem_singleton, Call.GetResult.injEq] at h
    exact ⟨h1, hv, hp, h⟩
  · rw [setupContext_campaign_error env db r rs e h1 hv hp hr hc] at h
    simp only [List.mem_cons, Call.GetResult.injEq, reduceCtorEq, List.mem_singleton,
      List.not_mem_nil, or_false] at h
    exact ⟨h1, hv, hp, h⟩
  · rw [setupContext_complete env db r rs c h1 hv hp hr hc hs] at h
    simp only [List.mem_cons, Call.GetResult.injEq, reduceCtorEq, List.mem_singleton,
      List.not_mem_nil, or_false] at h
    exact ⟨h1, hv, hp, h⟩
  · rw [setupContext_live env db r rs c h1 hv hp hr hc hs] at h
    simp only [List.mem_cons, Call.GetResult.injEq, reduceCtorEq, List.mem_singleton,
      List.not_mem_nil, or_false] at h
    exact ⟨h1, hv, hp, h⟩

/-- C2: for every request whose RID resolves to a live Result (the lookup
`models.GetResult(id)` of `setupContext` returns `rs`) of a campaign with status
Complete, `setupContext` fails with `ErrCampaignComplete` after the two lookups
and before `UpdateGeo`; `TrackHandler`, `ReportHandler` and `PhishHandler` then
make no further store call, so no recorder runs, and they leave the database as
it was. -/
theorem C2_completed_campaign_gate {σ : Type} (ps : PhishingServer) (env : Env σ)
    (db : σ) (r : Request) (id : GoString) (rs : Result) (c : Campaign)
    (hlook : Call.GetResult id ∈ (setupContext env db r).calls)
    (hr : env.GetResult db id = .ok rs)
    (hc : env.GetCampaign db rs.CampaignId rs.UserId = .ok c)
    (hs : c.Status = env.CampaignComplete) :
    (setupContext env db r).err = some .ErrCampaignComplete ∧
    (setupContext env db r).db = db ∧
    (setupContext env db r).calls = [.GetResult id, .GetCampaign rs.CampaignId rs.UserId] ∧
    (∀ h ∈ [TrackHandler ps env db r, ReportHandler ps env db r, PhishHandler ps env db r],
      h.world.db = db ∧
      h.world.calls = [.GetResult id, .GetCampaign rs.CampaignId rs.UserId] ∧
      (∀ k ∈ h.world.calls, k.isRecorder = false ∧ k.isUpdateGeo = false)) := by
  obtain ⟨hform, hv, hlive, hid⟩ := setupContext_looked_up_result env db r id hlook
  subst hid
  have hset := setupContext_complete env db r rs c hform hv hlive hr hc hs
  refine ⟨by rw [hset], by rw [hset], by rw [hset], ?_⟩
  have key : ∀ h : HandlerResult σ, h.world.db = db →
      h.world.calls = [.GetResult (lookupKey r), .GetCampaign rs.CampaignId rs.UserId] →
      h.world.db = db ∧
      h.world.calls = [.GetResult (lookupKey r), .GetCampaign rs.CampaignId rs.UserId] ∧
      (∀ k ∈ h.world.calls, k.isRecorder = false ∧ k.isUpdateGeo = false) := by
    intro h h1 h2
    refine ⟨h1, h2, ?_⟩
    rw [h2]
    intro k hk
    simp only [List.mem_cons, List.mem_singleton, List.not_mem_nil, or_false] at hk
    rcases hk with rfl | rfl <;> exact ⟨rfl, rfl⟩
  intro h hh
  simp only [List.mem_cons, List.mem_singleton, List.not_mem_nil, or_false] at hh
  rcases hh with rfl | rfl | rfl
  · apply key
    · simp only [TrackHandler, hset, customNotFound_db]
    · simp only [TrackHandler, hset, customNotFound_calls]
  · apply key
    · simp only [ReportHandler, hset, customNotFound_db]
    · simp only [ReportHandler, hset, customNotFound_calls]
  · apply key
    · simp only [PhishHandler, hset, customNotFound_db]
      split <;> simp [customTrackedPhishRequests_db]
    · simp only [PhishHandler, hset, customNotFound_calls]
      split <;> simp [customTrackedPhishRequests_calls]

/-- C2 at the request `GET /?rid=abcDEF1` for a completed campaign: the three
handlers leave the sample database empty. -/
theorem C2_completed_campaign_gate_witness :
    Call.GetResult "abcDEF1".toList ∈
      (setupContext (sampleEnv statusCompleted false) []
        (sampleRequest GET "rid=abcDEF1".toList)).calls ∧
    (setupContext (sampleEnv statusCompleted false) []
        (sampleRequest GET "rid=abcDEF1".toList)).err = some .ErrCampaignComplete ∧
    (TrackHandler sampleServer (sampleEnv statusCompleted false) []
        (sampleRequest GET "rid=abcDEF1".toList)).world.db = [] :=
  have h := C2_completed_campaign_gate sampleServer (sampleEnv statusCompleted false) []
    (sampleRequest GET "rid=abcDEF1".toList) "abcDEF1".toList sampleResult
    (sampleCampaign statusCompleted false) (by decide) rfl rfl rfl
  ⟨by decide, h.1, (h.2.2.2 _ (List.mem_cons_self _ _)).1⟩

/-! ## C3 and C4 — preview requests -/

/-- For a request whose RID resolves to a preview, `PhishHandler` panics at
`ctx.Get(r, "campaign").(models.Campaign)`: `setupContext` sets only the key
`"result"` for a preview.  Nothing has been written to the response and no store
has been written. -/
theorem PhishHandler_preview_panics {σ : Type} (ps : PhishingServer) (env : Env σ)
    (db : σ) (r : Request) (er : EmailRequest)
    (hform : r.ParseForm.2 = none) (hv : ridValue r ≠ [])
    (hp : HasPrefix (lookupKey r) env.PreviewPrefix = true)
    (hr : env.GetEmailRequestByResultId db (lookupKey r) = .ok er) :
    (PhishHandler ps env db r).outcome = .panicked ∧
    (PhishHandler ps env db r).world.resp = [] ∧
    (PhishHandler ps env db r).world.db = db ∧
    (PhishHandler ps env db r).world.calls =
      [.GetEmailRequestByResultId (lookupKey r)] := by
  have hset := setupContext_preview env db r er hform hv hp hr
  simp [PhishHandler, hset]

/-- C3, on the code: the preview request `GET /?rid=preview-abc`, whose RID
resolves to an EmailRequest, makes `PhishHandler` panic before it writes
anything; it does not return the rendered preview page. -/
theorem C3_phish_preview_panics :
    (setupContext (sampleEnv statusInProgress false) []
        (sampleRequest GET "rid=preview-abc".toList)).ctx =
      { result := some (.preview samplePreview) } ∧
    (setupContext (sampleEnv statusInProgress false) []
        (sampleRequest GET "rid=preview-abc".toList)).err = none ∧
    (PhishHandler sampleServer (sampleEnv statusInProgress false) []
        (sampleRequest GET "rid=preview-abc".toList)).outcome = .panicked ∧
    (PhishHandler sampleServer (sampleEnv statusInProgress false) []
        (sampleRequest GET "rid=preview-abc".toList)).world.resp = [] := by
  decide

/-- When `setupContext` looked a key up in the EmailRequest store, the form had
parsed, the RID was not empty, and the key is the request's lookup key, with
the preview prefix. -/
theorem setupContext_looked_up_preview {σ : Type} (env : Env σ) (db : σ) (r : Request)
    (id : GoString)
    (h : Call.GetEmailRequestByResultId id ∈ (setupContext env db r).calls) :
    r.ParseForm.2 = none ∧ ridValue r ≠ [] ∧
      HasPrefix (lookupKey r) env.PreviewPrefix = true ∧ id = lookupKey r := by
  rcases setupCase_total env db r with ⟨e, h1⟩ | ⟨h1, hv⟩ | ⟨e, h1, hv, hp, hr⟩ |
    ⟨er, h1, hv, hp, hr⟩ | ⟨e, h1, hv, hp, hr⟩ | ⟨rs, e, h1, hv, hp, hr, hc⟩ |
    ⟨rs, c, h1, hv, hp, hr, hc, hs⟩ | ⟨rs, c, h1, hv, hp, hr, hc, hs⟩
  · rw [setupContext_parse_error env db r e h1] at h; simp at h
  · rw [setupContext_empty env db r h1 hv] at h; simp at h
  · rw [setupContext_preview_error env db r e h1 hv hp hr] at h
    simp only [List.mem_singleton, Call.GetEmailRequestByResultId.injEq] at h
    exact ⟨h1, hv, hp, h⟩
  · rw [setupContext_preview env db r er h1 hv hp hr] at h
    simp only [List.mem_singleton, Call.GetEmailRequestByResultId.injEq] at h
    exact ⟨h1, hv, hp, h⟩
  · rw [setupContext_result_error env db r e h1 hv hp hr] at h; simp at h
  · rw [setupContext_campaign_error env db r rs e h1 hv hp hr hc] at h; simp at h
  · rw [setupContext_complete env db r rs c h1 hv hp hr hc hs] at h; simp at h
  · rw [setupContext_live env db r rs c h1 hv hp hr hc hs] at h; simp at h

/-- C4: for every request whose RID begins with `PreviewPrefix` and resolves to
an EmailRequest (the lookup `models.GetEmailRequestByResultId(id)` of
`setupContext` returns `er`), `TrackHandler` serves the pixel and `ReportHandler`
answers 204; the only store call of either is that lookup, so neither calls
`UpdateGeo`, `HandleEmailOpened` or `HandleEmailReport`, and the database is as it
was. -/
theorem C4_preview_track_report {σ : Type} (ps : PhishingServer) (env : Env σ)
    (db : σ) (r : Request) (id : GoString) (er : EmailRequest)
    (hlook : Call.GetEmailRequestByResultId id ∈ (setupContext env db r).calls)
    (hr : env.GetEmailRequestByResultId db id = .ok er) :
    HasPrefix id env.PreviewPrefix = true ∧
    (TrackHandler ps env db r).outcome = .returned ∧
    (TrackHandler ps env db r).world.resp = [.ServeFile pixelPath] ∧
    (ReportHandler ps env db r).outcome = .returned ∧
    (ReportHandler ps env db r).world.resp =
      [.SetHeader "Access-Control-Allow-Origin".toList "*".toList, .WriteHeader 204] ∧
    (∀ h ∈ [TrackHandler ps env db r, ReportHandler ps env db r],
      h.world.db = db ∧
      h.world.calls = [.GetEmailRequestByResultId id] ∧
      (∀ k ∈ h.world.calls, k.isUpdateGeo = false ∧ k.isRecorder = false)) := by
  obtain ⟨hform, hv, hp, hid⟩ := setupContext_looked_up_preview env db r id hlook
  subst hid
  have hset := setupContext_preview env db r er hform hv hp hr
  refine ⟨hp, by simp [TrackHandler, hset], by simp [TrackHandler, hset, World.emit],
    by simp [ReportHandler, hset], by simp [ReportHandler, hset, World.emit], ?_⟩
  intro h hh
  simp only [List.mem_cons, List.mem_singleton, List.not_mem_nil, or_false] at hh
  rcases hh with rfl | rfl
  · simp [TrackHandler, hset, World.emit, Call.isUpdateGeo, Call.isRecorder]
  · simp [ReportHandler, hset, World.emit, Call.isUpdateGeo, Call.isRecorder]

/-- C4 at the preview request `GET /track?rid=preview-abc`. -/
theorem C4_preview_track_report_witness :
    (TrackHandler sampleServer (sampleEnv statusInProgress false) []
        (sampleRequest GET "rid=preview-abc".toList)).world.resp = [.ServeFile pixelPath] ∧
    (ReportHandler sampleServer (sampleEnv statusInProgress false) []
        (sampleRequest GET "rid=preview-abc".toList)).world.resp =
      [.SetHeader "Access-Control-Allow-Origin".toList "*".toList, .WriteHeader 204] :=
  have h := C4_preview_track_report sampleServer (sampleEnv statusInProgress false) []
    (sampleRequest GET "rid=preview-abc".toList) "preview-abc".toList samplePreview
    (by decide) rfl
  ⟨h.2.2.1, h.2.2.2.2.1⟩

/-! ## C5 and C6 — live requests -/

/-- An accepted request for a live Result, with the rid of its context. -/
theorem setupContext_accept_live_rid {σ : Type} (env : Env σ) (db : σ) (r : Request)
    (rid : GoString) (rs : Result) (hacc : (setupContext env db r).err = none)
    (hlive : (setupContext env db r).ctx.result = some (.live rs))
    (hrid : (setupContext env db r).ctx.rid = some rid) :
    ∃ c d, (setupContext env db r).ctx =
      { rid := some rid, result := some (.live rs), campaign := some c,
        details := some d } := by
  obtain ⟨rid2, c, d, hctx⟩ := setupContext_accept_live env db r rs hacc hlive
  rw [hctx] at hrid
  simp only [Option.some.injEq] at hrid
  subst hrid
  exact ⟨c, d, hctx⟩

theorem recorderCalls_append (xs ys : List Call) :
    recorderCalls (xs ++ ys) = recorderCalls xs ++ recorderCalls ys := by
  simp [recorderCalls]

theorem recorderCalls_nil : recorderCalls [] = [] := rfl

theorem recorderCalls_cons (k : Call) (ks : List Call) :
    recorderCalls (k :: ks) = (if k.isRecorder then [k] else []) ++ recorderCalls ks := by
  cases h : k.isRecorder <;> simp [recorderCalls, h]

/-- C5: for every accepted request for a live Result whose rid has no
transparency suffix, with `d` the details of its context, the recorders called
are: by `TrackHandler` exactly one `HandleEmailOpened`; by `ReportHandler` exactly
one `HandleEmailReport`; by `PhishHandler`, on a campaign without HTTP auth
whose page loads, exactly one `HandleClickedLink` on `GET`, exactly one
`HandleFormSubmit` on `POST` and none on any other method. -/
theorem C5_one_recorder_per_request {σ : Type} (ps : PhishingServer) (env : Env σ)
    (db : σ) (r : Request) (rid : GoString) (rs : Result)
    (hacc : (setupContext env db r).err = none)
    (hlive : (setupContext env db r).ctx.result = some (.live rs))
    (hrid : (setupContext env db r).ctx.rid = some rid)
    (hsfx : HasSuffix rid TransparencySuffix = false) :
    ∃ c d, (setupContext env db r).ctx.campaign = some c ∧
      (setupContext env db r).ctx.details = some d ∧
      recorderCalls (TrackHandler ps env db r).world.calls =
        [.HandleEmailOpened rs.RId d] ∧
      recorderCalls (ReportHandler ps env db r).world.calls =
        [.HandleEmailReport rs.RId d] ∧
      (c.HTTPAuth = false →
        ∀ p, env.GetPage (setupContext env db r).db c.PageId c.UserId = .ok p →
          recorderCalls (PhishHandler ps env db r).world.calls =
            if r.Method = GET then [.HandleClickedLink rs.RId d]
            else if r.Method = POST then [.HandleFormSubmit rs.RId d]
            else []) := by
  obtain ⟨c, d, hctx⟩ := setupContext_accept_live_rid env db r rid rs hacc hlive hrid
  have hno := setupContext_no_recorder env db r
  refine ⟨c, d, by rw [hctx], by rw [hctx], ?_, ?_, ?_⟩
  · simp [TrackHandler, hacc, hctx, hsfx, World.emit, World.call, recorderCalls_append, hno,
      recorderCalls_cons, recorderCalls_nil, Call.isRecorder]
  · simp [ReportHandler, hacc, hctx, hsfx, World.emit, World.call, recorderCalls_append,
      hno, recorderCalls_cons, recorderCalls_nil, Call.isRecorder]
  · intro hauth p hpage
    have hrec : recorderCalls (recordPhish env r c p rs d
          (World.call (World.emit ⟨(setupContext env db r).db, (setupContext env db r).calls,
            [], []⟩ [.SetHeader "X-Server".toList env.ServerName])
            (setupContext env db r).db (.GetPage c.PageId c.UserId))).1.calls =
        if r.Method = GET then [.HandleClickedLink rs.RId d]
        else if r.Method = POST then [.HandleFormSubmit rs.RId d]
        else [] := by
      unfold recordPhish
      simp only [hauth, Bool.false_eq_true, not_false_eq_true, if_true]
      by_cases hg : r.Method = GET
      · simp [hg, World.call, World.emit, recorderCalls_append, hno, recorderCalls_cons, recorderCalls_nil,
          Call.isRecorder]
      · by_cases hpo : r.Method = POST
        · have hne : POST ≠ GET := by decide
          simp [hpo, hne, World.call, World.emit, recorderCalls_append, hno,
            recorderCalls_cons, recorderCalls_nil, Call.isRecorder]
        · simp [hg, hpo, World.call, World.emit, recorderCalls_append, hno,
            recorderCalls_cons, recorderCalls_nil, Call.isRecorder]
    rw [← hrec]
    simp only [PhishHandler, hacc, hctx, hsfx, hpage, Bool.false_eq_true, if_false,
      respondPhish_calls, World.call, World.emit]

/-- C5 at the requests `GET` and `POST` `/?rid=abcDEF1` of a running campaign
without HTTP auth: one `HandleEmailOpened` by `TrackHandler` and one
`HandleClickedLink` by `PhishHandler` on `GET`. -/
theorem C5_one_recorder_per_request_witness :
    ∃ c d, (setupContext (sampleEnv statusInProgress false) []
        (sampleRequest GET "rid=abcDEF1".toList)).ctx.campaign = some c ∧
      (setupContext (sampleEnv statusInProgress false) []
        (sampleRequest GET "rid=abcDEF1".toList)).ctx.details = some d ∧
      recorderCalls (TrackHandler sampleServer (sampleEnv statusInProgress false) []
        (sampleRequest GET "rid=abcDEF1".toList)).world.calls =
        [.HandleEmailOpened "abcDEF1".toList d] ∧
      recorderCalls (PhishHandler sampleServer (sampleEnv statusInProgress false) []
        (sampleRequest GET "rid=abcDEF1".toList)).world.calls =
        [.HandleClickedLink "abcDEF1".toList d] := by
  obtain ⟨c, d, hc, hd, ht, _, hp⟩ :=
    C5_one_recorder_per_request sampleServer (sampleEnv statusInProgress false) []
      (sampleRequest GET "rid=abcDEF1".toList) "abcDEF1".toList sampleResult
      (by decide) (by decide) (by decide) (by decide)
  have hc2 : c = sampleCampaign statusInProgress false := by
    have : (setupContext (sampleEnv statusInProgress false) []
        (sampleRequest GET "rid=abcDEF1".toList)).ctx.campaign =
        some (sampleCampaign statusInProgress false) := by decide
    rw [hc] at this
    exact Option.some.inj this
  subst hc2
  exact ⟨_, d, hc, hd, ht, hp rfl samplePage rfl⟩

/-- C6: for every accepted request for a live Result whose rid ends with the
transparency suffix, each of `TrackHandler`, `ReportHandler` and `PhishHandler`
returns after answering with the transparency response, which carries the
server name, the contact address and the Result's `SendDate`; none of them calls
a recorder, and after `setupContext` none writes to the database. -/
theorem C6_transparency_response {σ : Type} (ps : PhishingServer) (env : Env σ)
    (db : σ) (r : Request) (rid : GoString) (rs : Result)
    (hacc : (setupContext env db r).err = none)
    (hlive : (setupContext env db r).ctx.result = some (.live rs))
    (hrid : (setupContext env db r).ctx.rid = some rid)
    (hsfx : HasSuffix rid TransparencySuffix = true) :
    (TrackHandler ps env db r).world.resp =
      [.JSONResponse ⟨env.ServerName, ps.contactAddress, rs.SendDate⟩ 200] ∧
    (ReportHandler ps env db r).world.resp =
      [.SetHeader "Access-Control-Allow-Origin".toList "*".toList,
        .JSONResponse ⟨env.ServerName, ps.contactAddress, rs.SendDate⟩ 200] ∧
    (PhishHandler ps env db r).world.resp =
      [.SetHeader "X-Server".toList env.ServerName,
        .JSONResponse ⟨env.ServerName, ps.contactAddress, rs.SendDate⟩ 200] ∧
    (∀ h ∈ [TrackHandler ps env db r, ReportHandler ps env db r, PhishHandler ps env db r],
      h.outcome = .returned ∧ recorderCalls h.world.calls = [] ∧
      h.world.calls = (setupContext env db r).calls ∧
      h.world.db = (setupContext env db r).db) := by
  obtain ⟨c, d, hctx⟩ := setupContext_accept_live_rid env db r rid rs hacc hlive hrid
  have hno := setupContext_no_recorder env db r
  refine ⟨?_, ?_, ?_, ?_⟩
  · simp [TrackHandler, hacc, hctx, hsfx, TransparencyHandler, World.emit]
  · simp [ReportHandler, hacc, hctx, hsfx, TransparencyHandler, World.emit]
  · simp [PhishHandler, hacc, hctx, hsfx, TransparencyHandler, World.emit]
  · intro h hh
    simp only [List.mem_cons, List.mem_singleton, List.not_mem_nil, or_false] at hh
    rcases hh with rfl | rfl | rfl
    · simp [TrackHandler, hacc, hctx, hsfx, TransparencyHandler, World.emit, hno]
    · simp [ReportHandler, hacc, hctx, hsfx, TransparencyHandler, World.emit, hno]
    · simp [PhishHandler, hacc, hctx, hsfx, TransparencyHandler, World.emit, hno]

/-- C6 at the request `GET /?rid=abcDEF1+`, whose value decodes to `abcDEF1 ` and
is stored as the rid `abcDEF1+`. -/
theorem C6_transparency_response_witness :
    (PhishHandler sampleServer (sampleEnv statusInProgress false) []
        (sampleRequest GET "rid=abcDEF1+".toList)).world.resp =
      [.SetHeader "X-Server".toList "gophish".toList,
        .JSONResponse ⟨"gophish".toList, "security@example.com".toList, 1000⟩ 200] :=
  (C6_transparency_response sampleServer (sampleEnv statusInProgress false) []
    (sampleRequest GET "rid=abcDEF1+".toList) "abcDEF1+".toList sampleResult
    (by decide) (by decide) (by decide) (by decide)).2.2.1

/-! ## C16 — a RID that the Result store does not know -/

/-- C16, as stated, fails: for `GET /?rid=unknown1`, a non-preview RID that the
Result store does not know, `setupContext` fails with the error of the store,
which is not `ErrInvalidRequest`. -/
theorem C16_counterexample :
    ridValue (sampleRequest GET "rid=unknown1".toList) = "unknown1".toList ∧
    HasPrefix (lookupKey (sampleRequest GET "rid=unknown1".toList))
      (sampleEnv statusInProgress false).PreviewPrefix = false ∧
    (setupContext (sampleEnv statusInProgress false) []
      (sampleRequest GET "rid=unknown1".toList)).calls = [.GetResult "unknown1".toList] ∧
    (setupContext (sampleEnv statusInProgress false) []
      (sampleRequest GET "rid=unknown1".toList)).err = some (.other recordNotFound) ∧
    (setupContext (sampleEnv statusInProgress false) []
      (sampleRequest GET "rid=unknown1".toList)).err ≠ some .ErrInvalidRequest := by
  decide

theorem customTrackedPhishRequests_resp {σ : Type} (env : Env σ) (r : Request)
    (w : World σ) : (customTrackedPhishRequests env r w).resp = w.resp := by
  unfold customTrackedPhishRequests
  split <;> rfl

/-- What `customNotFound` writes: the custom 404 when `templates/404.html`
renders, the 404 of `http.NotFound` when the template does not execute, and
nothing when it does not parse, where `log.Fatal` ends the process. -/
theorem customNotFound_answer {σ : Type} (env : Env σ) (w : World σ) :
    (∀ body, env.notFoundTemplate = .renders body →
      (customNotFound env w).world.resp = w.resp ++ customError body 404 ∧
      (customNotFound env w).outcome = .returned) ∧
    (env.notFoundTemplate = .executeFails →
      (customNotFound env w).world.resp = w.resp ++ [.NotFound] ∧
      (customNotFound env w).outcome = .returned) ∧
    (env.notFoundTemplate = .parseFails →
      (customNotFound env w).world.resp = w.resp ∧
      (customNotFound env w).outcome = .exited) := by
  refine ⟨?_, ?_, ?_⟩
  · intro body h
    simp [customNotFound, h, World.emit]
  · intro h
    simp [customNotFound, h, World.emit]
  · intro h
    simp [customNotFound, h]

/-- C16, amended: for every non-preview RID whose lookup key does not resolve in
the Result store (the lookup `models.GetResult(id)` of `setupContext` returns the
error `e`), `setupContext` fails with that error `e`, which is not
`ErrInvalidRequest`; it stops there, before `GetCampaign` and `UpdateGeo`, sets
no context key and leaves the database as it was.  The three handlers make no
further store call and answer through `customNotFound`: with the custom 404
(after the CORS header in `ReportHandler`) when `templates/404.html` renders,
with the 404 of `http.NotFound` when the template does not execute, and with
nothing when it does not parse, where `log.Fatal` ends the process. -/
theorem C16_result_miss {σ : Type} (ps : PhishingServer) (env : Env σ) (db : σ)
    (r : Request) (id : GoString) (e : GoString)
    (hlook : Call.GetResult id ∈ (setupContext env db r).calls)
    (hr : env.GetResult db id = .error e) :
    HasPrefix id env.PreviewPrefix = false ∧
    (setupContext env db r).err = some (.other e) ∧
    (setupContext env db r).err ≠ some .ErrInvalidRequest ∧
    (setupContext env db r).calls = [.GetResult id] ∧
    (setupContext env db r).db = db ∧
    (setupContext env db r).ctx = {} ∧
    (∀ h ∈ [TrackHandler ps env db r, ReportHandler ps env db r, PhishHandler ps env db r],
      h.world.db = db ∧ h.world.calls = [.GetResult id]) ∧
    (∀ body, env.notFoundTemplate = .renders body →
      (TrackHandler ps env db r).world.resp = customError body 404 ∧
      (ReportHandler ps env db r).world.resp =
        .SetHeader "Access-Control-Allow-Origin".toList "*".toList :: customError body 404 ∧
      (PhishHandler ps env db r).world.resp = customError body 404 ∧
      (∀ h ∈ [TrackHandler ps env db r, ReportHandler ps env db r,
          PhishHandler ps env db r], h.outcome = .returned)) ∧
    (env.notFoundTemplate = .executeFails →
      (TrackHandler ps env db r).world.resp = [.NotFound] ∧
      (ReportHandler ps env db r).world.resp =
        [.SetHeader "Access-Control-Allow-Origin".toList "*".toList, .NotFound] ∧
      (PhishHandler ps env db r).world.resp = [.NotFound] ∧
      (∀ h ∈ [TrackHandler ps env db r, ReportHandler ps env db r,
          PhishHandler ps env db r], h.outcome = .returned)) ∧
    (env.notFoundTemplate = .parseFails →
      (TrackHandler ps env db r).world.resp = [] ∧
      (ReportHandler ps env db r).world.resp =
        [.SetHeader "Access-Control-Allow-Origin".toList "*".toList] ∧
      (PhishHandler ps env db r).world.resp = [] ∧
      (∀ h ∈ [TrackHandler ps env db r, ReportHandler ps env db r,
          PhishHandler ps env db r], h.outcome = .exited)) := by
  obtain ⟨hform, hv, hp, hid⟩ := setupContext_looked_up_result env db r id hlook
  subst hid
  have hset := setupContext_result_error env db r e hform hv hp hr
  have hT : TrackHandler ps env db r =
      customNotFound env ⟨db, [.GetResult (lookupKey r)], [], []⟩ := by
    simp only [TrackHandler, hset]
  have hR : ReportHandler ps env db r =
      customNotFound env ⟨db, [.GetResult (lookupKey r)],
        [.SetHeader "Access-Control-Allow-Origin".toList "*".toList], []⟩ := by
    simp only [ReportHandler, hset]
  have hP : PhishHandler ps env db r =
      customNotFound env
        (if r.XTracked = "true".toList then
          customTrackedPhishRequests env r ⟨db, [.GetResult (lookupKey r)], [], []⟩
        else ⟨db, [.GetResult (lookupKey r)], [], []⟩) := by
    simp only [PhishHandler, hset]
  have hPresp : (if r.XTracked = "true".toList then
        customTrackedPhishRequests env r
          (⟨db, [.GetResult (lookupKey r)], [], []⟩ : World σ)
      else ⟨db, [.GetResult (lookupKey r)], [], []⟩).resp = [] := by
    split
    · rw [customTrackedPhishRequests_resp]
    · rfl
  refine ⟨hp, by rw [hset], by rw [hset]; simp, by rw [hset], by rw [hset], by rw [hset],
    ?_, ?_, ?_, ?_⟩
  · intro h hh
    simp only [List.mem_cons, List.mem_singleton, List.not_mem_nil, or_false] at hh
    rcases hh with rfl | rfl | rfl
    · rw [hT]
      exact ⟨customNotFound_db env _, customNotFound_calls env _⟩
    · rw [hR]
      exact ⟨customNotFound_db env _, customNotFound_calls env _⟩
    · rw [hP, customNotFound_db, customNotFound_calls]
      split
      · exact ⟨customTrackedPhishRequests_db env r _, customTrackedPhishRequests_calls env r _⟩
      · exact ⟨rfl, rfl⟩
  · intro body hb
    rw [hT, hR, hP]
    refine ⟨?_, ?_, ?_, ?_⟩
    · rw [((customNotFound_answer env _).1 body hb).1]
      rfl
    · rw [((customNotFound_answer env _).1 body hb).1]
      rfl
    · rw [((customNotFound_answer env _).1 body hb).1, hPresp]
      rfl
    · intro h hh
      simp only [List.mem_cons, List.mem_singleton, List.not_mem_nil, or_false] at hh
      rcases hh with rfl | rfl | rfl <;> exact ((customNotFound_answer env _).1 body hb).2
  · intro hb
    rw [hT, hR, hP]
    refine ⟨?_, ?_, ?_, ?_⟩
    · rw [((customNotFound_answer env _).2.1 hb).1]
      rfl
    · rw [((customNotFound_answer env _).2.1 hb).1]
      rfl
    · rw [((customNotFound_answer env _).2.1 hb).1, hPresp]
      rfl
    · intro h hh
      simp only [List.mem_cons, List.mem_singleton, List.not_mem_nil, or_false] at hh
      rcases hh with rfl | rfl | rfl <;> exact ((customNotFound_answer env _).2.1 hb).2
  · intro hb
    rw [hT, hR, hP]
    refine ⟨?_, ?_, ?_, ?_⟩
    · rw [((customNotFound_answer env _).2.2 hb).1]
    · rw [((customNotFound_answer env _).2.2 hb).1]
    · rw [((customNotFound_answer env _).2.2 hb).1, hPresp]
    · intro h hh
      simp only [List.mem_cons, List.mem_singleton, List.not_mem_nil, or_false] at hh
      rcases hh with rfl | rfl | rfl <;> exact ((customNotFound_answer env _).2.2 hb).2

/-- C16, amended, at the request `GET /?rid=unknown1`: `setupContext` fails with
the error of the store and `TrackHandler` answers with the custom 404. -/
theorem C16_result_miss_witness :
    Call.GetResult "unknown1".toList ∈
      (setupContext (sampleEnv statusInProgress false) []
        (sampleRequest GET "rid=unknown1".toList)).calls ∧
    (setupContext (sampleEnv statusInProgress false) []
      (sampleRequest GET "rid=unknown1".toList)).err = some (.other recordNotFound) ∧
    (TrackHandler sampleServer (sampleEnv statusInProgress false) []
      (sampleRequest GET "rid=unknown1".toList)).world.resp =
        customError "<h1>Not Found</h1>".toList 404 :=
  ⟨by decide,
    (C16_result_miss sampleServer (sampleEnv statusInProgress false) []
      (sampleRequest GET "rid=unknown1".toList) "unknown1".toList recordNotFound
      (by decide) rfl).2.1,
    ((C16_result_miss sampleServer (sampleEnv statusInProgress false) []
      (sampleRequest GET "rid=unknown1".toList) "unknown1".toList recordNotFound
      (by decide) rfl).2.2.2.2.2.2.2.1 "<h1>Not Found</h1>".toList rfl).1⟩

/-! ## C17 — the trailing space and the lookup key -/

theorem HasSuffix_append (t suffix : GoString) : HasSuffix (t ++ suffix) suffix = true := by
  simp [HasSuffix]

theorem TrimSuffix_append (t suffix : GoString) : TrimSuffix (t ++ suffix) suffix = t := by
  simp [TrimSuffix, HasSuffix_append]

theorem TrimRight_append_space (s : GoString) (h : HasSuffix s " ".toList = false) :
    TrimRight (s ++ " ".toList) ' ' = s := by
  have hrev : (s ++ " ".toList).reverse = ' ' :: s.reverse := by simp
  unfold TrimRight
  rw [hrev]
  simp only [List.dropWhile_cons, beq_self_eq_true, if_true]
  cases hs : s.reverse with
  | nil => simp [List.reverse_eq_nil_iff.mp hs]
  | cons c rest =>
    have hsr : s = rest.reverse ++ [c] := by
      have := congrArg List.reverse hs
      simpa using this
    have hc : c ≠ ' ' := by
      intro hc
      rw [hsr, hc] at h
      have := HasSuffix_append rest.reverse " ".toList
      simp only [String.toList] at this h
      rw [this] at h
      cases h
    have hb : (c == ' ') = false := by simpa using hc
    simp only [List.dropWhile_cons, hb, Bool.false_eq_true, if_false]
    rw [← hs, List.reverse_reverse]

/-- The rid under the context key `"rid"` is the normalised RID value. -/
theorem setupContext_ctx_rid {σ : Type} (env : Env σ) (db : σ) (r : Request)
    (rid : GoString) (hrid : (setupContext env db r).ctx.rid = some rid) :
    rid = normalizeRid (ridValue r) := by
  rcases setupCase_total env db r with ⟨e, h⟩ | ⟨h, hv⟩ | ⟨e, h, hv, hp, hr⟩ |
    ⟨er, h, hv, hp, hr⟩ | ⟨e, h, hv, hp, hr⟩ | ⟨rs, e, h, hv, hp, hr, hc⟩ |
    ⟨rs, c, h, hv, hp, hr, hc, hs⟩ | ⟨rs, c, h, hv, hp, hr, hc, hs⟩
  · rw [setupContext_parse_error env db r e h] at hrid; cases hrid
  · rw [setupContext_empty env db r h hv] at hrid; cases hrid
  · rw [setupContext_preview_error env db r e h hv hp hr] at hrid; cases hrid
  · rw [setupContext_preview env db r er h hv hp hr] at hrid; cases hrid
  · rw [setupContext_result_error env db r e h hv hp hr] at hrid; cases hrid
  · rw [setupContext_campaign_error env db r rs e h hv hp hr hc] at hrid; cases hrid
  · rw [setupContext_complete env db r rs c h hv hp hr hc hs] at hrid; cases hrid
  · rw [setupContext_live env db r rs c h hv hp hr hc hs] at hrid
    simp only [Option.some.injEq] at hrid
    exact hrid.symm

/-- The first store call of `setupContext` for a request whose form parses and
whose RID value is not empty is the lookup with the key `lookupKey r`, and a
request whose key resolves to a live Result of a campaign that is not completed
is accepted with the rid `normalizeRid (ridValue r)` under the context key
`"rid"`. -/
theorem setupContext_uses_key {σ : Type} (env : Env σ) (db : σ) (r : Request)
    (hform : r.ParseForm.2 = none) (hv : ridValue r ≠ []) :
    (setupContext env db r).calls.head? = some (lookupCall env (lookupKey r)) ∧
    (∀ rs c, ResolvesLive env db (lookupKey r) rs c →
      (setupContext env db r).err = none ∧
      (setupContext env db r).ctx.rid = some (normalizeRid (ridValue r))) := by
  constructor
  · unfold lookupCall
    rcases setupCase_total env db r with ⟨e, h⟩ | ⟨h, hv2⟩ | ⟨e, h, hv2, hp, hr⟩ |
      ⟨er, h, hv2, hp, hr⟩ | ⟨e, h, hv2, hp, hr⟩ | ⟨rs, e, h, hv2, hp, hr, hc⟩ |
      ⟨rs, c, h, hv2, hp, hr, hc, hs⟩ | ⟨rs, c, h, hv2, hp, hr, hc, hs⟩
    · rw [hform] at h; cases h
    · exact absurd hv2 hv
    · rw [setupContext_preview_error env db r e h hv2 hp hr, hp]; rfl
    · rw [setupContext_preview env db r er h hv2 hp hr, hp]; rfl
    · rw [setupContext_result_error env db r e h hv2 hp hr, hp]; rfl
    · rw [setupContext_campaign_error env db r rs e h hv2 hp hr hc, hp]; rfl
    · rw [setupContext_complete env db r rs c h hv2 hp hr hc hs, hp]; rfl
    · rw [setupContext_live env db r rs c h hv2 hp hr hc hs, hp]; rfl
  · rintro rs c ⟨hp, hr, hc, hs⟩
    rw [setupContext_live env db r rs c hform hv hp hr hc hs]
    exact ⟨rfl, rfl⟩

/-- C17: for every request whose form parses and whose RID value ends with a
space, `setupContext` looks up the value with its trailing spaces cut off and,
when that key resolves to a live Result, stores the value with its trailing
spaces replaced by the transparency suffix as the rid; in particular the value
`s ++ " "` with one trailing space is looked up as `s` and stored as `s ++ "+"`
(`"abc "` becomes the rid `"abc+"` with the lookup key `"abc"`).  A value that
is not empty and ends in neither a space nor `+` is the lookup key and the rid
unchanged. -/
theorem C17_space_becomes_suffix {σ : Type} (env : Env σ) (db : σ) (r : Request)
    (hform : r.ParseForm.2 = none) :
    (HasSuffix (ridValue r) " ".toList = true →
      (setupContext env db r).calls.head? =
        some (lookupCall env (TrimRight (ridValue r) ' ')) ∧
      (∀ rs c, ResolvesLive env db (TrimRight (ridValue r) ' ') rs c →
        (setupContext env db r).err = none ∧
        (setupContext env db r).ctx.rid =
          some (TrimRight (ridValue r) ' ' ++ TransparencySuffix))) ∧
    (∀ s, HasSuffix s " ".toList = false → ridValue r = s ++ " ".toList →
      (setupContext env db r).calls.head? = some (lookupCall env s) ∧
      (∀ rs c, ResolvesLive env db s rs c →
        (setupContext env db r).err = none ∧
        (setupContext env db r).ctx.rid = some (s ++ "+".toList))) ∧
    (ridValue r ≠ [] → HasSuffix (ridValue r) " ".toList = false →
      HasSuffix (ridValue r) TransparencySuffix = false →
      (setupContext env db r).calls.head? = some (lookupCall env (ridValue r)) ∧
      (∀ rs c, ResolvesLive env db (ridValue r) rs c →
        (setupContext env db r).err = none ∧
        (setupContext env db r).ctx.rid = some (ridValue r))) := by
  refine ⟨?_, ?_, ?_⟩
  · intro h
    have hv : ridValue r ≠ [] := by
      intro hnil
      rw [hnil] at h
      exact absurd h (by decide)
    have hn : normalizeRid (ridValue r) = TrimRight (ridValue r) ' ' ++ TransparencySuffix := by
      simp only [normalizeRid, h, if_true]
    have hk : lookupKey r = TrimRight (ridValue r) ' ' := by
      unfold lookupKey
      rw [hn, TrimSuffix_append]
    have hmain := setupContext_uses_key env db r hform hv
    rw [hk, hn] at hmain
    exact hmain
  · intro s hs hval
    have h : HasSuffix (ridValue r) " ".toList = true := by
      rw [hval]; exact HasSuffix_append s _
    have hv : ridValue r ≠ [] := by
      rw [hval]
      simp
    have hn : normalizeRid (ridValue r) = s ++ "+".toList := by
      simp only [normalizeRid, h, if_true]
      rw [hval, TrimRight_append_space s hs]
      rfl
    have hk : lookupKey r = s := by
      unfold lookupKey
      rw [hn]
      exact TrimSuffix_append s _
    have hmain := setupContext_uses_key env db r hform hv
    rw [hk, hn] at hmain
    exact hmain
  · intro hv h1 h2
    have hn : normalizeRid (ridValue r) = ridValue r := by
      simp only [normalizeRid, h1, Bool.false_eq_true, if_false]
    have hk : lookupKey r = ridValue r := by
      unfold lookupKey
      rw [hn]
      simp [TrimSuffix, h2]
    have hmain := setupContext_uses_key env db r hform hv
    rw [hk, hn] at hmain
    exact hmain

/-- C17 at the requests `GET /?rid=abc+` and `GET /?rid=abcDEF1+`, whose values
decode to `abc ` and `abcDEF1 `: `setupContext` looks up `abc`, and it looks up
`abcDEF1`, which resolves, and stores the rid `abcDEF1+`. -/
theorem C17_space_becomes_suffix_witness :
    ridValue (sampleRequest GET "rid=abc+".toList) = "abc ".toList ∧
    (setupContext (sampleEnv statusInProgress false) []
      (sampleRequest GET "rid=abc+".toList)).calls.head? =
        some (.GetResult "abc".toList) ∧
    ridValue (sampleRequest GET "rid=abcDEF1+".toList) = "abcDEF1 ".toList ∧
    (setupContext (sampleEnv statusInProgress false) []
      (sampleRequest GET "rid=abcDEF1+".toList)).calls.head? =
        some (.GetResult "abcDEF1".toList) ∧
    (setupContext (sampleEnv statusInProgress false) []
      (sampleRequest GET "rid=abcDEF1+".toList)).ctx.rid = some "abcDEF1+".toList :=
  ⟨by decide,
    ((C17_space_becomes_suffix (sampleEnv statusInProgress false) []
      (sampleRequest GET "rid=abc+".toList) (by decide)).2.1 "abc".toList (by decide)
      (by decide)).1,
    by decide,
    ((C17_space_becomes_suffix (sampleEnv statusInProgress false) []
      (sampleRequest GET "rid=abcDEF1+".toList) (by decide)).2.1 "abcDEF1".toList (by decide)
      (by decide)).1,
    (((C17_space_becomes_suffix (sampleEnv statusInProgress false) []
      (sampleRequest GET "rid=abcDEF1+".toList) (by decide)).2.1 "abcDEF1".toList (by decide)
      (by decide)).2 sampleResult (sampleCampaign statusInProgress false)
      ⟨by decide, rfl, rfl, by decide⟩).2⟩

/-! ## C18 — recording on a campaign with HTTP auth -/

/-- C18, as stated, fails: on a campaign with HTTP auth, the request
`GET /?rid=abcDEF1+` for a live Result, without Basic-Auth credentials, is a
transparency request; `PhishHandler` answers it with the transparency response
and does not call `HandleClickedLink`. -/
theorem C18_counterexample :
    (setupContext (sampleEnv statusInProgress true) []
      (sampleRequest GET "rid=abcDEF1+".toList)).ctx.result = some (.live sampleResult) ∧
    (setupContext (sampleEnv statusInProgress true) []
      (sampleRequest GET "rid=abcDEF1+".toList)).ctx.campaign =
        some (sampleCampaign statusInProgress true) ∧
    (sampleRequest GET "rid=abcDEF1+".toList).BasicAuth = ([], [], false) ∧
    recorderCalls (PhishHandler sampleServer (sampleEnv statusInProgress true) []
      (sampleRequest GET "rid=abcDEF1+".toList)).world.calls = [] := by
  decide

/-- C18, amended: for every accepted request for a live Result whose rid has no
transparency suffix, on a campaign with HTTP auth whose page loads, with
`(username, password, ok)` the result of `r.BasicAuth()` (empty strings when `ok`
is false) and `d` the details of the context, the recorders `PhishHandler` calls
are: without credentials exactly one `HandleClickedLink`; with credentials whose
username or password is empty none; with both non-empty exactly one
`HandleFormSubmit`, whose details are `d` with the payload replaced by
`Username: [username], Password: [password]` when the page captures passwords and
by `Username: [username]` otherwise. -/
theorem C18_http_auth_recording {σ : Type} (ps : PhishingServer) (env : Env σ)
    (db : σ) (r : Request) (rid : GoString) (rs : Result) (c : Campaign) (p : Page)
    (hacc : (setupContext env db r).err = none)
    (hlive : (setupContext env db r).ctx.result = some (.live rs))
    (hrid : (setupContext env db r).ctx.rid = some rid)
    (hsfx : HasSuffix rid TransparencySuffix = false)
    (hc : (setupContext env db r).ctx.campaign = some c)
    (hauth : c.HTTPAuth = true)
    (hpage : env.GetPage (setupContext env db r).db c.PageId c.UserId = .ok p)
    (hba : r.BasicAuth.2.2 = false → r.BasicAuth.1 = [] ∧ r.BasicAuth.2.1 = []) :
    ∃ d, (setupContext env db r).ctx.details = some d ∧
      recorderCalls (PhishHandler ps env db r).world.calls =
        if r.BasicAuth.2.2 = false then [.HandleClickedLink rs.RId d]
        else if r.BasicAuth.1 = [] ∨ r.BasicAuth.2.1 = [] then []
        else if p.CapturePasswords = true then
          [.HandleFormSubmit rs.RId
            { d with Payload := [("Username".toList, [r.BasicAuth.1]),
                                 ("Password".toList, [r.BasicAuth.2.1])] }]
        else
          [.HandleFormSubmit rs.RId
            { d with Payload := [("Username".toList, [r.BasicAuth.1])] }] := by
  obtain ⟨c2, d, hctx⟩ := setupContext_accept_live_rid env db r rid rs hacc hlive hrid
  have hcc : c2 = c := by
    rw [hctx] at hc
    exact Option.some.inj hc
  subst hcc
  have hno := setupContext_no_recorder env db r
  refine ⟨d, by rw [hctx], ?_⟩
  have hrec : recorderCalls (recordPhish env r c2 p rs d
        (World.call (World.emit ⟨(setupContext env db r).db, (setupContext env db r).calls,
          [], []⟩ [.SetHeader "X-Server".toList env.ServerName])
          (setupContext env db r).db (.GetPage c2.PageId c2.UserId))).1.calls =
      if r.BasicAuth.2.2 = false then [.HandleClickedLink rs.RId d]
      else if r.BasicAuth.1 = [] ∨ r.BasicAuth.2.1 = [] then []
      else if p.CapturePasswords = true then
        [.HandleFormSubmit rs.RId
          { d with Payload := [("Username".toList, [r.BasicAuth.1]),
                               ("Password".toList, [r.BasicAuth.2.1])] }]
      else
        [.HandleFormSubmit rs.RId
          { d with Payload := [("Username".toList, [r.BasicAuth.1])] }] := by
    unfold recordPhish
    simp only [hauth, not_true_eq_false, if_false]
    cases hok : r.BasicAuth.2.2 with
    | false =>
      obtain ⟨hu, _⟩ := hba hok
      simp [hu, World.call, World.emit, recorderCalls_append, hno, recorderCalls_cons,
        recorderCalls_nil, Call.isRecorder]
    | true =>
      by_cases hempty : r.BasicAuth.1 = [] ∨ r.BasicAuth.2.1 = []
      · simp [hempty, World.call, World.emit, recorderCalls_append, hno,
          recorderCalls_cons, recorderCalls_nil, Call.isRecorder]
      · cases hcap : p.CapturePasswords <;>
          simp [hempty, World.call, World.emit, recorderCalls_append, hno,
            recorderCalls_cons, recorderCalls_nil, Call.isRecorder]
  rw [← hrec]
  simp only [PhishHandler, hacc, hctx, hsfx, hpage, Bool.false_eq_true, if_false,
    respondPhish_calls, World.call, World.emit]

/-- C18, amended, at the request `GET /?rid=abcDEF1` with the credentials
`alice` / `hunter2` on a campaign with HTTP auth whose page captures passwords:
one `HandleFormSubmit` with the payload of the two credentials. -/
theorem C18_http_auth_recording_witness :
    ∃ d, (setupContext (sampleEnv statusInProgress true) [] authRequest).ctx.details =
        some d ∧
      recorderCalls (PhishHandler sampleServer (sampleEnv statusInProgress true) []
        authRequest).world.calls =
        [.HandleFormSubmit "abcDEF1".toList
          { d with Payload := [("Username".toList, ["alice".toList]),
                               ("Password".toList, ["hunter2".toList])] }] := by
  obtain ⟨d, hd, h⟩ := C18_http_auth_recording sampleServer
    (sampleEnv statusInProgress true) [] authRequest "abcDEF1".toList sampleResult
    (sampleCampaign statusInProgress true) samplePage (by decide) (by decide) (by decide)
    (by decide) (by decide) rfl rfl (by decide)
  exact ⟨d, hd, h⟩


/-! ## C25 — the line of `tracked-data.csv` -/

theorem ReplaceAll_remove (s : GoString) (old : Char) :
    ReplaceAll s old [] = s.filter (fun c => c ≠ old) := by
  induction s with
  | nil => rfl
  | cons c cs ih =>
    simp only [ReplaceAll, List.flatMap_cons] at ih ⊢
    by_cases h : c = old
    · simp [h, ih]
    · simp [h, ih]

theorem ReplaceAll_char (s : GoString) (old new : Char) :
    ReplaceAll s old [new] = s.map (fun c => if c = old then new else c) := by
  induction s with
  | nil => rfl
  | cons c cs ih =>
    simp only [ReplaceAll, List.flatMap_cons] at ih ⊢
    by_cases h : c = old
    · simp [h, ih]
    · simp [h, ih]

/-- C25: for every request URL, the line `customTrackedPhishRequests` appends to
`tracked-data.csv` is the URL string with every `/` removed and every `?` and `&`
replaced by `,`, followed by a newline, and it holds none of the characters `/`,
`?` and `&`; when the file cannot be opened or written nothing is appended. -/
theorem C25_tracked_line {σ : Type} (env : Env σ) (r : Request) (w : World σ) :
    (customTrackedPhishRequests env r w).tracked =
      (if env.trackedFileWritable = true then w.tracked ++ [specTrackedLine r.URLString]
        else w.tracked) ∧
    '/' ∉ specTrackedLine r.URLString ∧
    '?' ∉ specTrackedLine r.URLString ∧
    '&' ∉ specTrackedLine r.URLString := by
  have hline : ReplaceAll (ReplaceAll (ReplaceAll r.URLString '/' []) '?' ",".toList) '&'
      ",".toList ++ "\n".toList = specTrackedLine r.URLString := by
    have h1 : ",".toList = [','] := rfl
    have h2 : "\n".toList = ['\n'] := rfl
    rw [h1, h2, ReplaceAll_remove, ReplaceAll_char, ReplaceAll_char, List.map_map]
    unfold specTrackedLine
    congr 1
    apply List.map_congr_left
    intro c _
    by_cases hq : c = '?'
    · simp [hq]
    · by_cases ha : c = '&'
      · simp [ha]
      · simp [hq, ha]
  refine ⟨?_, ?_, ?_, ?_⟩
  · unfold customTrackedPhishRequests
    simp only [hline]
    cases env.trackedFileWritable <;> simp
  · intro hmem
    simp only [specTrackedLine, List.mem_append, List.mem_map, List.mem_filter,
      List.mem_singleton] at hmem
    rcases hmem with ⟨c, ⟨_, hc⟩, heq⟩ | h
    · by_cases hq : c = '?' ∨ c = '&'
      · rw [if_pos hq] at heq
        exact absurd heq (by decide)
      · rw [if_neg hq] at heq
        subst heq
        simp at hc
    · exact absurd h (by decide)
  · intro hmem
    simp only [specTrackedLine, List.mem_append, List.mem_map, List.mem_filter,
      List.mem_singleton] at hmem
    rcases hmem with ⟨c, ⟨_, _⟩, heq⟩ | h
    · by_cases hq : c = '?' ∨ c = '&'
      · rw [if_pos hq] at heq
        exact absurd heq (by decide)
      · rw [if_neg hq] at heq
        subst heq
        exact hq (Or.inl rfl)
    · exact absurd h (by decide)
  · intro hmem
    simp only [specTrackedLine, List.mem_append, List.mem_map, List.mem_filter,
      List.mem_singleton] at hmem
    rcases hmem with ⟨c, ⟨_, _⟩, heq⟩ | h
    · by_cases hq : c = '?' ∨ c = '&'
      · rw [if_pos hq] at heq
        exact absurd heq (by decide)
      · rw [if_neg hq] at heq
        subst heq
        exact hq (Or.inr rfl)
    · exact absurd h (by decide)

/-! ## C26 — `PhishHandler` after a failed `NewPhishingTemplateContext` -/

/-- C26, on the code: for the request `GET /?rid=abcDEF1` for a live Result, when
`NewPhishingTemplateContext` fails, `PhishHandler` writes the custom 404 and
then, without returning, renders the landing page with the zero-valued template
context: the page body follows the body of the 404.  On a campaign with HTTP
auth the 401 with its `WWW-Authenticate` header follows the 404 in the same
way. -/
theorem C26_writes_after_not_found :
    (PhishHandler sampleServer (brokenContextEnv false) []
        (sampleRequest GET "rid=abcDEF1".toList)).world.resp =
      [.SetHeader "X-Server".toList "gophish".toList] ++
        customError "<h1>Not Found</h1>".toList 404 ++
        [.Write "<html>login</html>".toList] ∧
    (PhishHandler sampleServer (brokenContextEnv true) []
        (sampleRequest GET "rid=abcDEF1".toList)).world.resp =
      [.SetHeader "X-Server".toList "gophish".toList] ++
        customError "<h1>Not Found</h1>".toList 404 ++
        [.AddHeader "WWW-Authenticate".toList
          ("Basic realm=".toList ++ ['"'] ++ "<html>login</html>".toList ++ ['"']),
         .WriteHeader 401, .Write unauthorizedBody] := by
  decide


/-! ## C23 — the header `X-Server` -/

theorem xServerSent_untouched (ops : List RespOp) :
    ∀ h : Option GoString, (∀ op ∈ ops, op.touchesXServer = false) →
      xServerSent ops h = h := by
  induction ops with
  | nil => intro h _; rfl
  | cons op rest ih =>
    intro h hun
    have hop := hun op (List.mem_cons_self _ _)
    have hrest : ∀ o ∈ rest, o.touchesXServer = false :=
      fun o ho => hun o (List.mem_cons_of_mem _ ho)
    cases op with
    | SetHeader key value =>
      have hk : ¬ key = xServerKey := by simpa [RespOp.touchesXServer] using hop
      simp only [xServerSent, hk, if_false]
      exact ih h hrest
    | AddHeader key value =>
      have hk : ¬ key = xServerKey := by simpa [RespOp.touchesXServer] using hop
      simp only [xServerSent, hk, false_and, if_false]
      exact ih h hrest
    | WriteHeader code => rfl
    | Write body => rfl
    | ServeFile name => rfl
    | Redirect url code => rfl
    | NotFound => rfl
    | JSONResponse tr code => rfl

theorem customError_untouched (error : GoString) (code : Nat) :
    ∀ op ∈ customError error code, op.touchesXServer = false := by
  intro op hop
  simp only [customError, List.mem_cons, List.mem_singleton, List.not_mem_nil, or_false] at hop
  rcases hop with h | h | h | h | h | h | h | h <;> subst h <;> first | decide | rfl

theorem customNotFound_resp {σ : Type} (env : Env σ) (w : World σ) :
    ∃ extra, (customNotFound env w).world.resp = w.resp ++ extra ∧
      ∀ op ∈ extra, op.touchesXServer = false := by
  unfold customNotFound
  split
  · exact ⟨[], by simp, by simp⟩
  · exact ⟨[.NotFound], rfl, by simp [RespOp.touchesXServer]⟩
  · exact ⟨_, rfl, customError_untouched _ 404⟩

theorem renderPhishResponse_resp {σ : Type} (env : Env σ) (r : Request)
    (ptx : PhishingTemplateContext) (p : Page) (w : World σ) :
    ∃ extra, (renderPhishResponse env r ptx p w).world.resp = w.resp ++ extra ∧
      ∀ op ∈ extra, op.touchesXServer = false := by
  unfold renderPhishResponse
  split
  · split
    · exact customNotFound_resp env w
    · exact ⟨[_], rfl, by simp [RespOp.touchesXServer]⟩
  · split
    · exact customNotFound_resp env w
    · exact ⟨[_], rfl, by simp [RespOp.touchesXServer]⟩

theorem renderBasicAuth_resp {σ : Type} (env : Env σ) (r : Request)
    (ptx : PhishingTemplateContext) (p : Page) (w : World σ) :
    ∃ extra, (renderBasicAuth env r ptx p w).world.resp = w.resp ++ extra ∧
      ∀ op ∈ extra, op.touchesXServer = false := by
  unfold renderBasicAuth
  split
  · split
    · exact customNotFound_resp env w
    · exact ⟨[_], rfl, by simp [RespOp.touchesXServer]⟩
  · refine ⟨_, rfl, ?_⟩
    intro op hop
    simp only [List.mem_cons, List.mem_singleton, List.not_mem_nil, or_false] at hop
    rcases hop with h | h | h <;> subst h
    · simp only [RespOp.touchesXServer]
      decide
    · rfl
    · rfl

theorem respondPhish_resp {σ : Type} (env : Env σ) (r : Request) (c : Campaign)
    (p : Page) (rs : Result) (w : World σ) :
    ∃ extra, (respondPhish env r c p rs w).world.resp = w.resp ++ extra ∧
      ∀ op ∈ extra, op.touchesXServer = false := by
  have hjoin : ∀ (w1 : World σ) (res : HandlerResult σ),
      (∃ e1, w1.resp = w.resp ++ e1 ∧ ∀ op ∈ e1, op.touchesXServer = false) →
      (∃ e2, res.world.resp = w1.resp ++ e2 ∧ ∀ op ∈ e2, op.touchesXServer = false) →
      ∃ extra, res.world.resp = w.resp ++ extra ∧
        ∀ op ∈ extra, op.touchesXServer = false := by
    rintro w1 res ⟨e1, h1, u1⟩ ⟨e2, h2, u2⟩
    refine ⟨e1 ++ e2, by rw [h2, h1, List.append_assoc], ?_⟩
    intro op hop
    rcases List.mem_append.mp hop with h | h
    · exact u1 op h
    · exact u2 op h
  unfold respondPhish
  split
  · simp only []
    split
    · split
      · exact hjoin _ _ (customNotFound_resp env w) (renderPhishResponse_resp env r _ p _)
      · exact hjoin _ _ (customNotFound_resp env w) (renderBasicAuth_resp env r _ p _)
    · exact customNotFound_resp env w
  · split
    · exact renderPhishResponse_resp env r _ p w
    · exact renderBasicAuth_resp env r _ p w

theorem recordPhish_resp {σ : Type} (env : Env σ) (r : Request) (c : Campaign) (p : Page)
    (rs : Result) (d : EventDetails) (w : World σ) :
    (recordPhish env r c p rs d w).1.resp = w.resp := by
  unfold recordPhish
  dsimp only
  repeat' split
  all_goals rfl

theorem TransparencyHandler_resp {σ : Type} (ps : PhishingServer) (env : Env σ) (ctx : Ctx)
    (w : World σ) :
    ∃ extra, (TransparencyHandler ps env ctx w).world.resp = w.resp ++ extra ∧
      ∀ op ∈ extra, op.touchesXServer = false := by
  unfold TransparencyHandler
  split
  · exact ⟨[_], rfl, by simp [RespOp.touchesXServer]⟩
  · exact ⟨[], by simp, by simp⟩

/-- The response of `PhishHandler` to a request that `setupContext` accepts:
nothing at all when the cast of the campaign panics, else the header `X-Server`
with the configured server name, followed by operations that leave that header
alone. -/
theorem PhishHandler_accepted_resp {σ : Type} (ps : PhishingServer) (env : Env σ)
    (db : σ) (r : Request) (hacc : (setupContext env db r).err = none) :
    ((PhishHandler ps env db r).outcome = .panicked ∧
      (PhishHandler ps env db r).world.resp = []) ∨
    ∃ extra, (PhishHandler ps env db r).world.resp =
        .SetHeader xServerKey env.ServerName :: extra ∧
      ∀ op ∈ extra, op.touchesXServer = false := by
  have hlift : ∀ (w : World σ) (res : HandlerResult σ),
      w.resp = [.SetHeader xServerKey env.ServerName] →
      (∃ extra, res.world.resp = w.resp ++ extra ∧
        ∀ op ∈ extra, op.touchesXServer = false) →
      ∃ extra, res.world.resp = .SetHeader xServerKey env.ServerName :: extra ∧
        ∀ op ∈ extra, op.touchesXServer = false := by
    rintro w res hw ⟨extra, h, hu⟩
    exact ⟨extra, by rw [h, hw]; rfl, hu⟩
  unfold PhishHandler
  simp only [hacc]
  cases hc : (setupContext env db r).ctx.campaign with
  | none => exact Or.inl ⟨rfl, rfl⟩
  | some c =>
    right
    simp only []
    cases hres : (setupContext env db r).ctx.result with
    | none => exact ⟨[], rfl, by simp⟩
    | some subject =>
      cases subject with
      | preview pv =>
        simp only []
        split
        · exact hlift _ _ rfl (customNotFound_resp env _)
        · split
          · exact hlift _ _ rfl (customNotFound_resp env _)
          · split
            · exact hlift _ _ rfl (renderPhishResponse_resp env r _ _ _)
            · exact hlift _ _ rfl (renderBasicAuth_resp env r _ _ _)
      | live rs =>
        simp only []
        split
        · split
          · exact hlift _ _ rfl (TransparencyHandler_resp ps env _ _)
          · split
            · exact hlift _ _ rfl (customNotFound_resp env _)
            · exact hlift _ _ (by rw [recordPhish_resp]; rfl) (respondPhish_resp env r _ _ _ _)
        · exact ⟨[], rfl, by simp⟩

theorem untouched_of_extends (start : List RespOp) (resp : List RespOp)
    (hstart : ∀ op ∈ start, op.touchesXServer = false)
    (h : ∃ extra, resp = start ++ extra ∧ ∀ op ∈ extra, op.touchesXServer = false) :
    ∀ op ∈ resp, op.touchesXServer = false := by
  obtain ⟨extra, he, hu⟩ := h
  intro op hop
  rw [he] at hop
  rcases List.mem_append.mp hop with h1 | h1
  · exact hstart op h1
  · exact hu op h1

/-- No operation of `TrackHandler` on the response sets the header `X-Server`. -/
theorem TrackHandler_untouched {σ : Type} (ps : PhishingServer) (env : Env σ) (db : σ)
    (r : Request) :
    ∀ op ∈ (TrackHandler ps env db r).world.resp, op.touchesXServer = false := by
  unfold TrackHandler
  simp only []
  split
  · exact untouched_of_extends [] _ (by simp) (customNotFound_resp env _)
  · split
    · simp [World.emit, RespOp.touchesXServer]
    · simp
    · split
      · split
        · exact untouched_of_extends [] _ (by simp) (TransparencyHandler_resp ps env _ _)
        · simp [World.emit, World.call, RespOp.touchesXServer]
      · simp

/-- No operation of `ReportHandler` on the response sets the header `X-Server`. -/
theorem ReportHandler_untouched {σ : Type} (ps : PhishingServer) (env : Env σ) (db : σ)
    (r : Request) :
    ∀ op ∈ (ReportHandler ps env db r).world.resp, op.touchesXServer = false := by
  have hcors : ∀ op ∈ [RespOp.SetHeader "Access-Control-Allow-Origin".toList "*".toList],
      op.touchesXServer = false := by
    intro op hop
    rw [List.mem_singleton] at hop
    subst hop
    decide
  unfold ReportHandler
  simp only []
  split
  · exact untouched_of_extends _ _ hcors (customNotFound_resp env _)
  · split
    · exact untouched_of_extends _ _ hcors ⟨[.WriteHeader 204], rfl, by simp [RespOp.touchesXServer]⟩
    · exact hcors
    · split
      · split
        · exact untouched_of_extends _ _ hcors (TransparencyHandler_resp ps env _ _)
        · exact untouched_of_extends _ _ hcors
            ⟨[.WriteHeader 204], rfl, by simp [RespOp.touchesXServer]⟩
      · exact hcors

/-- No operation of `PhishHandler` on the response to a request that
`setupContext` rejects sets the header `X-Server`. -/
theorem PhishHandler_rejected_untouched {σ : Type} (ps : PhishingServer) (env : Env σ)
    (db : σ) (r : Request) (e : Err) (hrej : (setupContext env db r).err = some e) :
    ∀ op ∈ (PhishHandler ps env db r).world.resp, op.touchesXServer = false := by
  unfold PhishHandler
  simp only [hrej]
  apply untouched_of_extends [] _ (by simp)
  obtain ⟨extra, h, hu⟩ := customNotFound_resp env
    (if r.XTracked = "true".toList then
      customTrackedPhishRequests env r
        ⟨(setupContext env db r).db, (setupContext env db r).calls, [], []⟩
     else ⟨(setupContext env db r).db, (setupContext env db r).calls, [], []⟩)
  refine ⟨extra, ?_, hu⟩
  rw [h]
  congr 1
  split
  · unfold customTrackedPhishRequests
    split <;> rfl
  · rfl

/-- C23, as stated, fails: the responses of `TrackHandler` and `ReportHandler` to
the request `GET /?rid=abcDEF1` for a live Result, the response of
`RobotsHandler`, and the custom 404 of `PhishHandler` for the unknown RID
`zzzzzzz` carry no header `X-Server`. -/
theorem C23_counterexample :
    responseXServer (TrackHandler sampleServer (sampleEnv statusInProgress false) []
      (sampleRequest GET "rid=abcDEF1".toList)).world.resp = none ∧
    responseXServer (ReportHandler sampleServer (sampleEnv statusInProgress false) []
      (sampleRequest GET "rid=abcDEF1".toList)).world.resp = none ∧
    responseXServer (RobotsHandler sampleServer (sampleEnv statusInProgress false) []
      (sampleRequest GET [])).world.resp = none ∧
    responseXServer (PhishHandler sampleServer (sampleEnv statusInProgress false) []
      (sampleRequest GET "rid=zzzzzzz".toList)).world.resp = none := by
  decide

/-- C23, amended: every response that `PhishHandler` produces for a request that
`setupContext` accepts (the page, the redirect, the 401, the transparency
response, a 404 after acceptance) carries the header `X-Server` set to the
configured server name.  The responses of `TrackHandler`, `ReportHandler` and
`RobotsHandler`, and the response of `PhishHandler` to a request that
`setupContext` rejects, carry no header `X-Server`. -/
theorem C23_x_server_only_in_phish {σ : Type} (ps : PhishingServer) (env : Env σ)
    (db : σ) (r : Request) :
    ((setupContext env db r).err = none →
      (PhishHandler ps env db r).outcome = .returned →
      responseXServer (PhishHandler ps env db r).world.resp = some env.ServerName) ∧
    ((setupContext env db r).err ≠ none →
      responseXServer (PhishHandler ps env db r).world.resp = none) ∧
    responseXServer (TrackHandler ps env db r).world.resp = none ∧
    responseXServer (ReportHandler ps env db r).world.resp = none ∧
    responseXServer (RobotsHandler ps env db r).world.resp = none := by
  refine ⟨?_, ?_, ?_, ?_, ?_⟩
  · intro hacc hret
    rcases PhishHandler_accepted_resp ps env db r hacc with ⟨hp, _⟩ | ⟨extra, hresp, hu⟩
    · rw [hp] at hret
      cases hret
    · rw [hresp]
      simp only [responseXServer, xServerSent, if_true]
      exact xServerSent_untouched extra _ hu
  · intro hrej
    cases herr : (setupContext env db r).err with
    | none => exact absurd herr hrej
    | some e =>
      exact xServerSent_untouched _ none (PhishHandler_rejected_untouched ps env db r e herr)
  · exact xServerSent_untouched _ none (TrackHandler_untouched ps env db r)
  · exact xServerSent_untouched _ none (ReportHandler_untouched ps env db r)
  · rfl

/-- C23, amended, at the request `GET /?rid=abcDEF1` for a live Result of a
running campaign. -/
theorem C23_x_server_only_in_phish_witness :
    responseXServer (PhishHandler sampleServer (sampleEnv statusInProgress false) []
      (sampleRequest GET "rid=abcDEF1".toList)).world.resp = some "gophish".toList :=
  (C23_x_server_only_in_phish sampleServer (sampleEnv statusInProgress false) []
    (sampleRequest GET "rid=abcDEF1".toList)).1 (by decide) (by decide)

/-! ## C30 — recording and rendering on a campaign with HTTP auth -/

theorem callsFormSubmit_of_no_recorder (calls : List Call)
    (h : recorderCalls calls = []) : callsFormSubmit calls = false := by
  simp only [callsFormSubmit, List.any_eq_false]
  intro c hc
  have hnot : c.isRecorder = false := by
    by_contra hcon
    have hmem : c ∈ recorderCalls calls := by
      simp only [recorderCalls, List.mem_filter]
      exact ⟨hc, by simpa using hcon⟩
    rw [h] at hmem
    cases hmem
  cases c <;> simp_all [Call.isRecorder]

theorem callsFormSubmit_append (xs ys : List Call) :
    callsFormSubmit (xs ++ ys) = (callsFormSubmit xs || callsFormSubmit ys) := by
  simp [callsFormSubmit, List.any_append]

/-- The recording branch of `PhishHandler` on a campaign with HTTP auth calls
`HandleFormSubmit` exactly for credentials with a username and a password. -/
theorem recordPhish_formSubmit {σ : Type} (env : Env σ) (r : Request) (c : Campaign)
    (p : Page) (rs : Result) (d : EventDetails) (w : World σ)
    (hauth : c.HTTPAuth = true) (hw : callsFormSubmit w.calls = false)
    (hba : r.BasicAuth.2.2 = false → r.BasicAuth.1 = [] ∧ r.BasicAuth.2.1 = []) :
    callsFormSubmit (recordPhish env r c p rs d w).1.calls = true ↔
      (r.BasicAuth.2.2 = true ∧ r.BasicAuth.1 ≠ [] ∧ r.BasicAuth.2.1 ≠ []) := by
  unfold recordPhish
  simp only [hauth, not_true_eq_false, if_false]
  cases hok : r.BasicAuth.2.2 with
  | false =>
    obtain ⟨hu, _⟩ := hba hok
    have hclick : callsFormSubmit [Call.HandleClickedLink rs.RId d] = false := rfl
    simp [hu, World.call, callsFormSubmit_append, hw, hclick]
  | true =>
    by_cases hempty : r.BasicAuth.1 = [] ∨ r.BasicAuth.2.1 = []
    · have hne : ¬ (r.BasicAuth.1 ≠ [] ∧ r.BasicAuth.2.1 ≠ []) := by
        rintro ⟨h1, h2⟩
        rcases hempty with h | h
        · exact h1 h
        · exact h2 h
      simp [hempty, hw, hne]
    · have hne : r.BasicAuth.1 ≠ [] ∧ r.BasicAuth.2.1 ≠ [] := by
        constructor
        · exact fun h => hempty (Or.inl h)
        · exact fun h => hempty (Or.inr h)
      have hsub : ∀ d2, callsFormSubmit [Call.HandleFormSubmit rs.RId d2] = true :=
        fun _ => rfl
      simp [hempty, World.call, callsFormSubmit_append, hsub, hne]

/-- The answer of `renderBasicAuth` when the redirect template executes: the 302
redirect for credentials with a username and a password, the 401 in every other
case. -/
theorem renderBasicAuth_answer {σ : Type} (env : Env σ) (r : Request)
    (ptx : PhishingTemplateContext) (p : Page) (w : World σ) (url : GoString)
    (hredir : env.ExecuteTemplate p.RedirectURL ptx = .ok url) :
    (renderBasicAuth env r ptx p w).outcome = .returned ∧
    (renderBasicAuth env r ptx p w).world.resp =
      w.resp ++
        (if r.BasicAuth.2.2 = true ∧ r.BasicAuth.1 ≠ [] ∧ r.BasicAuth.2.1 ≠ [] then
          [.Redirect url 302]
        else
          [ .AddHeader "WWW-Authenticate".toList
              ("Basic realm=".toList ++ ['"'] ++ env.Sanitize p.HTML ++ ['"']),
            .WriteHeader 401,
            .Write unauthorizedBody ]) := by
  unfold renderBasicAuth
  by_cases hcred : r.BasicAuth.2.2 = true ∧ r.BasicAuth.1 ≠ [] ∧ r.BasicAuth.2.1 ≠ []
  · rw [if_pos hcred, if_pos hcred, hredir]
    exact ⟨rfl, rfl⟩
  · rw [if_neg hcred, if_neg hcred]
    exact ⟨rfl, rfl⟩

/-- C30, as stated, fails: on a campaign with HTTP auth, the transparency request
`GET /?rid=abcDEF1+` with the credentials `alice` / `hunter2` is for a live
Result and the redirect template executes; `PhishHandler` does not call
`HandleFormSubmit`, and the answer the client receives is neither the 302
redirect nor the 401 but the transparency response with status 200. -/
theorem C30_counterexample :
    (setupContext (sampleEnv statusInProgress true) []
      authTransparencyRequest).ctx.result = some (.live sampleResult) ∧
    (sampleCampaign statusInProgress true).HTTPAuth = true ∧
    (sampleEnv statusInProgress true).ExecuteTemplate samplePage.RedirectURL
      { zeroPTX with RId := sampleResult.RId, BaseRecipient := sampleResult.BaseRecipient } =
      .ok [] ∧
    callsFormSubmit (PhishHandler sampleServer (sampleEnv statusInProgress true) []
      authTransparencyRequest).world.calls = false ∧
    (PhishHandler sampleServer (sampleEnv statusInProgress true) []
      authTransparencyRequest).world.resp =
      [.SetHeader "X-Server".toList "gophish".toList,
       .JSONResponse ⟨"gophish".toList, "security@example.com".toList, 1000⟩ 200] ∧
    answer (PhishHandler sampleServer (sampleEnv statusInProgress true) []
      authTransparencyRequest).world.resp =
      some (.JSONResponse ⟨"gophish".toList, "security@example.com".toList, 1000⟩ 200) ∧
    answer (PhishHandler sampleServer (sampleEnv statusInProgress true) []
      authTransparencyRequest).world.resp ≠ some (.WriteHeader 401) := by
  refine ⟨by decide, rfl, rfl, by decide, by decide, by decide, by decide⟩

/-- C30, amended: on a campaign with HTTP auth, for every accepted request for a
live Result that is not a transparency request, whose page loads, whose template
context builds and whose redirect template executes to `url`, with
`(username, password, ok)` the result of `r.BasicAuth()` (empty strings when `ok`
is false): `PhishHandler` returns; it calls `HandleFormSubmit` exactly when the
credentials hold a username and a password; the answer the client receives is
the 302 redirect to `url` exactly then, and the status 401 exactly in the other
case; the response is the header `X-Server` followed by that answer. -/
theorem C30_record_iff_redirect {σ : Type} (ps : PhishingServer) (env : Env σ)
    (db : σ) (r : Request) (rid : GoString) (rs : Result) (c : Campaign) (p : Page)
    (d : EventDetails) (ptx : PhishingTemplateContext) (url : GoString)
    (hacc : (setupContext env db r).err = none)
    (hlive : (setupContext env db r).ctx.result = some (.live rs))
    (hrid : (setupContext env db r).ctx.rid = some rid)
    (hsfx : HasSuffix rid TransparencySuffix = false)
    (hc : (setupContext env db r).ctx.campaign = some c)
    (hd : (setupContext env db r).ctx.details = some d)
    (hauth : c.HTTPAuth = true)
    (hpage : env.GetPage (setupContext env db r).db c.PageId c.UserId = .ok p)
    (hba : r.BasicAuth.2.2 = false → r.BasicAuth.1 = [] ∧ r.BasicAuth.2.1 = [])
    (hptx : env.NewPhishingTemplateContext (.campaign c)
      (recordedResult env db r c p rs d).BaseRecipient
      (recordedResult env db r c p rs d).RId = .ok ptx)
    (hredir : env.ExecuteTemplate p.RedirectURL ptx = .ok url) :
    (PhishHandler ps env db r).outcome = .returned ∧
    (callsFormSubmit (PhishHandler ps env db r).world.calls = true ↔
      (r.BasicAuth.2.2 = true ∧ r.BasicAuth.1 ≠ [] ∧ r.BasicAuth.2.1 ≠ [])) ∧
    (answer (PhishHandler ps env db r).world.resp = some (.Redirect url 302) ↔
      (r.BasicAuth.2.2 = true ∧ r.BasicAuth.1 ≠ [] ∧ r.BasicAuth.2.1 ≠ [])) ∧
    (answer (PhishHandler ps env db r).world.resp = some (.WriteHeader 401) ↔
      ¬ (r.BasicAuth.2.2 = true ∧ r.BasicAuth.1 ≠ [] ∧ r.BasicAuth.2.1 ≠ [])) ∧
    (PhishHandler ps env db r).world.resp =
      .SetHeader "X-Server".toList env.ServerName ::
        (if r.BasicAuth.2.2 = true ∧ r.BasicAuth.1 ≠ [] ∧ r.BasicAuth.2.1 ≠ [] then
          [.Redirect url 302]
        else
          [ .AddHeader "WWW-Authenticate".toList
              ("Basic realm=".toList ++ ['"'] ++ env.Sanitize p.HTML ++ ['"']),
            .WriteHeader 401,
            .Write unauthorizedBody ]) := by
  obtain ⟨c2, d2, hctx⟩ := setupContext_accept_live_rid env db r rid rs hacc hlive hrid
  have hcc : c2 = c := by
    rw [hctx] at hc
    exact Option.some.inj hc
  have hdd : d2 = d := by
    rw [hctx] at hd
    exact Option.some.inj hd
  subst hcc
  subst hdd
  have hPH : PhishHandler ps env db r =
      respondPhish env r c2 p (recordedResult env db r c2 p rs d2)
        (recordPhish env r c2 p rs d2 (phishWorld env db r c2)).1 := by
    simp only [PhishHandler, hacc, hctx, hsfx, hpage, Bool.false_eq_true, if_false,
      World.call, World.emit, recordedResult, phishWorld]
  have hw : callsFormSubmit (phishWorld env db r c2).calls = false := by
    have h0 := callsFormSubmit_of_no_recorder _ (setupContext_no_recorder env db r)
    have h1 : callsFormSubmit [Call.GetPage c2.PageId c2.UserId] = false := rfl
    simp only [phishWorld, World.call, World.emit, callsFormSubmit_append, h0, h1,
      Bool.or_self]
  have hresp0 : (recordPhish env r c2 p rs d2 (phishWorld env db r c2)).1.resp =
      [.SetHeader "X-Server".toList env.ServerName] := by
    rw [recordPhish_resp]
    rfl
  have hRP : respondPhish env r c2 p (recordedResult env db r c2 p rs d2)
        (recordPhish env r c2 p rs d2 (phishWorld env db r c2)).1 =
      renderBasicAuth env r ptx p (recordPhish env r c2 p rs d2 (phishWorld env db r c2)).1 := by
    unfold respondPhish
    rw [hptx]
    simp only [hauth, not_true_eq_false, if_false]
  obtain ⟨hout, hresp⟩ := renderBasicAuth_answer env r ptx p
    (recordPhish env r c2 p rs d2 (phishWorld env db r c2)).1 url hredir
  rw [hresp0] at hresp
  have hfull : (PhishHandler ps env db r).world.resp =
      .SetHeader "X-Server".toList env.ServerName ::
        (if r.BasicAuth.2.2 = true ∧ r.BasicAuth.1 ≠ [] ∧ r.BasicAuth.2.1 ≠ [] then
          [.Redirect url 302]
        else
          [ .AddHeader "WWW-Authenticate".toList
              ("Basic realm=".toList ++ ['"'] ++ env.Sanitize p.HTML ++ ['"']),
            .WriteHeader 401,
            .Write unauthorizedBody ]) := by
    rw [hPH, hRP, hresp]
    rfl
  refine ⟨?_, ?_, ?_, ?_, hfull⟩
  · rw [hPH, hRP]
    exact hout
  · rw [hPH, respondPhish_calls]
    exact recordPhish_formSubmit env r c2 p rs d2 _ hauth hw hba
  · rw [hfull]
    by_cases hcred : r.BasicAuth.2.2 = true ∧ r.BasicAuth.1 ≠ [] ∧ r.BasicAuth.2.1 ≠ []
    · rw [if_pos hcred]
      exact ⟨fun _ => hcred, fun _ => rfl⟩
    · rw [if_neg hcred]
      constructor
      · intro h
        simp [answer, RespOp.isHeaderOp] at h
      · intro h
        exact absurd h hcred
  · rw [hfull]
    by_cases hcred : r.BasicAuth.2.2 = true ∧ r.BasicAuth.1 ≠ [] ∧ r.BasicAuth.2.1 ≠ []
    · rw [if_pos hcred]
      constructor
      · intro h
        simp [answer, RespOp.isHeaderOp] at h
      · intro h
        exact absurd hcred h
    · rw [if_neg hcred]
      exact ⟨fun _ => hcred, fun _ => rfl⟩

/-- C30, amended, at the request `GET /?rid=abcDEF1` with the credentials
`alice` / `hunter2`: `PhishHandler` returns, `HandleFormSubmit` is called and the
answer the client receives is the 302 redirect, not the 401. -/
theorem C30_record_iff_redirect_witness :
    (PhishHandler sampleServer (sampleEnv statusInProgress true) []
      authRequest).outcome = .returned ∧
    callsFormSubmit (PhishHandler sampleServer (sampleEnv statusInProgress true) []
      authRequest).world.calls = true ∧
    answer (PhishHandler sampleServer (sampleEnv statusInProgress true) []
      authRequest).world.resp = some (.Redirect [] 302) ∧
    answer (PhishHandler sampleServer (sampleEnv statusInProgress true) []
      authRequest).world.resp ≠ some (.WriteHeader 401) := by
  obtain ⟨h0, h1, h2, h3, _⟩ := C30_record_iff_redirect sampleServer
    (sampleEnv statusInProgress true) [] authRequest "abcDEF1".toList sampleResult
    (sampleCampaign statusInProgress true) samplePage
    ⟨authRequest.ParseForm.1,
      [("address".toList, clientIP (sampleEnv statusInProgress true) authRequest),
       ("user-agent".toList, authRequest.UserAgent)]⟩
    { zeroPTX with RId := sampleResult.RId, BaseRecipient := sampleResult.BaseRecipient } []
    (by decide) (by decide) (by decide)
    (by decide) (by decide) (by decide) rfl rfl (by decide) rfl rfl
  have hcred : authRequest.BasicAuth.2.2 = true ∧ authRequest.BasicAuth.1 ≠ [] ∧
      authRequest.BasicAuth.2.1 ≠ [] := by decide
  exact ⟨h0, h1.mpr hcred, h2.mpr hcred, fun h => (h3.mp h) hcred⟩


/-! ## C7 — validation of the rids found in a message -/

/-- When the registry is not empty, `checkRIDs` adds only rids that
`models.GetResult` finds. -/
theorem addVerifiedMatches_resolves {σ : Type} (env : MonitorEnv σ) (db : σ)
    (pick : List GoString → GoString) (found : List (List GoString)) :
    ∀ rids : List GoString,
      (∀ rid ∈ rids, ∃ rs, env.GetResult db rid = .ok rs) →
      ∀ rid ∈ addVerifiedMatches env db pick rids found,
        ∃ rs, env.GetResult db rid = .ok rs := by
  induction found with
  | nil => intro rids h; simpa [addVerifiedMatches] using h
  | cons r rest ih =>
    intro rids h
    simp only [addVerifiedMatches, List.foldl_cons]
    apply ih
    split
    · exact h
    · split
      · exact h
      · rename_i rs hrs
        intro rid hrid
        rcases List.mem_append.mp hrid with h1 | h1
        · exact h rid h1
        · simp only [List.mem_singleton] at h1
          exact ⟨rs, by rw [h1]; exact hrs⟩

theorem checkParam_resolves {σ : Type} (env : MonitorEnv σ) (db : σ)
    (paramRegexes : GoMap Regexp) (content : GoString) (rids : List GoString)
    (entry : GoString × Regexp)
    (h : ∀ rid ∈ rids, ∃ rs, env.GetResult db rid = .ok rs) :
    ∀ rid ∈ checkParam env db paramRegexes content rids entry,
      ∃ rs, env.GetResult db rid = .ok rs := by
  unfold checkParam
  split
  · exact h
  · simp only []
    split
    · exact addVerifiedMatches_resolves env db _ _ _
        (addVerifiedMatches_resolves env db _ _ _ h)
    · exact addVerifiedMatches_resolves env db _ _ _ h

theorem checkRIDs_resolves {σ : Type} (env : MonitorEnv σ) (db : σ)
    (paramRegexes : GoMap Regexp) (em : Email) (rids : List GoString)
    (hne : paramRegexes ≠ [])
    (h : ∀ rid ∈ rids, ∃ rs, env.GetResult db rid = .ok rs) :
    ∀ rid ∈ checkRIDs env db paramRegexes em rids,
      ∃ rs, env.GetResult db rid = .ok rs := by
  unfold checkRIDs
  have hlen : ¬ paramRegexes.length = 0 := by
    simpa [List.length_eq_zero] using hne
  simp only [hlen, if_false]
  generalize env.rangeRegexes paramRegexes = entries
  induction entries generalizing rids with
  | nil => simpa using h
  | cons e rest ih =>
    simp only [List.foldl_cons]
    exact ih _ (checkParam_resolves env db paramRegexes _ rids e h)

/-- With a registry that is not empty, every rid `matchEmail` returns resolved
in the Result store. -/
theorem matchEmail_resolves {σ : Type} (env : MonitorEnv σ) (db : σ)
    (paramRegexes : GoMap Regexp) (em : Email) (hne : paramRegexes ≠ []) :
    ∀ rid ∈ (matchEmail env db paramRegexes em).1,
      ∃ rs, env.GetResult db rid = .ok rs := by
  unfold matchEmail
  have h0 := checkRIDs_resolves env db paramRegexes em [] hne (by simp)
  generalize checkRIDs env db paramRegexes em [] = rids at h0
  generalize em.Attachments = atts
  induction atts generalizing rids with
  | nil => simpa [scanAttachments] using h0
  | cons a rest ih =>
    unfold scanAttachments
    split
    · split
      · simpa using h0
      · exact ih _ (checkRIDs_resolves env db paramRegexes _ rids hne h0)
    · exact ih rids h0

/-- C7, on the code: after a refresh whose campaign fetch failed the registry is
empty; the scan of a message that holds `?rid=zzzzzzz` then returns the rid
`zzzzzzz`, which does not resolve in the Result store: the fallback branch of
`checkRIDs` admits every match of the default regex without a lookup. -/
theorem C7_unverified_rid_with_empty_registry :
    NewMonitor sampleMonitorEnv (.error recordNotFound) 10 = some ⟨[], 10, 0, false⟩ ∧
    matchEmail sampleMonitorEnv [] [] strangerEmail = (["zzzzzzz".toList], none) ∧
    sampleMonitorEnv.GetResult [] "zzzzzzz".toList = .error recordNotFound :=
  ⟨rfl, by decide, rfl⟩

/-! ## Lemmas on Go maps -/

theorem GoMap.lookup_some_mem_keys {ν : Type} (m : GoMap ν) (k : GoString) (v : ν)
    (h : m.lookup k = some v) : k ∈ GoMap.keys m := by
  induction m with
  | nil => simp [List.lookup] at h
  | cons e rest ih =>
    obtain ⟨k2, v2⟩ := e
    show k ∈ k2 :: GoMap.keys rest
    by_cases hk : k = k2
    · rw [hk]; exact List.mem_cons_self _ _
    · have hb : (k == k2) = false := by simpa using hk
      simp only [List.lookup, hb] at h
      exact List.mem_cons_of_mem _ (ih h)

theorem GoMap.keys_append {ν : Type} (m : GoMap ν) (k : GoString) (v : ν) :
    GoMap.keys (m ++ [(k, v)]) = GoMap.keys m ++ [k] := by
  unfold GoMap.keys
  rw [List.map_append]
  rfl

theorem GoMap.keys_replace {ν : Type} (m : GoMap ν) (k : GoString) (v : ν) :
    GoMap.keys (List.map (fun e : GoString × ν => if e.1 = k then (k, v) else e) m)
      = GoMap.keys m := by
  induction m with
  | nil => rfl
  | cons e rest ih =>
    show _ :: GoMap.keys (List.map _ rest) = e.1 :: GoMap.keys rest
    rw [ih]
    by_cases he : e.1 = k
    · simp only [he, if_true]
    · simp only [he, if_false]

theorem GoMap.mem_keys_set {ν : Type} (m : GoMap ν) (k : GoString) (v : ν)
    (k2 : GoString) : k2 ∈ GoMap.keys (GoMap.set m k v) ↔ k2 ∈ GoMap.keys m ∨ k2 = k := by
  unfold GoMap.set
  split
  · rename_i old hold
    have hmem := GoMap.lookup_some_mem_keys m k old hold
    rw [GoMap.keys_replace]
    constructor
    · intro h; exact Or.inl h
    · rintro (h | h)
      · exact h
      · rw [h]; exact hmem
  · rw [GoMap.keys_append, List.mem_append, List.mem_singleton]

/-! ## C9 and C10 — the regex registry -/

theorem addCampaignRegexes_mono {σ : Type} (env : MonitorEnv σ) (cs : List Campaign) :
    ∀ (m : GoMap Regexp) (seen : List GoString) (k : GoString),
      k ∈ m.keys → k ∈ (addCampaignRegexes env cs m seen).1.keys := by
  induction cs with
  | nil => intro m seen k h; simpa [addCampaignRegexes] using h
  | cons c rest ih =>
    intro m seen k h
    unfold addCampaignRegexes
    split
    · exact ih m seen k h
    · split
      · exact h
      · split
        · exact (GoMap.mem_keys_set m _ _ k).mpr (Or.inl h)
        · apply ih
          exact (GoMap.mem_keys_set _ _ _ k).mpr
            (Or.inl ((GoMap.mem_keys_set m _ _ k).mpr (Or.inl h)))

theorem addCampaignRegexes_keys {σ : Type} (env : MonitorEnv σ) (cs : List Campaign) :
    ∀ (m : GoMap Regexp) (seen : List GoString),
      (∀ p ∈ seen, p ∈ m.keys ∧ p ++ directSuffix ∈ m.keys) →
      (addCampaignRegexes env cs m seen).2 = false →
      ∀ k, k ∈ (addCampaignRegexes env cs m seen).1.keys ↔
        k ∈ m.keys ∨ ∃ c ∈ cs, c.URLParam ≠ [] ∧
          (k = c.URLParam ∨ k = c.URLParam ++ directSuffix) := by
  induction cs with
  | nil =>
    intro m seen _ _ k
    simp [addCampaignRegexes]
  | cons c rest ih =>
    intro m seen hseen hok k
    unfold addCampaignRegexes at hok ⊢
    by_cases hskip : c.URLParam = [] ∨ c.URLParam ∈ seen
    · simp only [hskip, if_true] at hok ⊢
      rw [ih m seen hseen hok k]
      constructor
      · rintro (h | ⟨c2, hc2, hne, hk⟩)
        · exact Or.inl h
        · exact Or.inr ⟨c2, List.mem_cons_of_mem _ hc2, hne, hk⟩
      · rintro (h | ⟨c2, hc2, hne, hk⟩)
        · exact Or.inl h
        · rcases List.mem_cons.mp hc2 with rfl | hc2
          · rcases hskip with hempty | hin
            · exact absurd hempty hne
            · rcases hk with rfl | rfl
              · exact Or.inl (hseen _ hin).1
              · exact Or.inl (hseen _ hin).2
          · exact Or.inr ⟨c2, hc2, hne, hk⟩
    · simp only [hskip, if_false] at hok ⊢
      cases h1 : env.compiles (anchoredPattern c.URLParam) with
      | false => simp [h1] at hok
      | true =>
        simp only [h1, Bool.true_eq_false, if_false] at hok ⊢
        cases h2 : env.compiles (directPattern c.URLParam) with
        | false => simp [h2] at hok
        | true =>
          simp only [h2, Bool.true_eq_false, if_false] at hok ⊢
          have hne : c.URLParam ≠ [] := fun h => hskip (Or.inl h)
          have hseen2 : ∀ p ∈ c.URLParam :: seen,
              p ∈ ((m.set c.URLParam ⟨anchoredPattern c.URLParam⟩).set
                  (c.URLParam ++ directSuffix) ⟨directPattern c.URLParam⟩).keys ∧
              p ++ directSuffix ∈ ((m.set c.URLParam ⟨anchoredPattern c.URLParam⟩).set
                  (c.URLParam ++ directSuffix) ⟨directPattern c.URLParam⟩).keys := by
            intro p hp
            simp only [GoMap.mem_keys_set]
            rcases List.mem_cons.mp hp with rfl | hp
            · exact ⟨Or.inl (Or.inr rfl), Or.inr rfl⟩
            · exact ⟨Or.inl (Or.inl (hseen p hp).1), Or.inl (Or.inl (hseen p hp).2)⟩
          rw [ih _ _ hseen2 hok k]
          simp only [GoMap.mem_keys_set]
          constructor
          · rintro (((h | h) | h) | ⟨c2, hc2, hne2, hk⟩)
            · exact Or.inl h
            · exact Or.inr ⟨c, List.mem_cons_self _ _, hne, Or.inl h⟩
            · exact Or.inr ⟨c, List.mem_cons_self _ _, hne, Or.inr h⟩
            · exact Or.inr ⟨c2, List.mem_cons_of_mem _ hc2, hne2, hk⟩
          · rintro (h | ⟨c2, hc2, hne2, hk⟩)
            · exact Or.inl (Or.inl (Or.inl h))
            · rcases List.mem_cons.mp hc2 with rfl | hc2
              · rcases hk with h | h
                · exact Or.inl (Or.inl (Or.inr h))
                · exact Or.inl (Or.inr h)
              · exact Or.inr ⟨c2, hc2, hne2, hk⟩

/-- After `updateParameterRegexes`, however it ended, the registry is empty or
has the key `rid`. -/
theorem updateParameterRegexes_rid_or_empty {σ : Type} (env : MonitorEnv σ)
    (st : MonitorState) (active : Except GoString (List Campaign)) :
    defaultParam ∈ GoMap.keys (updateParameterRegexes env st active).1.paramRegexes ∨
      (updateParameterRegexes env st active).1.paramRegexes = [] := by
  unfold updateParameterRegexes
  split
  · exact Or.inr rfl
  · split
    · exact Or.inl (by simp [GoMap.set, GoMap.keys, List.lookup])
    · refine Or.inl (addCampaignRegexes_mono env _ _ _ _ ?_)
      simp [GoMap.mem_keys_set]

theorem updateParameterRegexes_ok_has_rid {σ : Type} (env : MonitorEnv σ)
    (st : MonitorState) (campaigns : List Campaign) :
    defaultParam ∈
      GoMap.keys (updateParameterRegexes env st (.ok campaigns)).1.paramRegexes := by
  unfold updateParameterRegexes
  simp only []
  split
  · simp [GoMap.set, GoMap.keys, List.lookup]
  · refine addCampaignRegexes_mono env _ _ _ _ ?_
    simp [GoMap.mem_keys_set]

theorem shouldUpdateRegexes_paramRegexes (st : MonitorState)
    (active : Except GoString (List Campaign)) (now : Time) :
    (shouldUpdateRegexes st active now).2.paramRegexes = st.paramRegexes := by
  unfold shouldUpdateRegexes
  split
  · rfl
  · simp only []
    split
    · rfl
    · split <;> rfl

theorem refreshRegexes_rid_or_empty {σ : Type} (env : MonitorEnv σ) (st : MonitorState)
    (inp : CycleInput)
    (h : defaultParam ∈ GoMap.keys st.paramRegexes ∨ st.paramRegexes = []) :
    defaultParam ∈ GoMap.keys (refreshRegexes env st inp).1.paramRegexes ∨
      (refreshRegexes env st inp).1.paramRegexes = [] := by
  unfold refreshRegexes
  simp only []
  split
  · split
    · exact updateParameterRegexes_rid_or_empty env _ _
    · exact updateParameterRegexes_rid_or_empty env _ _
  · rw [shouldUpdateRegexes_paramRegexes]
    exact h

theorem checkForNewEmails_rid_or_empty {σ : Type} (env : MonitorEnv σ) (im : IMAP)
    (st : MonitorState) (db : σ) (inp : CycleInput)
    (h : defaultParam ∈ GoMap.keys st.paramRegexes ∨ st.paramRegexes = []) :
    defaultParam ∈ GoMap.keys (checkForNewEmails env im st db inp).state.paramRegexes ∨
      (checkForNewEmails env im st db inp).state.paramRegexes = [] := by
  have hr := refreshRegexes_rid_or_empty env st inp h
  unfold checkForNewEmails
  split
  · exact h
  · simp only []
    split
    · exact hr
    · split
      · exact hr
      · split <;> exact hr

/-- C9, as stated, fails: `NewMonitor` with a failing campaign fetch leaves a
reachable state whose registry is empty, so it has no entry under `rid`. -/
theorem C9_counterexample :
    Reachable sampleMonitorEnv ⟨[], 10, 0, false⟩ ∧
    GoMap.get? (⟨[], 10, 0, false⟩ : MonitorState).paramRegexes defaultParam = none ∧
    (updateParameterRegexes sampleMonitorEnv ⟨[(defaultParam, goPhishRegex)], 10, 0, false⟩
      (.error recordNotFound)).1.paramRegexes = [] :=
  ⟨Reachable.newMonitor (.error recordNotFound) 10 _ rfl, rfl, rfl⟩

/-- C9, amended: in every state reachable through `NewMonitor` and any sequence
of polling cycles the registry has an entry under `rid` or is empty.  A refresh
whose campaign fetch succeeds leaves an entry under `rid`; a refresh whose fetch
fails leaves the registry empty, and on the empty registry `checkRIDs` scans
with the default regex `goPhishRegex`. -/
theorem C9_registry_rid_or_empty {σ : Type} (env : MonitorEnv σ) :
    (∀ st, Reachable env st →
      defaultParam ∈ GoMap.keys st.paramRegexes ∨ st.paramRegexes = []) ∧
    (∀ st campaigns, defaultParam ∈
      GoMap.keys (updateParameterRegexes env st (.ok campaigns)).1.paramRegexes) ∧
    (∀ st e, (updateParameterRegexes env st (.error e)).1.paramRegexes = []) ∧
    (∀ (db : σ) em rids, checkRIDs env db [] em rids =
      addDefaultMatches rids (env.FindAllStringSubmatch goPhishRegex (em.Text ++ em.HTML))) := by
  refine ⟨?_, updateParameterRegexes_ok_has_rid env, fun _ _ => rfl, fun _ _ _ => rfl⟩
  intro st h
  induction h with
  | newMonitor active now st h =>
    unfold NewMonitor at h
    simp only [] at h
    split at h
    · cases h
    · have := updateParameterRegexes_rid_or_empty env ⟨[], 0, 0, false⟩ active
      cases h
      exact this
  | cycle im st db inp _ ih => exact checkForNewEmails_rid_or_empty env im st db inp ih

/-- C9, amended, at the state `NewMonitor` leaves when the fetch returns one
campaign with the parameter name `id`. -/
theorem C9_registry_rid_or_empty_witness :
    Reachable sampleMonitorEnv
      ⟨[(defaultParam, ⟨anchoredPattern defaultParam⟩),
        (defaultParam ++ directSuffix, ⟨directPattern defaultParam⟩),
        ("id".toList, ⟨anchoredPattern "id".toList⟩),
        ("id_direct".toList, ⟨directPattern "id".toList⟩)], 10, 0, false⟩ ∧
    (defaultParam ∈ GoMap.keys
      [(defaultParam, (⟨anchoredPattern defaultParam⟩ : Regexp)),
        (defaultParam ++ directSuffix, ⟨directPattern defaultParam⟩),
        ("id".toList, ⟨anchoredPattern "id".toList⟩),
        ("id_direct".toList, ⟨directPattern "id".toList⟩)] ∨
     [(defaultParam, (⟨anchoredPattern defaultParam⟩ : Regexp)),
        (defaultParam ++ directSuffix, ⟨directPattern defaultParam⟩),
        ("id".toList, ⟨anchoredPattern "id".toList⟩),
        ("id_direct".toList, ⟨directPattern "id".toList⟩)] = []) :=
  have hr : Reachable sampleMonitorEnv
      ⟨[(defaultParam, ⟨anchoredPattern defaultParam⟩),
        (defaultParam ++ directSuffix, ⟨directPattern defaultParam⟩),
        ("id".toList, ⟨anchoredPattern "id".toList⟩),
        ("id_direct".toList, ⟨directPattern "id".toList⟩)], 10, 0, false⟩ :=
    Reachable.newMonitor (.ok [idCampaign]) 10 _ (by decide)
  ⟨hr, (C9_registry_rid_or_empty sampleMonitorEnv).1 _ hr⟩

/-- C10, as stated, fails: a refresh whose fetch succeeds with no active
campaign leaves the key set `{rid}`, without `rid_direct`. -/
theorem C10_counterexample :
    (updateParameterRegexes sampleMonitorEnv ⟨[], 0, 0, false⟩ (.ok [])).2 = false ∧
    GoMap.keys (updateParameterRegexes sampleMonitorEnv ⟨[], 0, 0, false⟩
      (.ok [])).1.paramRegexes = [defaultParam] ∧
    defaultParam ++ directSuffix ∉ GoMap.keys
      (updateParameterRegexes sampleMonitorEnv ⟨[], 0, 0, false⟩ (.ok [])).1.paramRegexes := by
  decide

/-- C10, amended: after a refresh by `updateParameterRegexes` whose campaign
fetch succeeds, the registry does not depend on what it held before.  With no
active campaign it is exactly the entry `rid` with the default regex.  With at
least one active campaign, when the refresh returns, its key set is exactly
`rid`, `rid_direct` and `P`, `P_direct` for each non-empty `url_param` `P` of an
active campaign. -/
theorem C10_refresh_key_set {σ : Type} (env : MonitorEnv σ) (st st2 : MonitorState)
    (campaigns : List Campaign) :
    (updateParameterRegexes env st (.ok campaigns)).1.paramRegexes =
      (updateParameterRegexes env st2 (.ok campaigns)).1.paramRegexes ∧
    (campaigns = [] →
      (updateParameterRegexes env st (.ok campaigns)).1.paramRegexes =
        [(defaultParam, goPhishRegex)] ∧
      (updateParameterRegexes env st (.ok campaigns)).2 = false) ∧
    (campaigns ≠ [] → (updateParameterRegexes env st (.ok campaigns)).2 = false →
      ∀ k, k ∈ GoMap.keys (updateParameterRegexes env st (.ok campaigns)).1.paramRegexes ↔
        k = defaultParam ∨ k = defaultParam ++ directSuffix ∨
        ∃ c ∈ campaigns, c.URLParam ≠ [] ∧
          (k = c.URLParam ∨ k = c.URLParam ++ directSuffix)) := by
  refine ⟨?_, ?_, ?_⟩
  · unfold updateParameterRegexes
    simp only []
    split <;> rfl
  · intro h
    subst h
    exact ⟨rfl, rfl⟩
  · intro hne hok k
    have hlen : ¬ campaigns.length = 0 := by
      simpa [List.length_eq_zero] using hne
    unfold updateParameterRegexes at hok ⊢
    simp only [hlen, if_false] at hok ⊢
    rw [addCampaignRegexes_keys env campaigns _ _ ?_ hok k]
    · simp only [GoMap.mem_keys_set]
      constructor
      · rintro (((h | h) | h) | h)
        · simp [GoMap.keys] at h
        · exact Or.inl h
        · exact Or.inr (Or.inl h)
        · exact Or.inr (Or.inr h)
      · rintro (h | h | h)
        · exact Or.inl (Or.inl (Or.inr h))
        · exact Or.inl (Or.inr h)
        · exact Or.inr h
    · intro p hp
      simp only [List.mem_singleton] at hp
      subst hp
      exact ⟨(GoMap.mem_keys_set _ _ _ _).mpr
          (Or.inl ((GoMap.mem_keys_set _ _ _ _).mpr (Or.inr rfl))),
        (GoMap.mem_keys_set _ _ _ _).mpr (Or.inr rfl)⟩

/-- C10, amended, at a refresh with the one active campaign whose parameter
name is `id`: the key `id_direct` is in the registry. -/
theorem C10_refresh_key_set_witness :
    [idCampaign] ≠ [] ∧
    (updateParameterRegexes sampleMonitorEnv ⟨[], 0, 0, false⟩ (.ok [idCampaign])).2 = false ∧
    "id_direct".toList ∈ GoMap.keys
      (updateParameterRegexes sampleMonitorEnv ⟨[], 0, 0, false⟩
        (.ok [idCampaign])).1.paramRegexes :=
  ⟨by decide, by decide,
    ((C10_refresh_key_set sampleMonitorEnv ⟨[], 0, 0, false⟩ ⟨[], 0, 0, false⟩
      [idCampaign]).2.2 (by decide) (by decide) "id_direct".toList).mpr
      (Or.inr (Or.inr ⟨idCampaign, List.mem_singleton.mpr rfl, by decide,
        Or.inr (by decide)⟩))⟩

/-! ## C8 — the non-campaign report -/

/-- The calls `reportRids` adds hold no `RecordNonCampaignReport`. -/
theorem reportRids_calls {σ : Type} (env : MonitorEnv σ) (seq : Nat)
    (rids : List GoString) :
    ∀ (st : LoopState σ) (found : Bool),
      ∃ extra, (reportRids env seq rids (st, found)).1.calls = st.calls ++ extra ∧
        extra.filter MonitorCall.isNonCampaignReport = [] := by
  induction rids with
  | nil => intro st found; exact ⟨[], by simp [reportRids], rfl⟩
  | cons rid rest ih =>
    intro st found
    unfold reportRids
    split
    · obtain ⟨extra, h1, h2⟩ := ih
        { st with calls := st.calls ++ [.GetResult rid],
                  reportingFailed := st.reportingFailed ++ [seq] } found
      refine ⟨[.GetResult rid] ++ extra, ?_, ?_⟩
      · rw [h1]; simp
      · rw [List.filter_append, h2]; rfl
    · rename_i result _
      obtain ⟨extra, h1, h2⟩ := ih
        { st with db := (env.HandleEmailReport st.db result ⟨[], []⟩).1,
                  calls := st.calls ++ [.GetResult rid, .HandleEmailReport rid] } true
      refine ⟨[.GetResult rid, .HandleEmailReport rid] ++ extra, ?_, ?_⟩
      · rw [h1]; simp
      · rw [List.filter_append, h2]; rfl

/-- The calls `finishCycle` adds hold no `RecordNonCampaignReport`. -/
theorem finishCycle_calls {σ : Type} (st : LoopState σ) :
    (finishCycle st).calls.filter MonitorCall.isNonCampaignReport =
      st.calls.filter MonitorCall.isNonCampaignReport := by
  unfold finishCycle
  simp only []
  split <;> split <;> split <;>
    simp [List.filter_append, MonitorCall.isNonCampaignReport]

/-- The non-campaign reports one message adds to the call log. -/
theorem processMessage_reports {σ : Type} (env : MonitorEnv σ) (im : IMAP)
    (paramRegexes : GoMap Regexp) (st : LoopState σ) (m : Message) :
    ∃ extra, (processMessage env im paramRegexes st m).calls = st.calls ++ extra ∧
      extra.filter MonitorCall.isNonCampaignReport =
        if senderAllowed im m = true ∧
            matchEmail env st.db paramRegexes m.Email = ([], none) then
          [.RecordNonCampaignReport im.UserId im.Id m.Email.From m.Email.Subject]
        else [] := by
  unfold processMessage
  simp only []
  cases hs : senderAllowed im m with
  | false => exact ⟨[], by simp, by simp⟩
  | true =>
    simp only [Bool.true_eq_false, if_false, true_and]
    rcases hm : matchEmail env st.db paramRegexes m.Email with ⟨rids, err⟩
    cases err with
    | some e => exact ⟨[], by simp, by simp⟩
    | none =>
      cases rids with
      | nil =>
        refine ⟨[.RecordNonCampaignReport im.UserId im.Id m.Email.From m.Email.Subject],
          by simp, by simp [MonitorCall.isNonCampaignReport]⟩
      | cons rid rest =>
        obtain ⟨extra, h1, h2⟩ := reportRids_calls env m.SeqNum
          (env.rangeRids (rid :: rest))
          { st with processedEmails := st.processedEmails ++ [m.SeqNum] } false
        refine ⟨extra, ?_, by simpa using h2⟩
        simp only [List.length_cons, Nat.lt_one_iff, Nat.add_one_ne_zero, if_false]
        split
        · simpa using h1
        · simpa using h1

/-- The classification loop records at most one non-campaign report per
message. -/
theorem classify_reports_le {σ : Type} (env : MonitorEnv σ) (im : IMAP)
    (paramRegexes : GoMap Regexp) (msgs : List Message) :
    ∀ st : LoopState σ,
      ((msgs.foldl (processMessage env im paramRegexes) st).calls.filter
          MonitorCall.isNonCampaignReport).length ≤
        (st.calls.filter MonitorCall.isNonCampaignReport).length + msgs.length := by
  induction msgs with
  | nil => intro st; simp
  | cons m rest ih =>
    intro st
    simp only [List.foldl_cons, List.length_cons]
    obtain ⟨extra, h1, h2⟩ := processMessage_reports env im paramRegexes st m
    have hstep : ((processMessage env im paramRegexes st m).calls.filter
        MonitorCall.isNonCampaignReport).length ≤
        (st.calls.filter MonitorCall.isNonCampaignReport).length + 1 := by
      rw [h1, List.filter_append, List.length_append, h2]
      split <;> simp
    have := ih (processMessage env im paramRegexes st m)
    omega

/-- C8, as stated, fails: a message from an unrestricted account whose scan
finds no rid, but whose attachment `mail.eml` does not parse, is not recorded:
in the cycle that fetches it `RecordNonCampaignReport` is not called. -/
theorem C8_counterexample :
    senderAllowed sampleIMAP ⟨1, brokenAttachmentEmail⟩ = true ∧
    (matchEmail sampleMonitorEnv [] [(defaultParam, goPhishRegex)]
      brokenAttachmentEmail).1 = [] ∧
    (checkForNewEmails sampleMonitorEnv sampleIMAP
      ⟨[(defaultParam, goPhishRegex)], 10, 0, false⟩ []
      ⟨.ok [], .ok [], 11, 11, .ok [⟨1, brokenAttachmentEmail⟩]⟩).calls =
      [.SuccessfulLogin, .MarkAsRead [1]] := by
  decide

/-- C8, amended: for every message of the classification loop,
`RecordNonCampaignReport` is called for it, once and with the account's user and
id and the message's `From` and `Subject`, exactly when the sender passes the
domain check (no `restrict_domain`, or the part of `From` after its last `@`
equals it) and `matchEmail` returns the empty rid set without an error; in
every other case it is not called for the message.  A polling cycle therefore
calls it at most once per fetched message. -/
theorem C8_non_campaign_report {σ : Type} (env : MonitorEnv σ) (im : IMAP) :
    (∀ (paramRegexes : GoMap Regexp) (st : LoopState σ) (m : Message),
      ∃ extra, (processMessage env im paramRegexes st m).calls = st.calls ++ extra ∧
        extra.filter MonitorCall.isNonCampaignReport =
          if senderAllowed im m = true ∧
              matchEmail env st.db paramRegexes m.Email = ([], none) then
            [.RecordNonCampaignReport im.UserId im.Id m.Email.From m.Email.Subject]
          else []) ∧
    (∀ (st : MonitorState) (db : σ) (inp : CycleInput),
      ((checkForNewEmails env im st db inp).calls.filter
          MonitorCall.isNonCampaignReport).length ≤
        match inp.unread with
        | .ok msgs => msgs.length
        | .error _ => 0) := by
  refine ⟨processMessage_reports env im, ?_⟩
  intro st db inp
  unfold checkForNewEmails
  split
  · cases inp.unread <;> simp
  · simp only []
    split
    · cases inp.unread <;> simp
    · cases inp.unread with
      | error e => simp [MonitorCall.isNonCampaignReport]
      | ok msgs =>
        simp only []
        split
        · rw [finishCycle_calls]
          have := classify_reports_le env im (refreshRegexes env st inp).1.paramRegexes msgs
            ⟨(env.SuccessfulLogin db im).1, [.SuccessfulLogin], [], [], []⟩
          simpa [MonitorCall.isNonCampaignReport] using this
        · simp [MonitorCall.isNonCampaignReport]

/-- C8, amended, at a message without rid and without attachment on an
unrestricted account: the cycle step records one non-campaign report. -/
theorem C8_non_campaign_report_witness :
    ∃ extra,
      (processMessage sampleMonitorEnv sampleIMAP [(defaultParam, goPhishRegex)]
        sampleLoopState ⟨1, plainEmail⟩).calls = sampleLoopState.calls ++ extra ∧
      extra.filter MonitorCall.isNonCampaignReport =
        [.RecordNonCampaignReport 1 7 "bob@example.com".toList "Fwd: strange".toList] := by
  obtain ⟨extra, h1, h2⟩ := (C8_non_campaign_report sampleMonitorEnv sampleIMAP).1
    [(defaultParam, goPhishRegex)] sampleLoopState ⟨1, plainEmail⟩
  refine ⟨extra, h1, ?_⟩
  rw [h2]
  decide

/-! ## C19 — when the registry is refreshed -/

theorem foldl_latest_gt (cs : List Campaign) :
    ∀ (start t : Time),
      t < cs.foldl (fun latestDate c =>
        if c.CreatedDate > latestDate then c.CreatedDate else latestDate) start ↔
      t < start ∨ ∃ c ∈ cs, t < c.CreatedDate := by
  induction cs with
  | nil => intro start t; simp
  | cons c rest ih =>
    intro start t
    simp only [List.foldl_cons, List.mem_cons, exists_eq_or_imp]
    rw [ih]
    by_cases h : c.CreatedDate > start
    · simp only [h, if_true]
      constructor
      · rintro (h1 | h1)
        · exact Or.inr (Or.inl h1)
        · exact Or.inr (Or.inr h1)
      · rintro (h1 | h1 | h1)
        · exact Or.inl (by simp only [gt_iff_lt, not_lt] at h ⊢; linarith)
        · exact Or.inl h1
        · exact Or.inr h1
    · simp only [h, if_false]
      constructor
      · rintro (h1 | h1)
        · exact Or.inl h1
        · exact Or.inr (Or.inr h1)
      · rintro (h1 | h1 | h1)
        · exact Or.inl h1
        · exact Or.inl (by simp only [gt_iff_lt, not_lt] at h ⊢; linarith)
        · exact Or.inr h1

theorem latestCreatedDate_gt (cs : List Campaign) (t : Time) (ht : 0 ≤ t) :
    t < latestCreatedDate cs ↔ ∃ c ∈ cs, t < c.CreatedDate := by
  unfold latestCreatedDate
  rw [foldl_latest_gt]
  constructor
  · rintro (h | h)
    · exact absurd h (not_lt.mpr ht)
    · exact h
  · intro h; exact Or.inr h

theorem updateParameterRegexes_lastChange {σ : Type} (env : MonitorEnv σ)
    (st : MonitorState) (active : Except GoString (List Campaign)) :
    (updateParameterRegexes env st active).1.lastCampaignChangeTime =
      st.lastCampaignChangeTime := by
  unfold updateParameterRegexes
  split
  · rfl
  · split <;> rfl

theorem shouldUpdateRegexes_lastChange_nonneg (st : MonitorState)
    (active : Except GoString (List Campaign)) (now : Time)
    (h : 0 ≤ st.lastCampaignChangeTime) :
    0 ≤ (shouldUpdateRegexes st active now).2.lastCampaignChangeTime := by
  unfold shouldUpdateRegexes
  split
  · exact h
  · simp only []
    split
    · rename_i hc
      exact le_of_lt (lt_of_le_of_lt h hc.2)
    · split <;> exact h

/-- In every reachable state `lastCampaignChangeTime` is not before the zero
time. -/
theorem Reachable.lastChange_nonneg {σ : Type} {env : MonitorEnv σ} {st : MonitorState}
    (h : Reachable env st) : 0 ≤ st.lastCampaignChangeTime := by
  induction h with
  | newMonitor active now st h =>
    unfold NewMonitor at h
    simp only [] at h
    split at h
    · cases h
    · cases h
      simp only [updateParameterRegexes_lastChange]
      exact le_refl _
  | cycle im st db inp _ ih =>
    have hs := shouldUpdateRegexes_lastChange_nonneg st inp.activeAtCheck inp.nowAtCheck ih
    have hr : 0 ≤ (refreshRegexes env st inp).1.lastCampaignChangeTime := by
      unfold refreshRegexes
      simp only []
      split
      · split
        · simp only [updateParameterRegexes_lastChange]; exact hs
        · simp only [updateParameterRegexes_lastChange]; exact hs
      · exact hs
    unfold checkForNewEmails
    split
    · exact ih
    · simp only []
      split
      · exact hr
      · split
        · exact hr
        · split <;> exact hr

/-- C19: in every reachable state of the registry, `shouldUpdateRegexes` returns
true exactly when the active-campaign fetch fails, or an active campaign has a
`created_date` strictly after `lastCampaignChangeTime`, or more than 300 seconds
have passed since `lastRegexUpdate`; when it returns false it leaves the state
as it was. -/
theorem C19_should_update_iff {σ : Type} (env : MonitorEnv σ) (st : MonitorState)
    (active : Except GoString (List Campaign)) (now : Time) (h : Reachable env st) :
    ((shouldUpdateRegexes st active now).1 = true ↔
      (∃ e, active = .error e) ∨
      (∃ campaigns, active = .ok campaigns ∧
        ∃ c ∈ campaigns, st.lastCampaignChangeTime < c.CreatedDate) ∨
      now - st.lastRegexUpdate > 300 * 1000000000) ∧
    ((shouldUpdateRegexes st active now).1 = false →
      (shouldUpdateRegexes st active now).2 = st) := by
  have h0 := h.lastChange_nonneg
  unfold shouldUpdateRegexes
  cases active with
  | error e => simp
  | ok campaigns =>
    simp only [reduceCtorEq, exists_false, Except.ok.injEq, exists_eq_left', false_or]
    have hgt := latestCreatedDate_gt campaigns st.lastCampaignChangeTime h0
    by_cases hnew : latestCreatedDate campaigns ≠ 0 ∧
        latestCreatedDate campaigns > st.lastCampaignChangeTime
    · rw [if_pos hnew]
      exact ⟨⟨fun _ => Or.inl (hgt.mp hnew.2), fun _ => rfl⟩, fun hf => (by cases hf)⟩
    · rw [if_neg hnew]
      have hno : ¬ ∃ c ∈ campaigns, st.lastCampaignChangeTime < c.CreatedDate := by
        intro hex
        have := hgt.mpr hex
        exact hnew ⟨ne_of_gt (lt_of_le_of_lt h0 this), this⟩
      have hfive : fiveMinutes = 300 * 1000000000 := by decide
      by_cases hold : now - st.lastRegexUpdate > fiveMinutes
      · rw [if_pos hold]
        exact ⟨⟨fun _ => Or.inr (hfive ▸ hold), fun _ => rfl⟩, fun hf => (by cases hf)⟩
      · rw [if_neg hold]
        refine ⟨⟨fun hf => (by cases hf), ?_⟩, fun _ => rfl⟩
        rintro (h1 | h1)
        · exact absurd h1 hno
        · exact absurd (hfive ▸ h1) hold

/-- C19 at the state `NewMonitor` leaves for one campaign created at time 600,
before any change was seen: the campaign is newer than `lastCampaignChangeTime`
and `shouldUpdateRegexes` returns true. -/
theorem C19_should_update_iff_witness :
    Reachable sampleMonitorEnv sampleRegistry ∧
    (shouldUpdateRegexes sampleRegistry (.ok [idCampaign]) 20).1 = true :=
  have hr : Reachable sampleMonitorEnv sampleRegistry :=
    Reachable.newMonitor (.ok [idCampaign]) 10 _ (by decide)
  ⟨hr, (C19_should_update_iff sampleMonitorEnv sampleRegistry (.ok [idCampaign]) 20 hr).1.mpr
    (Or.inr (Or.inl ⟨[idCampaign], rfl, idCampaign, List.mem_singleton.mpr rfl,
      by decide⟩))⟩

/-! ## C20 — the back-off after a failed login -/

/-- C20, as stated, fails: after a failed `GetUnread` on an account whose
recorded login failures are then 1, the back-off `checkForNewEmails` computes is
60 seconds, not `min(1800, 2^1)` = 2 seconds. -/
theorem C20_counterexample :
    (sampleMonitorEnv.RecordLoginFailure [] sampleIMAP).2.1.LoginFailures = 1 ∧
    (checkForNewEmails sampleMonitorEnv sampleIMAP sampleRegistry []
      failedLoginInput).backoffSeconds = some 60 ∧
    (checkForNewEmails sampleMonitorEnv sampleIMAP sampleRegistry []
      failedLoginInput).backoffSeconds ≠ some (min 1800 (2 ^ 1)) := by
  decide

/-- C20, amended: after a failed `GetUnread`, with `n` the login failures of the
account as `checkForNewEmails` reads them after `RecordLoginFailure`, the
back-off it computes is 60 seconds for `n ≤ 1` and `min(1800, 2^n)` seconds for
every `n ≥ 2`; it is never more than 1800 seconds.  The cycle records the login
failure and returns. -/
theorem C20_backoff_value {σ : Type} (env : MonitorEnv σ) (im : IMAP)
    (st : MonitorState) (db : σ) (inp : CycleInput) (e : GoString)
    (hmutex : st.mutexHeld = false) (hrefresh : (refreshRegexes env st inp).2 = false)
    (hunread : inp.unread = .error e) :
    (checkForNewEmails env im st db inp).outcome = .returned ∧
    (checkForNewEmails env im st db inp).calls = [.RecordLoginFailure] ∧
    ∃ b, (checkForNewEmails env im st db inp).backoffSeconds = some b ∧
      ((env.RecordLoginFailure db im).2.1.LoginFailures ≤ 1 → b = 60) ∧
      (2 ≤ (env.RecordLoginFailure db im).2.1.LoginFailures →
        b = min 1800 (2 ^ (env.RecordLoginFailure db im).2.1.LoginFailures)) ∧
      b ≤ 1800 := by
  have hres : checkForNewEmails env im st db inp =
      ⟨(refreshRegexes env st inp).1, (env.RecordLoginFailure db im).1,
        [.RecordLoginFailure],
        some (if (env.RecordLoginFailure db im).2.1.LoginFailures > 1 then
          min 1800 (2 ^ (env.RecordLoginFailure db im).2.1.LoginFailures) else 60),
        .returned⟩ := by
    unfold checkForNewEmails
    simp only [hmutex, hrefresh, hunread, Bool.false_eq_true, if_false]
  rw [hres]
  refine ⟨rfl, rfl, _, rfl, ?_, ?_, ?_⟩
  · intro h
    have : ¬ (env.RecordLoginFailure db im).2.1.LoginFailures > 1 := by omega
    simp [this]
  · intro h
    have : (env.RecordLoginFailure db im).2.1.LoginFailures > 1 := by omega
    simp [this]
  · split
    · exact Nat.min_le_left _ _
    · decide

/-- C20, amended, at a failed login of an account with three earlier failures:
the fourth failure gives the back-off `min(1800, 2^4)` = 16 seconds. -/
theorem C20_backoff_value_witness :
    ∃ b, (checkForNewEmails sampleMonitorEnv { sampleIMAP with LoginFailures := 3 }
        sampleRegistry [] failedLoginInput).backoffSeconds = some b ∧ b = 16 := by
  obtain ⟨_, _, b, hb, _, h2, _⟩ := C20_backoff_value sampleMonitorEnv
    { sampleIMAP with LoginFailures := 3 } sampleRegistry [] failedLoginInput
    "login failed".toList (by decide) (by decide) rfl
  exact ⟨b, hb, by rw [h2 (by decide)]; decide⟩

/-! ## The classification loop: what happens to one message -/

/-- The rid loop in terms of the outcomes of its lookups. -/
theorem reportRids_spec {σ : Type} (env : MonitorEnv σ) (seq : Nat)
    (rids : List GoString) :
    ∀ (st : LoopState σ) (found : Bool),
      (reportRids env seq rids (st, found)).2 =
        (found || lookupSucceeded (lookupOutcomes env rids st.db)) ∧
      (reportRids env seq rids (st, found)).1.reportingFailed =
        st.reportingFailed ++
          List.replicate ((lookupOutcomes env rids st.db).countP (fun o => !o.2)) seq ∧
      (reportRids env seq rids (st, found)).1.processedEmails = st.processedEmails ∧
      (reportRids env seq rids (st, found)).1.deleteEmails = st.deleteEmails ∧
      ∃ extra, (reportRids env seq rids (st, found)).1.calls = st.calls ++ extra ∧
        (∀ c ∈ extra, c.isMailboxOp = false) ∧ lookedUp extra = rids := by
  induction rids with
  | nil =>
    intro st found
    refine ⟨by simp [reportRids, lookupOutcomes, lookupSucceeded], by
      simp [reportRids, lookupOutcomes], rfl, rfl, [], by simp [reportRids], by simp, rfl⟩
  | cons rid rest ih =>
    intro st found
    unfold reportRids lookupOutcomes
    cases hres : env.GetResult st.db rid with
    | error e =>
      simp only []
      obtain ⟨h1, h2, h3, h4, extra, h5, h6, h7⟩ := ih
        { st with calls := st.calls ++ [.GetResult rid],
                  reportingFailed := st.reportingFailed ++ [seq] } found
      refine ⟨?_, ?_, h3, h4, [.GetResult rid] ++ extra, ?_, ?_, ?_⟩
      · rw [h1]; simp [lookupSucceeded]
      · rw [h2]
        simp [List.countP_cons, List.replicate_succ]
      · rw [h5]; simp
      · intro c hc
        rcases List.mem_append.mp hc with hc | hc
        · simp only [List.mem_singleton] at hc
          rw [hc]; rfl
        · exact h6 c hc
      · simp only [lookedUp, List.filterMap_append] at h7 ⊢
        rw [h7]; rfl
    | ok result =>
      simp only []
      obtain ⟨h1, h2, h3, h4, extra, h5, h6, h7⟩ := ih
        { st with db := (env.HandleEmailReport st.db result ⟨[], []⟩).1,
                  calls := st.calls ++ [.GetResult rid, .HandleEmailReport rid] } true
      refine ⟨?_, ?_, h3, h4, [.GetResult rid, .HandleEmailReport rid] ++ extra, ?_, ?_, ?_⟩
      · rw [h1]; simp [lookupSucceeded]
      · rw [h2]
        simp [List.countP_cons]
      · rw [h5]; simp
      · intro c hc
        rcases List.mem_append.mp hc with hc | hc
        · simp only [List.mem_cons, List.mem_singleton, List.not_mem_nil, or_false] at hc
          rcases hc with rfl | rfl <;> rfl
        · exact h6 c hc
      · simp only [lookedUp, List.filterMap_append] at h7 ⊢
        rw [h7]; rfl

/-- The body of the classification loop in terms of the outcomes of the lookups
made for the message. -/
theorem processMessage_spec {σ : Type} (env : MonitorEnv σ) (im : IMAP)
    (paramRegexes : GoMap Regexp) (st : LoopState σ) (m : Message) :
    (processMessage env im paramRegexes st m).reportingFailed =
      st.reportingFailed ++ List.replicate
        ((messageLookups env im paramRegexes st m).countP (fun o => !o.2)) m.SeqNum ∧
    (processMessage env im paramRegexes st m).deleteEmails =
      (if lookupSucceeded (messageLookups env im paramRegexes st m) = true ∧
          im.DeleteReportedCampaignEmail = true then st.deleteEmails ++ [m.SeqNum]
        else st.deleteEmails) ∧
    (processMessage env im paramRegexes st m).processedEmails =
      (if lookupSucceeded (messageLookups env im paramRegexes st m) = true ∧
          im.DeleteReportedCampaignEmail = true then
          (st.processedEmails ++ [m.SeqNum]).erase m.SeqNum
        else st.processedEmails ++ [m.SeqNum]) ∧
    ∃ extra, (processMessage env im paramRegexes st m).calls = st.calls ++ extra ∧
      (∀ c ∈ extra, c.isMailboxOp = false) ∧
      lookedUp extra = messageRids env im paramRegexes st m := by
  unfold processMessage messageLookups messageRids
  simp only []
  cases hs : senderAllowed im m with
  | false =>
    simp only [if_true, lookupOutcomes, lookupSucceeded, List.countP_nil, List.replicate_zero,
      List.append_nil, List.any_nil, Bool.false_eq_true, false_and, if_false, true_and]
    exact ⟨[], by simp, by simp, rfl⟩
  | true =>
    simp only [Bool.true_eq_false, if_false]
    rcases hm : matchEmail env st.db paramRegexes m.Email with ⟨rids, err⟩
    cases err with
    | some e =>
      simp only [lookupOutcomes, lookupSucceeded, List.countP_nil, List.replicate_zero,
        List.append_nil, List.any_nil, Bool.false_eq_true, false_and, if_false, true_and]
      exact ⟨[], by simp, by simp, rfl⟩
    | none =>
      cases rids with
      | nil =>
        simp only [List.length_nil, Nat.lt_one_iff, if_true, lookupOutcomes, lookupSucceeded,
          List.countP_nil, List.replicate_zero, List.append_nil, List.any_nil,
          Bool.false_eq_true, false_and, if_false, true_and]
        exact ⟨[.RecordNonCampaignReport im.UserId im.Id m.Email.From m.Email.Subject],
          rfl, by
            intro c hc
            simp only [List.mem_singleton] at hc
            rw [hc]; rfl, rfl⟩
      | cons rid rest =>
        simp only [List.length_cons, Nat.lt_one_iff, Nat.add_one_ne_zero, if_false]
        obtain ⟨h1, h2, h3, h4, extra, h5, h6, h7⟩ := reportRids_spec env m.SeqNum
          (env.rangeRids (rid :: rest))
          { st with processedEmails := st.processedEmails ++ [m.SeqNum] } false
        simp only [Bool.false_or] at h1
        by_cases hdel : lookupSucceeded (lookupOutcomes env (env.rangeRids (rid :: rest))
            st.db) = true ∧ im.DeleteReportedCampaignEmail = true
        · have hcond : (reportRids env m.SeqNum (env.rangeRids (rid :: rest))
              ({ st with processedEmails := st.processedEmails ++ [m.SeqNum] }, false)).2 = true ∧
              im.DeleteReportedCampaignEmail = true := by
            rw [h1]; exact hdel
          rw [if_pos hcond, if_pos hdel, if_pos hdel]
          exact ⟨h2, by rw [h4], by rw [h3], extra, h5, h6, h7⟩
        · have hcond : ¬ ((reportRids env m.SeqNum (env.rangeRids (rid :: rest))
              ({ st with processedEmails := st.processedEmails ++ [m.SeqNum] }, false)).2 = true ∧
              im.DeleteReportedCampaignEmail = true) := by
            rw [h1]; exact hdel
          rw [if_neg hcond, if_neg hdel, if_neg hdel]
          exact ⟨h2, h4, h3, extra, h5, h6, h7⟩

theorem count_foldl_erase (seq : Nat) (fs : List Nat) :
    ∀ p : List Nat,
      (fs.foldl (fun p failedSeq => p.erase failedSeq) p).count seq =
        p.count seq - fs.count seq := by
  induction fs with
  | nil => intro p; simp
  | cons f rest ih =>
    intro p
    simp only [List.foldl_cons]
    rw [ih, List.count_erase, List.count_cons]
    split <;> omega

/-- A message changes the number of occurrences of another sequence number in
none of the three lists. -/
theorem processMessage_count_other {σ : Type} (env : MonitorEnv σ) (im : IMAP)
    (paramRegexes : GoMap Regexp) (st : LoopState σ) (m : Message) (seq : Nat)
    (hne : seq ≠ m.SeqNum) :
    (processMessage env im paramRegexes st m).reportingFailed.count seq =
      st.reportingFailed.count seq ∧
    (processMessage env im paramRegexes st m).deleteEmails.count seq =
      st.deleteEmails.count seq ∧
    (processMessage env im paramRegexes st m).processedEmails.count seq =
      st.processedEmails.count seq := by
  obtain ⟨h1, h2, h3, _⟩ := processMessage_spec env im paramRegexes st m
  have hb : (m.SeqNum == seq) = false := by
    simpa using fun h => hne h.symm
  refine ⟨?_, ?_, ?_⟩
  · rw [h1, List.count_append, List.count_replicate, hb]
    simp
  · rw [h2]
    split
    · rw [List.count_append, List.count_singleton, hb]
      simp
    · rfl
  · rw [h3]
    split
    · rw [List.count_erase_of_ne hne, List.count_append, List.count_singleton, hb]
      simp
    · rw [List.count_append, List.count_singleton, hb]
      simp

/-- What a message does to the number of occurrences of its own sequence number
in the three lists. -/
theorem processMessage_count_self {σ : Type} (env : MonitorEnv σ) (im : IMAP)
    (paramRegexes : GoMap Regexp) (st : LoopState σ) (m : Message) :
    (processMessage env im paramRegexes st m).reportingFailed.count m.SeqNum =
      st.reportingFailed.count m.SeqNum +
        (messageLookups env im paramRegexes st m).countP (fun o => !o.2) ∧
    (processMessage env im paramRegexes st m).deleteEmails.count m.SeqNum =
      st.deleteEmails.count m.SeqNum +
        (if lookupSucceeded (messageLookups env im paramRegexes st m) = true ∧
          im.DeleteReportedCampaignEmail = true then 1 else 0) ∧
    (processMessage env im paramRegexes st m).processedEmails.count m.SeqNum =
      st.processedEmails.count m.SeqNum +
        (if lookupSucceeded (messageLookups env im paramRegexes st m) = true ∧
          im.DeleteReportedCampaignEmail = true then 0 else 1) := by
  obtain ⟨h1, h2, h3, _⟩ := processMessage_spec env im paramRegexes st m
  refine ⟨?_, ?_, ?_⟩
  · rw [h1, List.count_append, List.count_replicate_self]
  · rw [h2]
    split
    · rw [List.count_append, List.count_singleton_self]
    · rfl
  · rw [h3]
    split
    · rw [List.count_erase_self, List.count_append, List.count_singleton_self]
      omega
    · rw [List.count_append, List.count_singleton_self]

/-- The classification loop changes the number of occurrences of a sequence
number that none of its messages has in none of the three lists. -/
theorem classify_count_other {σ : Type} (env : MonitorEnv σ) (im : IMAP)
    (paramRegexes : GoMap Regexp) (msgs : List Message) (seq : Nat)
    (hseq : seq ∉ msgs.map Message.SeqNum) :
    ∀ st : LoopState σ,
      (classify env im paramRegexes msgs st).reportingFailed.count seq =
        st.reportingFailed.count seq ∧
      (classify env im paramRegexes msgs st).deleteEmails.count seq =
        st.deleteEmails.count seq ∧
      (classify env im paramRegexes msgs st).processedEmails.count seq =
        st.processedEmails.count seq := by
  induction msgs with
  | nil => intro st; exact ⟨rfl, rfl, rfl⟩
  | cons m rest ih =>
    intro st
    simp only [List.map_cons, List.mem_cons, not_or] at hseq
    obtain ⟨h1, h2, h3⟩ := processMessage_count_other env im paramRegexes st m seq hseq.1
    obtain ⟨g1, g2, g3⟩ := ih hseq.2 (processMessage env im paramRegexes st m)
    simp only [classify, List.foldl_cons] at g1 g2 g3 ⊢
    exact ⟨g1.trans h1, g2.trans h2, g3.trans h3⟩

/-- The classification loop writes no mailbox operation to the call log. -/
theorem classify_no_mailboxOp {σ : Type} (env : MonitorEnv σ) (im : IMAP)
    (paramRegexes : GoMap Regexp) (msgs : List Message) :
    ∀ st : LoopState σ, (∀ c ∈ st.calls, c.isMailboxOp = false) →
      ∀ c ∈ (classify env im paramRegexes msgs st).calls, c.isMailboxOp = false := by
  induction msgs with
  | nil => intro st h; exact h
  | cons m rest ih =>
    intro st h
    simp only [classify, List.foldl_cons]
    apply ih
    obtain ⟨_, _, _, extra, h5, h6, _⟩ := processMessage_spec env im paramRegexes st m
    rw [h5]
    intro c hc
    rcases List.mem_append.mp hc with hc | hc
    · exact h c hc
    · exact h6 c hc

/-- With the delete flag off the classification loop adds nothing to
`deleteEmails`. -/
theorem classify_delete_off {σ : Type} (env : MonitorEnv σ) (im : IMAP)
    (paramRegexes : GoMap Regexp) (msgs : List Message)
    (hoff : im.DeleteReportedCampaignEmail = false) :
    ∀ st : LoopState σ,
      (classify env im paramRegexes msgs st).deleteEmails = st.deleteEmails := by
  induction msgs with
  | nil => intro st; rfl
  | cons m rest ih =>
    intro st
    simp only [classify, List.foldl_cons]
    have := ih (processMessage env im paramRegexes st m)
    simp only [classify] at this
    rw [this, (processMessage_spec env im paramRegexes st m).2.1]
    simp [hoff]

/-! ### The three mailbox operations after the loop -/

theorem passedToMarkAsUnread_noOp (calls : List MonitorCall) (seq : Nat)
    (h : ∀ c ∈ calls, c.isMailboxOp = false) : passedToMarkAsUnread calls seq = false := by
  simp only [passedToMarkAsUnread, List.any_eq_false]
  intro c hc
  have := h c hc
  cases c <;> simp_all [MonitorCall.isMailboxOp]

theorem passedToDeleteEmails_noOp (calls : List MonitorCall) (seq : Nat)
    (h : ∀ c ∈ calls, c.isMailboxOp = false) : passedToDeleteEmails calls seq = false := by
  simp only [passedToDeleteEmails, List.any_eq_false]
  intro c hc
  have := h c hc
  cases c <;> simp_all [MonitorCall.isMailboxOp]

theorem passedToMarkAsRead_noOp (calls : List MonitorCall) (seq : Nat)
    (h : ∀ c ∈ calls, c.isMailboxOp = false) : passedToMarkAsRead calls seq = false := by
  simp only [passedToMarkAsRead, List.any_eq_false]
  intro c hc
  have := h c hc
  cases c <;> simp_all [MonitorCall.isMailboxOp]

theorem callsDeleteEmails_noOp (calls : List MonitorCall)
    (h : ∀ c ∈ calls, c.isMailboxOp = false) : callsDeleteEmails calls = false := by
  simp only [callsDeleteEmails, List.any_eq_false]
  intro c hc
  have := h c hc
  cases c <;> simp_all [MonitorCall.isMailboxOp]

/-- The call log after the part of `checkForNewEmails` that follows the loop. -/
theorem finishCycle_callLog {σ : Type} (st : LoopState σ) :
    (finishCycle st).calls =
      st.calls ++
        (if st.reportingFailed.length > 0 then [.MarkAsUnread st.reportingFailed] else []) ++
        (if st.deleteEmails.length > 0 then [.DeleteEmails st.deleteEmails] else []) ++
        (if (remainingProcessed st).length > 0 then [.MarkAsRead (remainingProcessed st)]
          else []) := by
  by_cases hf : st.reportingFailed.length > 0
  · by_cases hd : st.deleteEmails.length > 0
    · by_cases hp : (remainingProcessed st).length > 0
      · have hp2 := hp
        simp only [remainingProcessed] at hp2
        simp [finishCycle, remainingProcessed, hf, hd, hp2]
      · have hp2 := hp
        simp only [remainingProcessed] at hp2
        simp [finishCycle, remainingProcessed, hf, hd, hp2]
    · by_cases hp : (remainingProcessed st).length > 0
      · have hp2 := hp
        simp only [remainingProcessed] at hp2
        simp [finishCycle, remainingProcessed, hf, hd, hp2]
      · have hp2 := hp
        simp only [remainingProcessed] at hp2
        simp [finishCycle, remainingProcessed, hf, hd, hp2]
  · have hnil : st.reportingFailed = [] := by
      cases hl : st.reportingFailed with
      | nil => rfl
      | cons a l => rw [hl] at hf; simp at hf
    have hrem : remainingProcessed st = st.processedEmails := by
      simp [remainingProcessed, hnil]
    rw [hrem]
    by_cases hd : st.deleteEmails.length > 0
    · by_cases hp : st.processedEmails.length > 0
      · simp [finishCycle, hf, hd, hp]
      · simp [finishCycle, hf, hd, hp]
    · by_cases hp : st.processedEmails.length > 0
      · simp [finishCycle, hf, hd, hp]
      · simp [finishCycle, hf, hd, hp]

/-- After a loop that made no mailbox operation, the lists passed to the three
mailbox operations are `reportingFailed`, `deleteEmails`, and `processedEmails`
without one occurrence for every entry of `reportingFailed`. -/
theorem finishCycle_passed {σ : Type} (st : LoopState σ) (seq : Nat)
    (h : ∀ c ∈ st.calls, c.isMailboxOp = false) :
    passedToMarkAsUnread (finishCycle st).calls seq = st.reportingFailed.contains seq ∧
    passedToDeleteEmails (finishCycle st).calls seq = st.deleteEmails.contains seq ∧
    passedToMarkAsRead (finishCycle st).calls seq = (remainingProcessed st).contains seq ∧
    (st.deleteEmails = [] → callsDeleteEmails (finishCycle st).calls = false) := by
  have hu := passedToMarkAsUnread_noOp st.calls seq h
  have hd := passedToDeleteEmails_noOp st.calls seq h
  have hr := passedToMarkAsRead_noOp st.calls seq h
  have hc := callsDeleteEmails_noOp st.calls h
  rw [finishCycle_callLog]
  simp only [passedToMarkAsUnread, passedToDeleteEmails, passedToMarkAsRead,
    callsDeleteEmails, List.any_append] at hu hd hr hc ⊢
  rw [hu, hd, hr, hc]
  refine ⟨?_, ?_, ?_, ?_⟩
  · cases hl : st.reportingFailed <;> cases st.deleteEmails <;>
      cases remainingProcessed st <;> simp
  · cases hl : st.reportingFailed <;> cases st.deleteEmails <;>
      cases remainingProcessed st <;> simp
  · cases hl : st.reportingFailed <;> cases st.deleteEmails <;>
      cases remainingProcessed st <;> simp
  · intro hnil
    rw [hnil]
    cases hl : st.reportingFailed <;> cases remainingProcessed st <;> simp

theorem any_iff_countP_pos {α : Type} (p : α → Bool) (l : List α) :
    l.any p = true ↔ 0 < l.countP p := by
  induction l with
  | nil => simp
  | cons a l ih =>
    rw [List.any_cons, List.countP_cons, Bool.or_eq_true, ih]
    cases p a <;> simp

theorem contains_iff_count_pos (l : List Nat) (seq : Nat) :
    l.contains seq = true ↔ 0 < l.count seq := by
  rw [List.count_pos_iff]
  simp

theorem classify_append {σ : Type} (env : MonitorEnv σ) (im : IMAP)
    (paramRegexes : GoMap Regexp) (pre post : List Message) (m : Message)
    (st : LoopState σ) :
    classify env im paramRegexes (pre ++ m :: post) st =
      classify env im paramRegexes post
        (processMessage env im paramRegexes (classify env im paramRegexes pre st) m) := by
  simp [classify, List.foldl_append]

/-- What the cycle does with the message `m` among messages with distinct sequence
numbers, in terms of the lookups made for `m`: it is marked unread exactly when a
lookup failed, deleted exactly when a lookup succeeded and the account has the
delete flag, and marked read exactly in the remaining case. -/
theorem message_fate {σ : Type} (env : MonitorEnv σ) (im : IMAP)
    (paramRegexes : GoMap Regexp) (pre post : List Message) (m : Message)
    (st : LoopState σ)
    (hdistinct : ((pre ++ m :: post).map Message.SeqNum).Nodup)
    (hf : st.reportingFailed = []) (hdel : st.deleteEmails = [])
    (hp : st.processedEmails = [])
    (hcalls : ∀ c ∈ st.calls, c.isMailboxOp = false) :
    passedToMarkAsUnread
        (finishCycle (classify env im paramRegexes (pre ++ m :: post) st)).calls m.SeqNum =
      lookupFailed
        (messageLookups env im paramRegexes (classify env im paramRegexes pre st) m) ∧
    passedToDeleteEmails
        (finishCycle (classify env im paramRegexes (pre ++ m :: post) st)).calls m.SeqNum =
      (lookupSucceeded
          (messageLookups env im paramRegexes (classify env im paramRegexes pre st) m) &&
        im.DeleteReportedCampaignEmail) ∧
    passedToMarkAsRead
        (finishCycle (classify env im paramRegexes (pre ++ m :: post) st)).calls m.SeqNum =
      (!(lookupSucceeded
          (messageLookups env im paramRegexes (classify env im paramRegexes pre st) m) &&
        im.DeleteReportedCampaignEmail) &&
        !lookupFailed
          (messageLookups env im paramRegexes (classify env im paramRegexes pre st) m)) := by
  rw [List.map_append, List.map_cons, List.nodup_append] at hdistinct
  obtain ⟨_, hcons, hdisj⟩ := hdistinct
  have hpost : m.SeqNum ∉ post.map Message.SeqNum := (List.nodup_cons.mp hcons).1
  have hpre : m.SeqNum ∉ pre.map Message.SeqNum := fun h =>
    hdisj h (List.mem_cons_self _ _)
  obtain ⟨a1, a2, a3⟩ := classify_count_other env im paramRegexes pre m.SeqNum hpre st
  obtain ⟨b1, b2, b3⟩ :=
    processMessage_count_self env im paramRegexes (classify env im paramRegexes pre st) m
  obtain ⟨c1, c2, c3⟩ := classify_count_other env im paramRegexes post m.SeqNum hpost
    (processMessage env im paramRegexes (classify env im paramRegexes pre st) m)
  rw [← classify_append] at c1 c2 c3
  rw [hf] at a1
  rw [hdel] at a2
  rw [hp] at a3
  simp only [List.count_nil] at a1 a2 a3
  rw [a1, Nat.zero_add] at b1
  rw [a2, Nat.zero_add] at b2
  rw [a3, Nat.zero_add] at b3
  rw [b1] at c1
  rw [b2] at c2
  rw [b3] at c3
  obtain ⟨p1, p2, p3, _⟩ :=
    finishCycle_passed (classify env im paramRegexes (pre ++ m :: post) st) m.SeqNum
      (classify_no_mailboxOp env im paramRegexes (pre ++ m :: post) st hcalls)
  have c4 := count_foldl_erase m.SeqNum
    (classify env im paramRegexes (pre ++ m :: post) st).reportingFailed
    (classify env im paramRegexes (pre ++ m :: post) st).processedEmails
  rw [c1, c3] at c4
  have hfail := any_iff_countP_pos (fun o : GoString × Bool => !o.2)
    (messageLookups env im paramRegexes (classify env im paramRegexes pre st) m)
  refine ⟨?_, ?_, ?_⟩
  · rw [p1, Bool.eq_iff_iff, contains_iff_count_pos, c1]
    exact hfail.symm
  · rw [p2, Bool.eq_iff_iff, contains_iff_count_pos, c2, Bool.and_eq_true]
    split <;> simp_all
  · rw [p3, Bool.eq_iff_iff, contains_iff_count_pos]
    simp only [remainingProcessed]
    rw [c4]
    simp only [lookupFailed] at hfail ⊢
    by_cases hcond : lookupSucceeded
        (messageLookups env im paramRegexes (classify env im paramRegexes pre st) m) = true ∧
        im.DeleteReportedCampaignEmail = true
    · rw [if_pos hcond]
      simp [hcond.1, hcond.2]
    · rw [if_neg hcond]
      have hb : (lookupSucceeded
          (messageLookups env im paramRegexes (classify env im paramRegexes pre st) m) &&
          im.DeleteReportedCampaignEmail) = false := by
        rw [Bool.and_eq_false_iff]
        by_contra hcon
        apply hcond
        push_neg at hcon
        exact ⟨by simpa using hcon.1, by simpa using hcon.2⟩
      rw [hb]
      simp only [Bool.not_false, Bool.true_and, Bool.not_eq_true', ← Bool.not_eq_true, hfail]
      omega

/-! ### From the loop to the cycle -/

/-- A cycle that returned without recovering from a panic found the mutex free
and refreshed the registry, if at all, without a panic. -/
theorem checkForNewEmails_returned {σ : Type} (env : MonitorEnv σ) (im : IMAP)
    (st : MonitorState) (db : σ) (inp : CycleInput)
    (hret : (checkForNewEmails env im st db inp).outcome = .returned) :
    st.mutexHeld = false ∧ (refreshRegexes env st inp).2 = false := by
  cases hm : st.mutexHeld with
  | true => simp [checkForNewEmails, hm] at hret
  | false =>
    cases hr : (refreshRegexes env st inp).2 with
    | true => simp [checkForNewEmails, hm, hr] at hret
    | false => exact ⟨rfl, rfl⟩

/-- The call log of a cycle that fetched the messages `pre ++ m :: post`. -/
theorem checkForNewEmails_fetched {σ : Type} (env : MonitorEnv σ) (im : IMAP)
    (st : MonitorState) (db : σ) (inp : CycleInput) (pre post : List Message) (m : Message)
    (hret : (checkForNewEmails env im st db inp).outcome = .returned)
    (hunread : inp.unread = .ok (pre ++ m :: post)) :
    (checkForNewEmails env im st db inp).calls =
      (finishCycle (classify env im (cycleRegexes env st inp) (pre ++ m :: post)
        (loopStart env im db))).calls := by
  obtain ⟨hm, hr⟩ := checkForNewEmails_returned env im st db inp hret
  have hlen : (pre ++ m :: post).length > 0 := by simp
  simp only [checkForNewEmails, hm, hr, hunread, Bool.false_eq_true, if_false, hlen, if_true,
    classify, cycleRegexes, loopStart]

theorem loopStart_noOp {σ : Type} (env : MonitorEnv σ) (im : IMAP) (db : σ) :
    ∀ c ∈ (loopStart env im db).calls, c.isMailboxOp = false := by
  intro c hc
  simp only [loopStart, List.mem_singleton] at hc
  rw [hc]
  rfl

/-- The classification loop only appends to the call log. -/
theorem classify_calls_extend {σ : Type} (env : MonitorEnv σ) (im : IMAP)
    (paramRegexes : GoMap Regexp) (msgs : List Message) :
    ∀ st : LoopState σ, ∃ more,
      (classify env im paramRegexes msgs st).calls = st.calls ++ more := by
  induction msgs with
  | nil => intro st; exact ⟨[], by simp [classify]⟩
  | cons m rest ih =>
    intro st
    obtain ⟨_, _, _, extra, h5, _, _⟩ := processMessage_spec env im paramRegexes st m
    obtain ⟨more, hmore⟩ := ih (processMessage env im paramRegexes st m)
    refine ⟨extra ++ more, ?_⟩
    simp only [classify, List.foldl_cons] at hmore ⊢
    rw [hmore, h5, List.append_assoc]

/-- The call log of a cycle that fetched `pre ++ m :: post` holds, in one
stretch, the calls made for `m`: no mailbox operation, and one lookup for every
rid of `m`, in the order of the rid loop. -/
theorem message_lookups_logged {σ : Type} (env : MonitorEnv σ) (im : IMAP)
    (paramRegexes : GoMap Regexp) (pre post : List Message) (m : Message)
    (st : LoopState σ) :
    ∃ before extra after,
      (finishCycle (classify env im paramRegexes (pre ++ m :: post) st)).calls =
        before ++ extra ++ after ∧
      lookedUp extra =
        messageRids env im paramRegexes (classify env im paramRegexes pre st) m := by
  obtain ⟨_, _, _, extra, h5, _, h7⟩ :=
    processMessage_spec env im paramRegexes (classify env im paramRegexes pre st) m
  obtain ⟨more, hmore⟩ := classify_calls_extend env im paramRegexes post
    (processMessage env im paramRegexes (classify env im paramRegexes pre st) m)
  rw [← classify_append] at hmore
  obtain ⟨ops, hops⟩ : ∃ ops,
      (finishCycle (classify env im paramRegexes (pre ++ m :: post) st)).calls =
        (classify env im paramRegexes (pre ++ m :: post) st).calls ++ ops :=
    ⟨_, by rw [finishCycle_callLog, List.append_assoc, List.append_assoc]⟩
  refine ⟨(classify env im paramRegexes pre st).calls, extra, more ++ ops, ?_, h7⟩
  rw [hops, hmore, h5]
  simp only [List.append_assoc]

/-! ### C11, C12, C13: marked unread, deleted, marked read -/

/-- C11, as stated, fails: with the registry empty and the delete flag set, the
message 1 holds the unknown token `zzzzzzz` and the RID `abcDEF1`.  The lookup of
`zzzzzzz` fails, yet `abcDEF1` is looked up and handled after it, and the
sequence number 1 is passed to `MarkAsUnread` and to `DeleteEmails`. -/
theorem C11_counterexample :
    messageLookups twoRidEnv deletingIMAP emptyRegistry.paramRegexes
        (loopStart twoRidEnv deletingIMAP []) ⟨1, twoRidEmail⟩ =
      [("zzzzzzz".toList, false), ("abcDEF1".toList, true)] ∧
    (checkForNewEmails twoRidEnv deletingIMAP emptyRegistry []
        (fetchInput [⟨1, twoRidEmail⟩])).calls =
      [.SuccessfulLogin, .GetResult "zzzzzzz".toList, .GetResult "abcDEF1".toList,
       .HandleEmailReport "abcDEF1".toList, .MarkAsUnread [1], .DeleteEmails [1]] ∧
    passedToDeleteEmails
      (checkForNewEmails twoRidEnv deletingIMAP emptyRegistry []
        (fetchInput [⟨1, twoRidEmail⟩])).calls 1 = true := by
  decide

/-- C11, amended: in a cycle that fetched messages with distinct sequence
numbers, a message for which a Result-store lookup of one of its rids fails has
its sequence number passed to `MarkAsUnread` and not to `MarkAsRead`; it is
passed to `DeleteEmails` exactly when the account has the delete flag and
another of its rids resolved to a Result; and the call log holds one lookup for
every rid of the message, those after the failing one included. -/
theorem C11_failed_lookup {σ : Type} (env : MonitorEnv σ) (im : IMAP)
    (st : MonitorState) (db : σ) (inp : CycleInput) (pre post : List Message) (m : Message)
    (hret : (checkForNewEmails env im st db inp).outcome = .returned)
    (hunread : inp.unread = .ok (pre ++ m :: post))
    (hdistinct : ((pre ++ m :: post).map Message.SeqNum).Nodup)
    (hfail : lookupFailed (messageLookups env im (cycleRegexes env st inp)
      (classify env im (cycleRegexes env st inp) pre (loopStart env im db)) m) = true) :
    passedToMarkAsUnread (checkForNewEmails env im st db inp).calls m.SeqNum = true ∧
    passedToMarkAsRead (checkForNewEmails env im st db inp).calls m.SeqNum = false ∧
    (passedToDeleteEmails (checkForNewEmails env im st db inp).calls m.SeqNum = true ↔
      im.DeleteReportedCampaignEmail = true ∧
      lookupSucceeded (messageLookups env im (cycleRegexes env st inp)
        (classify env im (cycleRegexes env st inp) pre (loopStart env im db)) m) = true) ∧
    ∃ before extra after,
      (checkForNewEmails env im st db inp).calls = before ++ extra ++ after ∧
      lookedUp extra = messageRids env im (cycleRegexes env st inp)
        (classify env im (cycleRegexes env st inp) pre (loopStart env im db)) m := by
  rw [checkForNewEmails_fetched env im st db inp pre post m hret hunread]
  obtain ⟨h1, h2, h3⟩ := message_fate env im (cycleRegexes env st inp) pre post m
    (loopStart env im db) hdistinct rfl rfl rfl (loopStart_noOp env im db)
  refine ⟨?_, ?_, ?_, ?_⟩
  · rw [h1, hfail]
  · rw [h3, hfail]
    simp
  · rw [h2, Bool.and_eq_true]
    exact And.comm
  · exact message_lookups_logged env im (cycleRegexes env st inp) pre post m
      (loopStart env im db)

/-- C11, amended, at the cycle that fetched the three messages of `sampleInbox`
with the registry empty and the delete flag set, for the message 2 with the
unknown token `zzzzzzz` and the RID `abcDEF1`. -/
theorem C11_failed_lookup_witness :
    passedToMarkAsUnread (checkForNewEmails twoRidEnv deletingIMAP emptyRegistry []
      (fetchInput sampleInbox)).calls 2 = true ∧
    passedToMarkAsRead (checkForNewEmails twoRidEnv deletingIMAP emptyRegistry []
      (fetchInput sampleInbox)).calls 2 = false ∧
    (passedToDeleteEmails (checkForNewEmails twoRidEnv deletingIMAP emptyRegistry []
        (fetchInput sampleInbox)).calls 2 = true ↔
      deletingIMAP.DeleteReportedCampaignEmail = true ∧
      lookupSucceeded (messageLookups twoRidEnv deletingIMAP
        (cycleRegexes twoRidEnv emptyRegistry (fetchInput sampleInbox))
        (classify twoRidEnv deletingIMAP
          (cycleRegexes twoRidEnv emptyRegistry (fetchInput sampleInbox))
          [⟨1, plainEmail⟩] (loopStart twoRidEnv deletingIMAP []))
        ⟨2, twoRidEmail⟩) = true) ∧
    ∃ before extra after,
      (checkForNewEmails twoRidEnv deletingIMAP emptyRegistry []
        (fetchInput sampleInbox)).calls = before ++ extra ++ after ∧
      lookedUp extra = messageRids twoRidEnv deletingIMAP
        (cycleRegexes twoRidEnv emptyRegistry (fetchInput sampleInbox))
        (classify twoRidEnv deletingIMAP
          (cycleRegexes twoRidEnv emptyRegistry (fetchInput sampleInbox))
          [⟨1, plainEmail⟩] (loopStart twoRidEnv deletingIMAP []))
        ⟨2, twoRidEmail⟩ :=
  C11_failed_lookup twoRidEnv deletingIMAP emptyRegistry [] (fetchInput sampleInbox)
    [⟨1, plainEmail⟩] [⟨3, campaignEmail⟩] ⟨2, twoRidEmail⟩ (by decide) rfl (by decide)
    (by decide)

/-- C12: in a cycle that fetched messages with distinct sequence numbers, the
sequence number of a message is passed to `DeleteEmails` exactly when the
account has `DeleteReportedCampaignEmail` set and one of the message's rids
resolved to a Result (`validRIDFound`); a sequence number passed to
`DeleteEmails` is not passed to `MarkAsRead`; and with the flag off
`DeleteEmails` is not called at all. -/
theorem C12_delete_iff_flag_and_valid {σ : Type} (env : MonitorEnv σ) (im : IMAP)
    (st : MonitorState) (db : σ) (inp : CycleInput) (pre post : List Message) (m : Message)
    (hret : (checkForNewEmails env im st db inp).outcome = .returned)
    (hunread : inp.unread = .ok (pre ++ m :: post))
    (hdistinct : ((pre ++ m :: post).map Message.SeqNum).Nodup) :
    (passedToDeleteEmails (checkForNewEmails env im st db inp).calls m.SeqNum = true ↔
      im.DeleteReportedCampaignEmail = true ∧
      lookupSucceeded (messageLookups env im (cycleRegexes env st inp)
        (classify env im (cycleRegexes env st inp) pre (loopStart env im db)) m) = true) ∧
    (passedToDeleteEmails (checkForNewEmails env im st db inp).calls m.SeqNum = true →
      passedToMarkAsRead (checkForNewEmails env im st db inp).calls m.SeqNum = false) ∧
    (im.DeleteReportedCampaignEmail = false →
      callsDeleteEmails (checkForNewEmails env im st db inp).calls = false) := by
  rw [checkForNewEmails_fetched env im st db inp pre post m hret hunread]
  obtain ⟨_, h2, h3⟩ := message_fate env im (cycleRegexes env st inp) pre post m
    (loopStart env im db) hdistinct rfl rfl rfl (loopStart_noOp env im db)
  refine ⟨?_, ?_, ?_⟩
  · rw [h2, Bool.and_eq_true]
    exact And.comm
  · intro hdel
    rw [h2] at hdel
    rw [h3, hdel]
    rfl
  · intro hoff
    apply (finishCycle_passed _ 0 (classify_no_mailboxOp env im (cycleRegexes env st inp)
      (pre ++ m :: post) (loopStart env im db) (loopStart_noOp env im db))).2.2.2
    rw [classify_delete_off env im (cycleRegexes env st inp) (pre ++ m :: post) hoff]
    rfl

/-- C12 at the cycle that fetched the three messages of `sampleInbox` with the
registry empty and the delete flag set, for the message 3 with the RID
`abcDEF1`. -/
theorem C12_delete_iff_flag_and_valid_witness :
    (passedToDeleteEmails (checkForNewEmails twoRidEnv deletingIMAP emptyRegistry []
        (fetchInput sampleInbox)).calls 3 = true ↔
      deletingIMAP.DeleteReportedCampaignEmail = true ∧
      lookupSucceeded (messageLookups twoRidEnv deletingIMAP
        (cycleRegexes twoRidEnv emptyRegistry (fetchInput sampleInbox))
        (classify twoRidEnv deletingIMAP
          (cycleRegexes twoRidEnv emptyRegistry (fetchInput sampleInbox))
          [⟨1, plainEmail⟩, ⟨2, twoRidEmail⟩] (loopStart twoRidEnv deletingIMAP []))
        ⟨3, campaignEmail⟩) = true) ∧
    (passedToDeleteEmails (checkForNewEmails twoRidEnv deletingIMAP emptyRegistry []
        (fetchInput sampleInbox)).calls 3 = true →
      passedToMarkAsRead (checkForNewEmails twoRidEnv deletingIMAP emptyRegistry []
        (fetchInput sampleInbox)).calls 3 = false) ∧
    (deletingIMAP.DeleteReportedCampaignEmail = false →
      callsDeleteEmails (checkForNewEmails twoRidEnv deletingIMAP emptyRegistry []
        (fetchInput sampleInbox)).calls = false) :=
  C12_delete_iff_flag_and_valid twoRidEnv deletingIMAP emptyRegistry []
    (fetchInput sampleInbox) [⟨1, plainEmail⟩, ⟨2, twoRidEmail⟩] [] ⟨3, campaignEmail⟩
    (by decide) rfl (by decide)

theorem messageRids_of_scan_empty {σ : Type} (env : MonitorEnv σ) (im : IMAP)
    (paramRegexes : GoMap Regexp) (st : LoopState σ) (m : Message)
    (hzero : (matchEmail env st.db paramRegexes m.Email).1 = []) :
    messageRids env im paramRegexes st m = [] := by
  unfold messageRids
  cases senderAllowed im m with
  | false => rfl
  | true =>
    rcases hscan : matchEmail env st.db paramRegexes m.Email with ⟨rids, err⟩
    rw [hscan] at hzero
    simp only at hzero
    cases err with
    | some e => simp
    | none => simp [hzero]

/-- In a cycle that fetched messages with distinct sequence numbers, a message
for which `matchEmail` returns the empty rid set is not in the list passed to
`DeleteEmails`, whatever `DeleteReportedCampaignEmail` is, and its sequence
number is in the list passed to `MarkAsRead`. -/
theorem scan_empty_kept_read {σ : Type} (env : MonitorEnv σ) (im : IMAP)
    (st : MonitorState) (db : σ) (inp : CycleInput) (pre post : List Message) (m : Message)
    (hret : (checkForNewEmails env im st db inp).outcome = .returned)
    (hunread : inp.unread = .ok (pre ++ m :: post))
    (hdistinct : ((pre ++ m :: post).map Message.SeqNum).Nodup)
    (hzero : (matchEmail env
      (classify env im (cycleRegexes env st inp) pre (loopStart env im db)).db
      (cycleRegexes env st inp) m.Email).1 = []) :
    passedToDeleteEmails (checkForNewEmails env im st db inp).calls m.SeqNum = false ∧
    passedToMarkAsRead (checkForNewEmails env im st db inp).calls m.SeqNum = true := by
  rw [checkForNewEmails_fetched env im st db inp pre post m hret hunread]
  obtain ⟨_, h2, h3⟩ := message_fate env im (cycleRegexes env st inp) pre post m
    (loopStart env im db) hdistinct rfl rfl rfl (loopStart_noOp env im db)
  have hrids := messageRids_of_scan_empty env im (cycleRegexes env st inp)
    (classify env im (cycleRegexes env st inp) pre (loopStart env im db)) m hzero
  have hL : messageLookups env im (cycleRegexes env st inp)
      (classify env im (cycleRegexes env st inp) pre (loopStart env im db)) m = [] := by
    simp only [messageLookups, hrids, lookupOutcomes]
  rw [hL] at h2 h3
  exact ⟨h2, h3⟩

/-- In a cycle that fetched messages with distinct sequence numbers, a message
none of whose rids resolves to a Result in the rid loop is not in the list
passed to `DeleteEmails`, whatever `DeleteReportedCampaignEmail` is. -/
theorem no_valid_rid_not_deleted {σ : Type} (env : MonitorEnv σ) (im : IMAP)
    (st : MonitorState) (db : σ) (inp : CycleInput) (pre post : List Message) (m : Message)
    (hret : (checkForNewEmails env im st db inp).outcome = .returned)
    (hunread : inp.unread = .ok (pre ++ m :: post))
    (hdistinct : ((pre ++ m :: post).map Message.SeqNum).Nodup)
    (hnone : lookupSucceeded (messageLookups env im (cycleRegexes env st inp)
      (classify env im (cycleRegexes env st inp) pre (loopStart env im db)) m) = false) :
    passedToDeleteEmails (checkForNewEmails env im st db inp).calls m.SeqNum = false := by
  rw [checkForNewEmails_fetched env im st db inp pre post m hret hunread]
  obtain ⟨_, h2, _⟩ := message_fate env im (cycleRegexes env st inp) pre post m
    (loopStart env im db) hdistinct rfl rfl rfl (loopStart_noOp env im db)
  rw [h2, hnone]
  rfl

/-- C13, on the code: with the registry empty and the delete flag set, the one
fetched message holds only the unknown token `zzzzzzz`, so it holds no valid RID.
The fallback branch of `checkRIDs` puts the token in the rid set without a
lookup, the lookup of the rid loop fails, and the sequence number 1 is passed to
`MarkAsUnread` and not to `MarkAsRead`; no non-campaign report is recorded.  The
message is not deleted. -/
theorem C13_unknown_token_marked_unread :
    matchEmail sampleMonitorEnv [] emptyRegistry.paramRegexes strangerEmail =
      (["zzzzzzz".toList], none) ∧
    sampleMonitorEnv.GetResult [] "zzzzzzz".toList = .error recordNotFound ∧
    (checkForNewEmails sampleMonitorEnv deletingIMAP emptyRegistry []
        (fetchInput [⟨1, strangerEmail⟩])).calls =
      [.SuccessfulLogin, .GetResult "zzzzzzz".toList, .MarkAsUnread [1]] ∧
    passedToMarkAsRead (checkForNewEmails sampleMonitorEnv deletingIMAP emptyRegistry []
      (fetchInput [⟨1, strangerEmail⟩])).calls 1 = false ∧
    passedToMarkAsUnread (checkForNewEmails sampleMonitorEnv deletingIMAP emptyRegistry []
      (fetchInput [⟨1, strangerEmail⟩])).calls 1 = true ∧
    passedToDeleteEmails (checkForNewEmails sampleMonitorEnv deletingIMAP emptyRegistry []
      (fetchInput [⟨1, strangerEmail⟩])).calls 1 = false := by
  refine ⟨by decide, rfl, by decide, by decide, by decide, by decide⟩

/-! ## C22 — the mutex after a recovered panic -/

/-- C22, on the code: with an active campaign whose parameter name is `a(`,
`regexp.MustCompile` panics inside `updateParameterRegexes`.  The cycle recovers
and returns, but `regexUpdateMutex` stays locked, and the next cycle blocks on
it before it contacts the mail server. -/
theorem C22_mutex_held_after_panic :
    (checkForNewEmails strictRegexEnv sampleIMAP sampleRegistry [] parenInput).outcome =
      .recovered ∧
    (checkForNewEmails strictRegexEnv sampleIMAP sampleRegistry []
      parenInput).state.mutexHeld = true ∧
    (checkForNewEmails strictRegexEnv sampleIMAP
      (checkForNewEmails strictRegexEnv sampleIMAP sampleRegistry [] parenInput).state []
      (fetchInput [⟨1, plainEmail⟩])).outcome = .blocked ∧
    (checkForNewEmails strictRegexEnv sampleIMAP
      (checkForNewEmails strictRegexEnv sampleIMAP sampleRegistry [] parenInput).state []
      (fetchInput [⟨1, plainEmail⟩])).calls = [] := by
  decide


/-! ## C28 — every fetched message gets a mailbox operation -/

/-- The call log of a cycle that fetched no message. -/
theorem checkForNewEmails_fetched_none {σ : Type} (env : MonitorEnv σ) (im : IMAP)
    (st : MonitorState) (db : σ) (inp : CycleInput)
    (hret : (checkForNewEmails env im st db inp).outcome = .returned)
    (hunread : inp.unread = .ok []) :
    (checkForNewEmails env im st db inp).calls = [.SuccessfulLogin] := by
  obtain ⟨hm, hr⟩ := checkForNewEmails_returned env im st db inp hret
  simp [checkForNewEmails, hm, hr, hunread]

/-- C28: in a cycle that fetched messages with distinct sequence numbers, the
sequence number of every message is in at least one of the lists passed to
`MarkAsUnread`, `DeleteEmails` and `MarkAsRead`, and no sequence number in the
list passed to `MarkAsRead` is in one of the other two lists. -/
theorem C28_every_message_handled {σ : Type} (env : MonitorEnv σ) (im : IMAP)
    (st : MonitorState) (db : σ) (inp : CycleInput) (msgs : List Message)
    (hret : (checkForNewEmails env im st db inp).outcome = .returned)
    (hunread : inp.unread = .ok msgs)
    (hdistinct : (msgs.map Message.SeqNum).Nodup) :
    (∀ m ∈ msgs,
      passedToMarkAsUnread (checkForNewEmails env im st db inp).calls m.SeqNum = true ∨
      passedToDeleteEmails (checkForNewEmails env im st db inp).calls m.SeqNum = true ∨
      passedToMarkAsRead (checkForNewEmails env im st db inp).calls m.SeqNum = true) ∧
    (∀ seq, passedToMarkAsRead (checkForNewEmails env im st db inp).calls seq = true →
      passedToMarkAsUnread (checkForNewEmails env im st db inp).calls seq = false ∧
      passedToDeleteEmails (checkForNewEmails env im st db inp).calls seq = false) := by
  have hfate : ∀ m ∈ msgs, ∃ failed deleted : Bool,
      passedToMarkAsUnread (checkForNewEmails env im st db inp).calls m.SeqNum = failed ∧
      passedToDeleteEmails (checkForNewEmails env im st db inp).calls m.SeqNum = deleted ∧
      passedToMarkAsRead (checkForNewEmails env im st db inp).calls m.SeqNum =
        (!deleted && !failed) := by
    intro m hm
    obtain ⟨pre, post, hsplit⟩ := List.append_of_mem hm
    subst hsplit
    rw [checkForNewEmails_fetched env im st db inp pre post m hret hunread]
    obtain ⟨h1, h2, h3⟩ := message_fate env im (cycleRegexes env st inp) pre post m
      (loopStart env im db) hdistinct rfl rfl rfl (loopStart_noOp env im db)
    exact ⟨_, _, h1, h2, h3⟩
  constructor
  · intro m hm
    obtain ⟨failed, deleted, h1, h2, h3⟩ := hfate m hm
    rw [h1, h2, h3]
    cases failed <;> cases deleted <;> simp
  · intro seq hread
    by_cases hmem : seq ∈ msgs.map Message.SeqNum
    · obtain ⟨m, hm, hseq⟩ := List.mem_map.mp hmem
      subst hseq
      obtain ⟨failed, deleted, h1, h2, h3⟩ := hfate m hm
      rw [h3] at hread
      rw [h1, h2]
      cases failed <;> cases deleted <;> simp_all
    · exfalso
      cases msgs with
      | nil =>
        rw [checkForNewEmails_fetched_none env im st db inp hret hunread] at hread
        simp [passedToMarkAsRead] at hread
      | cons m0 rest =>
        rw [checkForNewEmails_fetched env im st db inp [] rest m0 hret hunread] at hread
        obtain ⟨_, _, p3, _⟩ :=
          finishCycle_passed (classify env im (cycleRegexes env st inp) ([] ++ m0 :: rest)
            (loopStart env im db)) seq
            (classify_no_mailboxOp env im (cycleRegexes env st inp) ([] ++ m0 :: rest)
              (loopStart env im db) (loopStart_noOp env im db))
        rw [p3, contains_iff_count_pos] at hread
        simp only [remainingProcessed] at hread
        rw [count_foldl_erase] at hread
        obtain ⟨_, _, c3⟩ := classify_count_other env im (cycleRegexes env st inp)
          ([] ++ m0 :: rest) seq hmem (loopStart env im db)
        rw [c3] at hread
        simp [loopStart] at hread

/-- C28 at the cycle that fetched the three messages of `sampleInbox` with the
registry empty and the delete flag set. -/
theorem C28_every_message_handled_witness :
    (∀ m ∈ sampleInbox,
      passedToMarkAsUnread (checkForNewEmails twoRidEnv deletingIMAP emptyRegistry []
        (fetchInput sampleInbox)).calls m.SeqNum = true ∨
      passedToDeleteEmails (checkForNewEmails twoRidEnv deletingIMAP emptyRegistry []
        (fetchInput sampleInbox)).calls m.SeqNum = true ∨
      passedToMarkAsRead (checkForNewEmails twoRidEnv deletingIMAP emptyRegistry []
        (fetchInput sampleInbox)).calls m.SeqNum = true) ∧
    (∀ seq, passedToMarkAsRead (checkForNewEmails twoRidEnv deletingIMAP emptyRegistry []
        (fetchInput sampleInbox)).calls seq = true →
      passedToMarkAsUnread (checkForNewEmails twoRidEnv deletingIMAP emptyRegistry []
        (fetchInput sampleInbox)).calls seq = false ∧
      passedToDeleteEmails (checkForNewEmails twoRidEnv deletingIMAP emptyRegistry []
        (fetchInput sampleInbox)).calls seq = false) :=
  C28_every_message_handled twoRidEnv deletingIMAP emptyRegistry [] (fetchInput sampleInbox)
    sampleInbox (by decide) rfl (by decide)

/-! ## C21 — the wait before the check -/

/-- C21, as stated, fails: the sample account was polled every 5 seconds and
checked at 100 s; its frequency is then set to 60 seconds and
`monitorIMAPConfig` is called again at 115 s.  The specification asks for a
wait of 45 seconds; the code does not wait, and contacts the mail server 15
seconds after the last check. -/
theorem C21_counterexample :
    firstRun.times.lastCheckTimes.get? sampleIMAP.Id = some (100 * Second) ∧
    sampleIMAP.IMAPFreq = 60 ∧
    specWait sampleIMAP (secondClock.atSince - 100 * Second) = 45 * Second ∧
    (monitorIMAPConfig sampleMonitorEnv sampleIMAP firstRun.times secondClock emptyRegistry
      [] (quietInput (115 * Second))).waitDuration = 0 ∧
    (monitorIMAPConfig sampleMonitorEnv sampleIMAP firstRun.times secondClock emptyRegistry
      [] (quietInput (115 * Second))).startTime - 100 * Second = 15 * Second := by
  decide

/-- C21, amended: the wait of `monitorIMAPConfig` before the check is
`max(0, 10 s - time since the account's last recorded check)`, whatever
`imap_freq` is, so that the check starts at least 10 seconds after the last
recorded one when the clock after the wait has advanced by the wait; on the
first check of an account, whose last check is taken to be one hour before, the
wait is zero. -/
theorem C21_wait_before_check {σ : Type} (env : MonitorEnv σ) (im : IMAP)
    (times : CheckTimes) (clock : ConfigClock) (st : MonitorState) (db : σ)
    (inp : CycleInput) :
    (∀ last, times.lastCheckTimes.get? im.Id = some last →
      (monitorIMAPConfig env im times clock st db inp).waitDuration =
        max 0 (10 * Second - (clock.atSince - last)) ∧
      (clock.atSince + (monitorIMAPConfig env im times clock st db inp).waitDuration ≤
          clock.atStart →
        (monitorIMAPConfig env im times clock st db inp).startTime - last ≥ 10 * Second)) ∧
    (times.lastCheckTimes.get? im.Id = none → clock.atEntry ≤ clock.atSince →
      (monitorIMAPConfig env im times clock st db inp).waitDuration = 0) := by
  have hsec : Second = (1000000000 : Int) := rfl
  have hhour : Hour = (3600000000000 : Int) := by decide
  have hmin : minTimeBetweenChecks = (10 : Int) := rfl
  constructor
  · intro last hlast
    have hwait : (monitorIMAPConfig env im times clock st db inp).waitDuration =
        max 0 (10 * Second - (clock.atSince - last)) := by
      simp only [monitorIMAPConfig, hlast, hmin]
      by_cases h : clock.atSince - last < 10 * Second
      · rw [if_pos h, max_eq_right]
        linarith
      · rw [if_neg h, max_eq_left]
        linarith
    refine ⟨hwait, ?_⟩
    intro hclock
    rw [hwait] at hclock
    have hstart : (monitorIMAPConfig env im times clock st db inp).startTime =
        clock.atStart := rfl
    rw [hstart]
    have := le_max_right (0 : Int) (10 * Second - (clock.atSince - last))
    linarith
  · intro hnone hmono
    simp only [monitorIMAPConfig, hnone, hmin, hhour, hsec]
    rw [if_neg]
    linarith

/-- C21, amended, at the second call for the sample account, 15 seconds after
its first check. -/
theorem C21_wait_before_check_witness :
    (monitorIMAPConfig sampleMonitorEnv sampleIMAP firstRun.times secondClock emptyRegistry
        [] (quietInput (115 * Second))).waitDuration =
      max 0 (10 * Second - (secondClock.atSince - 100 * Second)) :=
  ((C21_wait_before_check sampleMonitorEnv sampleIMAP firstRun.times secondClock
    emptyRegistry [] (quietInput (115 * Second))).1 (100 * Second) (by decide)).1

/-! ## C14 and C15 — the non-campaign log -/

theorem commitTx_ok (refused : Bool) (db tx out : NonCampaignDB)
    (h : commitTx refused db tx = (out, none)) : out = tx := by
  unfold commitTx at h
  split at h
  · cases h
  · cases h; rfl

theorem mem_setReportCount (stats : List NonCampaignStats) (userId n : Int)
    (s : NonCampaignStats) (hs : s ∈ setReportCount stats userId n)
    (hu : s.UserId = userId) : s.ReportCount = n := by
  unfold setReportCount at hs
  obtain ⟨s0, _, h0⟩ := List.mem_map.mp hs
  by_cases h : s0.UserId = userId
  · rw [if_pos h] at h0
    rw [← h0]
  · rw [if_neg h] at h0
    rw [h0] at h
    exact absurd hu h

theorem find_setReportCount (rows : List NonCampaignStats) (userId n : Int) :
    (setReportCount rows userId n).find? (fun s => s.UserId = userId) =
      (rows.find? (fun s => s.UserId = userId)).map (fun s => { s with ReportCount := n }) := by
  unfold setReportCount
  induction rows with
  | nil => rfl
  | cons row rest ih =>
    by_cases hr : row.UserId = userId
    · simp [List.find?_cons, hr]
    · have hd : decide (row.UserId = userId) = false := by simpa using hr
      simp only [List.map_cons, hr, if_false, List.find?_cons, hd]
      exact ih

/-- The count `GetNonCampaignStats` returns after the stats rows of the user got
the count `n`. -/
theorem GetNonCampaignStats_setReportCount (reports : List NonCampaignReport)
    (rows : List NonCampaignStats) (nextId userId n : Int) :
    (GetNonCampaignStats false ⟨reports, setReportCount rows userId n, nextId⟩
        userId).1.ReportCount =
      if (rows.find? (fun s => s.UserId = userId)).isSome then n else 0 := by
  unfold GetNonCampaignStats findStats
  simp only [Bool.false_eq_true, if_false, find_setReportCount]
  cases rows.find? (fun s => s.UserId = userId) <;> simp

/-- C14: after a successful `ClearNonCampaignReports(u, 0)` the report rows are
those of the other users, so none remains for `u`, every stats row of `u` has
`report_count` 0 and `GetNonCampaignStats(u)` returns the count 0.  After a
successful `ClearNonCampaignReports(u, k)` with `k > 0` the report rows are the
former rows without those of `u` with `imap_id` `k`, and the `report_count` of
`u`'s stats row, as `GetNonCampaignStats(u)` returns it, is the number of the
remaining rows of `u`. -/
theorem C14_clear_reports (faults : ClearFaults) (db out : NonCampaignDB) (u k : Int)
    (hok : ClearNonCampaignReports faults db u k = (out, none)) :
    (k = 0 →
      out.reports = db.reports.filter (fun r => r.UserId ≠ u) ∧
      reportsOf out u = [] ∧
      (∀ s ∈ out.stats, s.UserId = u → s.ReportCount = 0) ∧
      (GetNonCampaignStats false out u).1.ReportCount = 0) ∧
    (k > 0 →
      out.reports = db.reports.filter (fun r => ¬ (r.UserId = u ∧ r.ImapId = k)) ∧
      (∀ s ∈ out.stats, s.UserId = u → s.ReportCount = (reportsOf out u).length) ∧
      (∀ s, findStats db u = some s →
        (GetNonCampaignStats false out u).1.ReportCount = (reportsOf out u).length)) := by
  unfold ClearNonCampaignReports at hok
  by_cases hdel : faults.delete = true
  · simp [hdel] at hok
  simp only [hdel, Bool.false_eq_true, if_false] at hok
  constructor
  · intro hk
    subst hk
    simp only [if_true] at hok
    by_cases hup : faults.updateStats = true
    · simp [hup] at hok
    simp only [hup, Bool.false_eq_true, if_false] at hok
    have hout := commitTx_ok _ _ _ _ hok
    subst hout
    have hrep : (List.filter (fun r => !clearMatches u 0 r) db.reports) =
        db.reports.filter (fun r => r.UserId ≠ u) := by
      apply List.filter_congr
      intro r _
      simp [clearMatches]
    refine ⟨hrep, ?_, ?_, ?_⟩
    · simp only [reportsOf, hrep, List.filter_filter]
      rw [List.filter_eq_nil_iff]
      intro r _
      simp
    · intro s hs hu
      exact mem_setReportCount _ _ _ s hs hu
    · rw [GetNonCampaignStats_setReportCount]
      split <;> rfl
  · intro hk
    have hk0 : ¬ k = 0 := by omega
    simp only [hk0, if_false] at hok
    by_cases hcnt : faults.count = true
    · simp [hcnt] at hok
    simp only [hcnt, Bool.false_eq_true, if_false] at hok
    by_cases hup : faults.updateStats = true
    · simp [hup] at hok
    simp only [hup, Bool.false_eq_true, if_false] at hok
    have hout := commitTx_ok _ _ _ _ hok
    subst hout
    have hrep : (List.filter (fun r => !clearMatches u k r) db.reports) =
        db.reports.filter (fun r => ¬ (r.UserId = u ∧ r.ImapId = k)) := by
      apply List.filter_congr
      intro r _
      simp [clearMatches, hk]
    refine ⟨hrep, ?_, ?_⟩
    · intro s hs hu
      exact mem_setReportCount _ _ _ s hs hu
    · intro s hs
      rw [GetNonCampaignStats_setReportCount]
      unfold findStats at hs
      rw [hs]
      rfl

/-- C14 at the sample database: clearing the reports of user 1 from mailbox 7
removes the two rows of that mailbox and leaves the count 1. -/
theorem C14_clear_reports_witness :
    (ClearNonCampaignReports noClearFaults sampleReports 1 7).2 = none ∧
    (ClearNonCampaignReports noClearFaults sampleReports 1 7).1.reports =
      [⟨2, 1, 8, "bob@example.com".toList, "b".toList, 20⟩,
       ⟨3, 2, 9, "eve@example.com".toList, "c".toList, 30⟩] ∧
    (GetNonCampaignStats false
      (ClearNonCampaignReports noClearFaults sampleReports 1 7).1 1).1.ReportCount =
      (reportsOf (ClearNonCampaignReports noClearFaults sampleReports 1 7).1 1).length :=
  have hok : ClearNonCampaignReports noClearFaults sampleReports 1 7 =
      ((ClearNonCampaignReports noClearFaults sampleReports 1 7).1, none) := by decide
  ⟨by decide, by decide,
    ((C14_clear_reports noClearFaults sampleReports _ 1 7 hok).2 (by decide)).2.2
      ⟨1, 3, 40⟩ (by decide)⟩

theorem find_append_none (rows : List NonCampaignStats) (userId : Int)
    (row : NonCampaignStats) (hrow : row.UserId = userId)
    (h : rows.find? (fun s => s.UserId = userId) = none) :
    (rows ++ [row]).find? (fun s => s.UserId = userId) = some row := by
  rw [List.find?_append, h]
  simp [hrow]

theorem find_map_update (rows : List NonCampaignStats) (userId : Int)
    (new s : NonCampaignStats) (hnew : new.UserId = userId)
    (h : rows.find? (fun s => s.UserId = userId) = some s) :
    (rows.map (fun s => if s.UserId = userId then new else s)).find?
      (fun s => s.UserId = userId) = some new := by
  induction rows with
  | nil => simp at h
  | cons row rest ih =>
    by_cases hr : row.UserId = userId
    · simp [List.find?_cons, hr, hnew]
    · have hd : decide (row.UserId = userId) = false := by simpa using hr
      simp only [List.find?_cons, hd] at h
      simp only [List.map_cons, hr, if_false, List.find?_cons, hd]
      exact ih h

/-- C15: every successful `RecordNonCampaignReport(u, i, reporter, subject)` adds
exactly one report row, which carries `(u, i, reporter, subject)` and the time
of the call.  When `u` had no stats row it adds the stats row of `u` with
`report_count` 1; when `u` had the stats row `s` it leaves that row with the
`report_count` of `s` plus one; in both cases `last_reported_at` is the time of
the call. -/
theorem C15_record_report (faults : RecordFaults) (nowReport nowStats : Time)
    (db out : NonCampaignDB) (u i : Int) (reporter subject : GoString)
    (hok : RecordNonCampaignReport faults nowReport nowStats db u i reporter subject =
      (out, none)) :
    out.reports = db.reports ++ [⟨db.nextId, u, i, reporter, subject, nowReport⟩] ∧
    (findStats db u = none →
      out.stats = db.stats ++ [⟨u, 1, nowStats⟩] ∧
      findStats out u = some ⟨u, 1, nowStats⟩) ∧
    (∀ s, findStats db u = some s →
      out.stats = db.stats.map (fun row =>
        if row.UserId = u then ⟨s.UserId, s.ReportCount + 1, nowStats⟩ else row) ∧
      findStats out u = some ⟨u, s.ReportCount + 1, nowStats⟩) := by
  unfold RecordNonCampaignReport at hok
  by_cases hcr : faults.createReport = true
  · simp [hcr] at hok
  simp only [hcr, Bool.false_eq_true, if_false] at hok
  have htx : ∀ (reports : List NonCampaignReport) (nextId : Int),
      findStats ⟨reports, db.stats, nextId⟩ u = findStats db u := fun _ _ => rfl
  simp only [htx] at hok
  cases hfind : findStats db u with
  | none =>
    rw [hfind] at hok
    simp only [ite_self, Option.isSome_none, Bool.false_eq_true, or_false] at hok
    by_cases hcs : faults.createStats = true
    · simp [hcs] at hok
    simp only [hcs, Bool.false_eq_true, if_false] at hok
    have hout := commitTx_ok _ _ _ _ hok
    subst hout
    refine ⟨rfl, fun _ => ⟨rfl, ?_⟩, fun s hs => (by cases hs)⟩
    exact find_append_none db.stats u ⟨u, 1, nowStats⟩ rfl hfind
  | some s =>
    have hsu : s.UserId = u := by
      have := List.find?_some hfind
      simpa using this
    rw [hfind] at hok
    by_cases hff : faults.findStats = true
    · simp [hff] at hok
    simp only [hff, Bool.false_eq_true, if_false] at hok
    by_cases hss : faults.saveStats = true
    · simp [hss] at hok
    simp only [hss, Bool.false_eq_true, if_false] at hok
    have hout := commitTx_ok _ _ _ _ hok
    subst hout
    refine ⟨rfl, fun h => (by cases h), ?_⟩
    intro s2 hs2
    cases hs2
    refine ⟨rfl, ?_⟩
    have := find_map_update db.stats u ⟨s.UserId, s.ReportCount + 1, nowStats⟩ s hsu hfind
    rw [hsu] at this
    unfold findStats
    simp only [hsu]
    exact this

/-- C15 at the sample database: a report for user 1, who has the count 3, and a
report for user 5, who has no stats row. -/
theorem C15_record_report_witness :
    findStats (RecordNonCampaignReport noRecordFaults 50 51 sampleReports 1 7
      "bob@example.com".toList "e".toList).1 1 = some ⟨1, 4, 51⟩ ∧
    findStats (RecordNonCampaignReport noRecordFaults 50 51 sampleReports 5 7
      "bob@example.com".toList "e".toList).1 5 = some ⟨5, 1, 51⟩ :=
  have h1 : RecordNonCampaignReport noRecordFaults 50 51 sampleReports 1 7
      "bob@example.com".toList "e".toList =
      ((RecordNonCampaignReport noRecordFaults 50 51 sampleReports 1 7
        "bob@example.com".toList "e".toList).1, none) := by decide
  have h5 : RecordNonCampaignReport noRecordFaults 50 51 sampleReports 5 7
      "bob@example.com".toList "e".toList =
      ((RecordNonCampaignReport noRecordFaults 50 51 sampleReports 5 7
        "bob@example.com".toList "e".toList).1, none) := by decide
  ⟨((C15_record_report noRecordFaults 50 51 sampleReports _ 1 7 _ _ h1).2.2
      ⟨1, 3, 40⟩ (by decide)).2,
    ((C15_record_report noRecordFaults 50 51 sampleReports _ 5 7 _ _ h5).2.1
      (by decide)).2⟩

/-! ## C24 and C27 — the stats of the non-campaign log -/

/-- C24: for a user without stats row `GetNonCampaignStats` returns no error and
the stats value with the requested user id, `report_count` 0 and the zero
`last_reported_at`; for a user with a stats row it returns that row and no
error. -/
theorem C24_stats_default_or_row (db : NonCampaignDB) (userId : Int) :
    (findStats db userId = none →
      GetNonCampaignStats false db userId =
        ({ UserId := userId, ReportCount := 0, LastReportedAt := 0 }, none)) ∧
    (∀ s, findStats db userId = some s →
      GetNonCampaignStats false db userId = (s, none)) := by
  constructor
  · intro h
    simp [GetNonCampaignStats, h]
  · intro s h
    simp [GetNonCampaignStats, h]

/-- C24 at the sample database: user 5 has no stats row, user 1 has the row with
the count 3. -/
theorem C24_stats_default_or_row_witness :
    GetNonCampaignStats false sampleReports 5 = (⟨5, 0, 0⟩, none) ∧
    GetNonCampaignStats false sampleReports 1 = (⟨1, 3, 40⟩, none) :=
  ⟨(C24_stats_default_or_row sampleReports 5).1 (by decide),
    (C24_stats_default_or_row sampleReports 1).2 ⟨1, 3, 40⟩ (by decide)⟩

theorem statsCount_eq (db : NonCampaignDB) (userId : Int) :
    (GetNonCampaignStats false db userId).1.ReportCount =
      match findStats db userId with
      | some s => s.ReportCount
      | none => 0 := by
  unfold GetNonCampaignStats
  cases findStats db userId <;> simp

theorem find_map_keep (rows : List NonCampaignStats) (userId other : Int)
    (f : NonCampaignStats → NonCampaignStats) (hne : other ≠ userId)
    (hf : ∀ s, s.UserId = userId → (f s).UserId = userId) :
    (rows.map (fun s => if s.UserId = userId then f s else s)).find?
        (fun s => s.UserId = other) =
      rows.find? (fun s => s.UserId = other) := by
  induction rows with
  | nil => rfl
  | cons row rest ih =>
    by_cases hr : row.UserId = userId
    · have h1 : decide (row.UserId = other) = false := by
        simpa using fun h => hne (h.symm.trans hr)
      have h2 : decide ((f row).UserId = other) = false := by
        simpa using fun h => hne (h.symm.trans (hf row hr))
      rw [List.map_cons, if_pos hr, List.find?_cons, List.find?_cons, h2, h1]
      exact ih
    · simp only [List.map_cons, hr, if_false, List.find?_cons]
      rw [ih]

theorem find_append_other (rows : List NonCampaignStats) (other : Int)
    (row : NonCampaignStats) (hne : row.UserId ≠ other) :
    (rows ++ [row]).find? (fun s => s.UserId = other) =
      rows.find? (fun s => s.UserId = other) := by
  rw [List.find?_append]
  have h : decide (row.UserId = other) = false := by simpa using hne
  cases rows.find? (fun s => s.UserId = other) <;> simp [List.find?_cons, h]

theorem filter_user_filter_other (reports : List NonCampaignReport) (userId other k : Int)
    (hne : other ≠ userId) :
    (reports.filter (fun r => !clearMatches userId k r)).filter (fun r => r.UserId = other) =
      reports.filter (fun r => r.UserId = other) := by
  rw [List.filter_filter]
  apply List.filter_congr
  intro r _
  by_cases h : r.UserId = other
  · have : r.UserId ≠ userId := fun h2 => hne (h.symm.trans h2)
    simp [clearMatches, h, hne]
  · simp [h]

/-- A successful `RecordNonCampaignReport` keeps the counts in step with the
rows. -/
theorem record_countsAgree (faults : RecordFaults) (nowReport nowStats : Time)
    (db out : NonCampaignDB) (u i : Int) (reporter subject : GoString)
    (hinv : CountsAgree db)
    (hok : RecordNonCampaignReport faults nowReport nowStats db u i reporter subject =
      (out, none)) : CountsAgree out := by
  intro v
  have hv := hinv v
  rw [statsCount_eq] at hv ⊢
  unfold RecordNonCampaignReport at hok
  by_cases hcr : faults.createReport = true
  · simp [hcr] at hok
  simp only [hcr, Bool.false_eq_true, if_false] at hok
  have hfind : findStats ⟨db.reports ++ [⟨db.nextId, u, i, reporter, subject, nowReport⟩],
      db.stats, db.nextId + 1⟩ u = findStats db u := rfl
  rw [hfind] at hok
  have hrep : ∀ (st : List NonCampaignStats),
      reportsOf ⟨db.reports ++ [⟨db.nextId, u, i, reporter, subject, nowReport⟩], st,
        db.nextId + 1⟩ v =
      if u = v then reportsOf db v ++ [⟨db.nextId, u, i, reporter, subject, nowReport⟩]
      else reportsOf db v := by
    intro st
    by_cases huv : u = v
    · simp [reportsOf, List.filter_append, huv]
    · simp [reportsOf, List.filter_append, huv]
  cases hfs : findStats db u with
  | none =>
    rw [hfs] at hok
    simp only [ite_self, Option.isSome_none, Bool.false_eq_true, or_false] at hok
    by_cases hcs : faults.createStats = true
    · simp [hcs] at hok
    simp only [hcs, Bool.false_eq_true, if_false] at hok
    have hout := commitTx_ok _ _ _ _ hok
    subst hout
    rw [hrep]
    by_cases huv : u = v
    · subst huv
      rw [hfs] at hv
      have h0 : (reportsOf db u).length = 0 := by
        have : ((reportsOf db u).length : Int) = 0 := by simpa using hv.symm
        exact_mod_cast this
      have hnew : findStats ⟨db.reports ++ [⟨db.nextId, u, i, reporter, subject, nowReport⟩],
          db.stats ++ [⟨u, 1, nowStats⟩], db.nextId + 1⟩ u = some ⟨u, 1, nowStats⟩ :=
        find_append_none db.stats u ⟨u, 1, nowStats⟩ rfl hfs
      rw [hnew]
      simp [h0]
    · have hsame : findStats ⟨db.reports ++ [⟨db.nextId, u, i, reporter, subject, nowReport⟩],
          db.stats ++ [⟨u, 1, nowStats⟩], db.nextId + 1⟩ v = findStats db v :=
        find_append_other db.stats v ⟨u, 1, nowStats⟩ huv
      rw [hsame, if_neg huv]
      exact hv
  | some s =>
    rw [hfs] at hok
    by_cases hff : faults.findStats = true
    · simp only [hff, if_true] at hok
      simp at hok
    simp only [hff, Bool.false_eq_true, if_false] at hok
    by_cases hss : faults.saveStats = true
    · simp [hss] at hok
    simp only [hss, Bool.false_eq_true, if_false] at hok
    have hout := commitTx_ok _ _ _ _ hok
    subst hout
    rw [hrep]
    have hsu : s.UserId = u := by
      have := List.find?_some hfs
      simpa using this
    by_cases huv : u = v
    · subst huv
      rw [hfs] at hv
      have hnew : findStats ⟨db.reports ++ [⟨db.nextId, u, i, reporter, subject, nowReport⟩],
          db.stats.map (fun row => if row.UserId = u then
            { s with ReportCount := s.ReportCount + 1, LastReportedAt := nowStats }
            else row), db.nextId + 1⟩ u =
          some { s with ReportCount := s.ReportCount + 1, LastReportedAt := nowStats } :=
        find_map_update db.stats u _ s hsu hfs
      rw [hnew]
      simp only [if_true, List.length_append, List.length_singleton] at hv ⊢
      rw [hv]
      push_cast
      rfl
    · have hsame : findStats ⟨db.reports ++ [⟨db.nextId, u, i, reporter, subject, nowReport⟩],
          db.stats.map (fun row => if row.UserId = u then
            { s with ReportCount := s.ReportCount + 1, LastReportedAt := nowStats }
            else row), db.nextId + 1⟩ v = findStats db v :=
        find_map_keep db.stats u v
          (fun _ => { s with ReportCount := s.ReportCount + 1, LastReportedAt := nowStats })
          (fun h => huv h.symm) (fun _ _ => hsu)
      rw [hsame, if_neg huv]
      exact hv

theorem filter_user_cleared (reports : List NonCampaignReport) (userId k : Int)
    (hk : ¬ k > 0) :
    (reports.filter (fun r => !clearMatches userId k r)).filter
      (fun r => r.UserId = userId) = [] := by
  rw [List.filter_filter, List.filter_eq_nil_iff]
  intro r _
  by_cases h : r.UserId = userId
  · simp [clearMatches, h, hk]
  · simp [h]

/-- A successful `ClearNonCampaignReports` keeps the counts in step with the
rows. -/
theorem clear_countsAgree (faults : ClearFaults) (db out : NonCampaignDB) (u k : Int)
    (hinv : CountsAgree db)
    (hok : ClearNonCampaignReports faults db u k = (out, none)) : CountsAgree out := by
  have hstep : ∀ n : Int,
      (k = 0 → n = 0) →
      (k ≠ 0 → n = (((db.reports.filter (fun r => !clearMatches u k r)).filter
        (fun r => r.UserId = u)).length : Nat)) →
      CountsAgree ⟨db.reports.filter (fun r => !clearMatches u k r),
        setReportCount db.stats u n, db.nextId⟩ := by
    intro n h0 hn v
    have hv := hinv v
    rw [statsCount_eq] at hv ⊢
    by_cases huv : u = v
    · subst huv
      have hfind : findStats ⟨db.reports.filter (fun r => !clearMatches u k r),
          setReportCount db.stats u n, db.nextId⟩ u =
          (findStats db u).map (fun s => { s with ReportCount := n }) :=
        find_setReportCount db.stats u n
      rw [hfind]
      have hlen : n = (((db.reports.filter (fun r => !clearMatches u k r)).filter
          (fun r => r.UserId = u)).length : Nat) := by
        by_cases hk : k = 0
        · rw [h0 hk, filter_user_cleared db.reports u k (by omega)]
          rfl
        · exact hn hk
      cases hfs : findStats db u with
      | some s =>
        simp only [Option.map_some', reportsOf]
        exact hlen
      | none =>
        rw [hfs] at hv
        simp only [Option.map_none', reportsOf]
        have hzero : (reportsOf db u).length = 0 := by
          have : ((reportsOf db u).length : Int) = 0 := by simpa using hv.symm
          exact_mod_cast this
        have hnil : reportsOf db u = [] := List.length_eq_zero.mp hzero
        have hsub : (db.reports.filter (fun r => !clearMatches u k r)).filter
            (fun r => r.UserId = u) = [] := by
          rw [List.filter_eq_nil_iff]
          intro r hr
          have hr2 := (List.mem_filter.mp hr).1
          have := List.filter_eq_nil_iff.mp hnil r hr2
          exact this
        rw [hsub]
        rfl
    · have hfind : findStats ⟨db.reports.filter (fun r => !clearMatches u k r),
          setReportCount db.stats u n, db.nextId⟩ v = findStats db v :=
        find_map_keep db.stats u v (fun s => { s with ReportCount := n })
          (fun h => huv h.symm) (fun _ h => h)
      rw [hfind]
      have hrows : reportsOf ⟨db.reports.filter (fun r => !clearMatches u k r),
          setReportCount db.stats u n, db.nextId⟩ v = reportsOf db v :=
        filter_user_filter_other db.reports u v k (fun h => huv h.symm)
      rw [hrows]
      exact hv
  unfold ClearNonCampaignReports at hok
  by_cases hdel : faults.delete = true
  · simp [hdel] at hok
  simp only [hdel, Bool.false_eq_true, if_false] at hok
  by_cases hk : k = 0
  · simp only [hk, if_true] at hok
    by_cases hup : faults.updateStats = true
    · simp [hup] at hok
    simp only [hup, Bool.false_eq_true, if_false] at hok
    have hout := commitTx_ok _ _ _ _ hok
    subst hout
    subst hk
    exact hstep 0 (fun _ => rfl) (fun h => absurd rfl h)
  · simp only [hk, if_false] at hok
    by_cases hcnt : faults.count = true
    · simp [hcnt] at hok
    simp only [hcnt, Bool.false_eq_true, if_false] at hok
    by_cases hup : faults.updateStats = true
    · simp [hup] at hok
    simp only [hup, Bool.false_eq_true, if_false] at hok
    have hout := commitTx_ok _ _ _ _ hok
    subst hout
    exact hstep _ (fun h => absurd h hk) (fun _ => rfl)

/-- C27: in every state of the store that successful `RecordNonCampaignReport`
and `ClearNonCampaignReports` calls produce from the empty store, for any users
and any mailbox ids, negative ones included, the `report_count` that
`GetNonCampaignStats` returns for a user is the number of the
`NonCampaignReport` rows of that user. -/
theorem C27_count_matches_rows (db : NonCampaignDB) (h : StoreReachable db)
    (userId : Int) :
    (GetNonCampaignStats false db userId).1.ReportCount =
      ((reportsOf db userId).length : Nat) := by
  have hall : CountsAgree db := by
    induction h with
    | empty => intro v; rfl
    | record faults nowReport nowStats db out u i reporter subject _ hok ih =>
      exact record_countsAgree faults nowReport nowStats db out u i reporter subject ih hok
    | clear faults db out u k _ hok ih =>
      exact clear_countsAgree faults db out u k ih hok
  exact hall userId

/-- C27 at the store after two reports of user 1 and a clear with the mailbox id
-3, which removes both rows: the count is 0. -/
theorem C27_count_matches_rows_witness :
    StoreReachable clearedStore ∧
    (GetNonCampaignStats false clearedStore 1).1.ReportCount = 0 ∧
    (reportsOf clearedStore 1).length = 0 :=
  have hreach : StoreReachable clearedStore :=
    StoreReachable.clear noClearFaults
      (RecordNonCampaignReport noRecordFaults 20 21
        (RecordNonCampaignReport noRecordFaults 10 11 emptyStore 1 7
          "bob@example.com".toList "a".toList).1
        1 8 "bob@example.com".toList "b".toList).1
      clearedStore 1 (-3)
      (StoreReachable.record noRecordFaults 20 21
        (RecordNonCampaignReport noRecordFaults 10 11 emptyStore 1 7
          "bob@example.com".toList "a".toList).1
        (RecordNonCampaignReport noRecordFaults 20 21
          (RecordNonCampaignReport noRecordFaults 10 11 emptyStore 1 7
            "bob@example.com".toList "a".toList).1
          1 8 "bob@example.com".toList "b".toList).1
        1 8 "bob@example.com".toList "b".toList
        (StoreReachable.record noRecordFaults 10 11 emptyStore
          (RecordNonCampaignReport noRecordFaults 10 11 emptyStore 1 7
            "bob@example.com".toList "a".toList).1
          1 7 "bob@example.com".toList "a".toList StoreReachable.empty (by decide))
        (by decide))
      (by decide)
  ⟨hreach, (C27_count_matches_rows clearedStore hreach 1).trans (by decide), by decide⟩


/-! ## C29 — the rid in the URLs of the template context -/

theorem Split_append_sep (sep : Char) (a b : GoString) :
    Split sep (a ++ sep :: b) = Split sep a ++ Split sep b := by
  induction a with
  | nil => simp [Split]
  | cons c cs ih =>
    by_cases h : c = sep
    · simp [Split, h, ih]
    · show Split sep (c :: (cs ++ sep :: b)) = Split sep (c :: cs) ++ Split sep b
      cases hs : Split sep cs with
      | nil => exact absurd hs (Split_ne_nil sep cs)
      | cons p ps =>
        simp only [Split, h, if_false, ih, hs]
        rfl

theorem Split_no_sep (sep : Char) (s : GoString) (h : sep ∉ s) : Split sep s = [s] := by
  induction s with
  | nil => rfl
  | cons c cs ih =>
    have hc : ¬ c = sep := fun e => h (by rw [e]; exact List.mem_cons_self _ _)
    have hcs : sep ∉ cs := fun m => h (List.mem_cons_of_mem _ m)
    simp [Split, hc, ih hcs]

theorem Cut_append_sep (sep : Char) (a b : GoString) (h : sep ∉ a) :
    Cut sep (a ++ sep :: b) = (a, b) := by
  induction a with
  | nil => simp [Cut]
  | cons c cs ih =>
    have hc : ¬ c = sep := fun e => h (by rw [e]; exact List.mem_cons_self _ _)
    have hcs : sep ∉ cs := fun m => h (List.mem_cons_of_mem _ m)
    simp [Cut, hc, ih hcs]

theorem isAlphanumName_spec (s : GoString) (h : isAlphanumName s = true) :
    s ≠ [] ∧ ∀ c ∈ s, c.isAlphanum = true := by
  simp only [isAlphanumName, Bool.and_eq_true, Bool.not_eq_true', List.all_eq_true] at h
  refine ⟨?_, h.2⟩
  intro hnil
  rw [hnil] at h
  simp at h

theorem not_mem_of_alphanum (s : GoString) (x : Char) (hx : x.isAlphanum = false)
    (h : ∀ c ∈ s, c.isAlphanum = true) : x ∉ s := by
  intro hmem
  rw [h x hmem] at hx
  cases hx

theorem QueryUnescape_alphanum (s : GoString) (h : ∀ c ∈ s, c.isAlphanum = true) :
    QueryUnescape s = some s := by
  induction s with
  | nil => rfl
  | cons c cs ih =>
    have hc := h c (List.mem_cons_self _ _)
    have hcs : ∀ x ∈ cs, x.isAlphanum = true := fun x hx => h x (List.mem_cons_of_mem _ hx)
    have hpct : c ≠ '%' := fun e => by rw [e] at hc; exact absurd hc (by decide)
    have hplus : c ≠ '+' := fun e => by rw [e] at hc; exact absurd hc (by decide)
    unfold QueryUnescape
    split
    all_goals first
      | exact absurd rfl hpct
      | (rename_i heq
         cases heq <;> first
           | exact absurd rfl hpct
           | simp [ih hcs, hplus])

theorem pair_no_sep (p rid : GoString) (x : Char) (hx : x.isAlphanum = false)
    (hxe : x ≠ '=') (hp : ∀ c ∈ p, c.isAlphanum = true)
    (hr : ∀ c ∈ rid, c.isAlphanum = true) : x ∉ p ++ '=' :: rid := by
  intro hmem
  rcases List.mem_append.mp hmem with h | h
  · exact not_mem_of_alphanum p x hx hp h
  · rcases List.mem_cons.mp h with h | h
    · exact hxe h
    · exact not_mem_of_alphanum rid x hx hr h

/-- The parameter name `setupContext` selects in a query that ends in the pair
`p=rid`. -/
theorem urlparamOf_pair_last (e p rid : GoString) (hp : isAlphanumName p = true)
    (hr : isAlphanumName rid = true) :
    urlparamOf (p ++ '=' :: rid) = p ∧ urlparamOf (e ++ '&' :: (p ++ '=' :: rid)) = p := by
  obtain ⟨hpne, hpa⟩ := isAlphanumName_spec p hp
  obtain ⟨_, hra⟩ := isAlphanumName_spec rid hr
  have hamp : '&' ∉ p ++ '=' :: rid := pair_no_sep p rid '&' (by decide) (by decide) hpa hra
  have hcut : Cut '=' (p ++ '=' :: rid) = (p, rid) :=
    Cut_append_sep '=' p rid (not_mem_of_alphanum p '=' (by decide) hpa)
  have hcontains : Contains (p ++ '=' :: rid) '=' = true := by
    simp [Contains]
  have hspec : ∀ q, (Split '&' q).getLastD [] = p ++ '=' :: rid → specParamName q = p := by
    intro q hq
    simp only [specParamName, hq, hcontains, hcut, true_and]
    rw [if_pos hpne]
  constructor
  · rw [urlparamOf_eq_spec]
    apply hspec
    rw [Split_no_sep '&' _ hamp]
    rfl
  · rw [urlparamOf_eq_spec]
    apply hspec
    rw [Split_append_sep, Split_no_sep '&' _ hamp]
    simp [List.getLastD_eq_getLast?]

theorem parseQueryStep_pair (acc : Values × Option GoString) (p rid : GoString)
    (hp : isAlphanumName p = true) (hr : isAlphanumName rid = true) :
    parseQueryStep acc (p ++ '=' :: rid) = (acc.1.Add p rid, acc.2) := by
  obtain ⟨hpne, hpa⟩ := isAlphanumName_spec p hp
  obtain ⟨_, hra⟩ := isAlphanumName_spec rid hr
  have hsemi : Contains (p ++ '=' :: rid) ';' = false := by
    have := pair_no_sep p rid ';' (by decide) (by decide) hpa hra
    simpa [Contains] using this
  have hcut : Cut '=' (p ++ '=' :: rid) = (p, rid) :=
    Cut_append_sep '=' p rid (not_mem_of_alphanum p '=' (by decide) hpa)
  have hne : p ++ '=' :: rid ≠ [] := by simp
  simp only [parseQueryStep, hsemi, Bool.false_eq_true, if_false, hne, hcut,
    QueryUnescape_alphanum p hpa, QueryUnescape_alphanum rid hra]

theorem Values.Get_Add_new (v : Values) (key value : GoString)
    (h : v.lookup key = none) : Values.Get (Values.Add v key value) key = value := by
  have hl : (v ++ [(key, [value])]).lookup key = some [value] := by
    induction v with
    | nil => simp [List.lookup]
    | cons e rest ih =>
      obtain ⟨k, x⟩ := e
      by_cases hk : key = k
      · subst hk
        simp [List.lookup] at h
      · have hb : (key == k) = false := by simpa using hk
        simp only [List.lookup, hb] at h
        simp only [List.cons_append, List.lookup, hb]
        exact ih h
  simp only [Values.Add, h, Values.Get, hl]

/-- The value `setupContext` reads under the name `p` in a query that is the pair
`p=rid`, or that ends in it after a query without parameter `p`. -/
theorem ParseQuery_pair_last (e p rid : GoString) (hp : isAlphanumName p = true)
    (hr : isAlphanumName rid = true) :
    (ParseQuery (p ++ '=' :: rid)).1.Get p = rid ∧
    ((ParseQuery e).1.lookup p = none →
      (ParseQuery (e ++ '&' :: (p ++ '=' :: rid))).1.Get p = rid) := by
  obtain ⟨_, hpa⟩ := isAlphanumName_spec p hp
  obtain ⟨_, hra⟩ := isAlphanumName_spec rid hr
  have hamp : '&' ∉ p ++ '=' :: rid := pair_no_sep p rid '&' (by decide) (by decide) hpa hra
  constructor
  · simp only [ParseQuery, Split_no_sep '&' _ hamp, List.foldl_cons, List.foldl_nil,
      parseQueryStep_pair _ p rid hp hr]
    exact Values.Get_Add_new [] p rid rfl
  · intro hkey
    simp only [ParseQuery, Split_append_sep, Split_no_sep '&' _ hamp, List.foldl_append,
      List.foldl_cons, List.foldl_nil, parseQueryStep_pair _ p rid hp hr]
    exact Values.Get_Add_new _ p rid hkey

theorem encodedQuery_cases (env : TemplateEnv) (templateQuery rid : GoString) :
    (Values.Encode (ParseQuery templateQuery).1 = [] ∧
      encodedQuery env templateQuery rid = env.RecipientParameter ++ '=' :: rid) ∨
    (Values.Encode (ParseQuery templateQuery).1 ≠ [] ∧
      encodedQuery env templateQuery rid =
        Values.Encode (ParseQuery templateQuery).1 ++
          '&' :: (env.RecipientParameter ++ '=' :: rid)) := by
  have h1 : "=".toList = ['='] := rfl
  have h2 : "&".toList = ['&'] := rfl
  by_cases h : Values.Encode (ParseQuery templateQuery).1 = []
  · left
    refine ⟨h, ?_⟩
    simp only [encodedQuery, h, if_true, h1, List.append_assoc, List.singleton_append]
  · right
    refine ⟨h, ?_⟩
    simp only [encodedQuery, h, if_false, h1, h2, List.append_assoc, List.singleton_append]
    rfl

/-- The two URLs of a template context that `NewPhishingTemplateContext` built
from the parsed template URL `u`. -/
theorem NewPhishingTemplateContext_urls (env : TemplateEnv) (ctx : TemplateContext)
    (r : BaseRecipient) (rid templateURL : GoString) (u : URL)
    (ptx : PhishingTemplateContext)
    (hbuilt : NewPhishingTemplateContext env ctx r rid = .ok ptx)
    (htemplate : env.ExecuteTemplate ctx.BaseURL r = .ok templateURL)
    (hparse : env.urlParse templateURL = .ok u) :
    ptx.URL = URL.String env { u with RawQuery := encodedQuery env u.RawQuery rid } ∧
    ptx.TrackingURL = URL.String env
      { u with Path := env.pathJoin u.Path "/track".toList,
               RawQuery := encodedQuery env u.RawQuery rid } := by
  unfold NewPhishingTemplateContext at hbuilt
  cases haddr : env.ParseAddress ctx.FromAddress with
  | error e =>
    rw [haddr] at hbuilt
    cases hbuilt
  | ok f =>
    rw [haddr] at hbuilt
    simp only [htemplate, hparse] at hbuilt
    by_cases hqr : ctx.QRSize = []
    · simp only [hqr, ne_eq, not_true_eq_false, if_false] at hbuilt
      cases hbuilt
      exact ⟨rfl, rfl⟩
    · simp only [ne_eq, hqr, not_false_eq_true, if_true] at hbuilt
      split at hbuilt
      · cases hbuilt
      · cases hbuilt
        exact ⟨rfl, rfl⟩

/-! ### The query of the base URL, encoded again -/

theorem upperhex_alphanum (n : Nat) : (upperhex n).isAlphanum = true := by
  by_cases h : n < 16
  · interval_cases n <;> decide
  · have hlen : "0123456789ABCDEF".toList.length ≤ n := by
      have : "0123456789ABCDEF".toList.length = 16 := by decide
      omega
    simp only [upperhex, List.getD_eq_getElem?_getD, List.getElem?_eq_none hlen]
    decide

theorem upperhex_hex (n : Nat) (h : n < 16) :
    ishex (upperhex n) = true ∧ unhex (upperhex n) = n := by
  interval_cases n <;> decide

theorem upperhex_large (n : Nat) (h : 16 ≤ n) : upperhex n = '0' := by
  have hlen : "0123456789ABCDEF".toList.length ≤ n := by
    have : "0123456789ABCDEF".toList.length = 16 := by decide
    omega
  simp only [upperhex, List.getD_eq_getElem?_getD, List.getElem?_eq_none hlen]
  rfl

theorem QueryUnescape_cons (c : Char) (rest : GoString) (h : c ≠ '%') :
    QueryUnescape (c :: rest) =
      (QueryUnescape rest).map (fun t => (if c = '+' then ' ' else c) :: t) := by
  conv_lhs => unfold QueryUnescape
  split
  all_goals first
    | exact absurd rfl h
    | (rename_i heq
       cases heq <;> first
         | exact absurd rfl h
         | rfl)

theorem QueryUnescape_percent (a b : Char) (rest : GoString)
    (ha : ishex a = true) (hb : ishex b = true) :
    QueryUnescape ('%' :: a :: b :: rest) =
      (QueryUnescape rest).map (fun t => Char.ofNat (16 * unhex a + unhex b) :: t) := by
  rw [QueryUnescape]
  simp [ha, hb]

theorem QueryEscape_cons (c : Char) (cs : GoString) :
    QueryEscape (c :: cs) =
      (if shouldEscape c then
        if c = ' ' then ['+'] else ['%', upperhex (c.toNat / 16), upperhex (c.toNat % 16)]
      else [c]) ++ QueryEscape cs := by
  simp only [QueryEscape, List.flatMap_cons]

/-- What `QueryUnescape` reads back from one escaped byte `c`: a byte that is `c`
whenever it is a letter or a digit. -/
theorem QueryUnescape_escaped_char (c : Char) (rest : GoString) :
    ∃ c2, QueryUnescape
        ((if shouldEscape c then
          if c = ' ' then ['+'] else ['%', upperhex (c.toNat / 16), upperhex (c.toNat % 16)]
        else [c]) ++ rest) = (QueryUnescape rest).map (fun t => c2 :: t) ∧
      (c2.isAlphanum = true → c2 = c) := by
  cases hesc : shouldEscape c with
  | false =>
    have hpct : c ≠ '%' := fun e => by rw [e] at hesc; exact absurd hesc (by decide)
    have hplus : c ≠ '+' := fun e => by rw [e] at hesc; exact absurd hesc (by decide)
    refine ⟨c, ?_, fun _ => rfl⟩
    simp only [Bool.false_eq_true, if_false, List.singleton_append]
    rw [QueryUnescape_cons c rest hpct]
    simp [hplus]
  | true =>
    by_cases hsp : c = ' '
    · refine ⟨' ', ?_, fun _ => hsp.symm⟩
      simp only [hsp, if_true, List.singleton_append]
      rw [QueryUnescape_cons '+' rest (by decide)]
      simp
    · simp only [if_true, hsp, if_false, List.cons_append, List.nil_append]
      have hlo := upperhex_hex (c.toNat % 16) (Nat.mod_lt _ (by decide))
      by_cases hbyte : c.toNat / 16 < 16
      · have hhi := upperhex_hex (c.toNat / 16) hbyte
        refine ⟨Char.ofNat (16 * unhex (upperhex (c.toNat / 16)) +
          unhex (upperhex (c.toNat % 16))), QueryUnescape_percent _ _ rest hhi.1 hlo.1, ?_⟩
        intro _
        rw [hhi.2, hlo.2, Nat.div_add_mod]
        exact Char.ofNat_toNat c
      · have hbig := upperhex_large (c.toNat / 16) (by omega)
        refine ⟨Char.ofNat (16 * unhex (upperhex (c.toNat / 16)) +
          unhex (upperhex (c.toNat % 16))), ?_, ?_⟩
        · apply QueryUnescape_percent _ _ rest _ hlo.1
          rw [hbig]
          decide
        · intro halnum
          exfalso
          rw [hbig, hlo.2] at halnum
          have hsmall : c.toNat % 16 < 16 := Nat.mod_lt _ (by decide)
          have hz : unhex '0' = 0 := by decide
          rw [hz] at halnum
          simp only [Nat.mul_zero, Nat.zero_add] at halnum
          revert halnum
          generalize c.toNat % 16 = m at hsmall
          interval_cases m <;> decide

/-- What `QueryUnescape` reads back from `QueryEscape(s)`: a text that is `s`
whenever it holds letters and digits only. -/
theorem QueryUnescape_QueryEscape (s : GoString) :
    ∃ s2, QueryUnescape (QueryEscape s) = some s2 ∧
      ((∀ c ∈ s2, c.isAlphanum = true) → s2 = s) := by
  induction s with
  | nil => exact ⟨[], rfl, fun _ => rfl⟩
  | cons c cs ih =>
    obtain ⟨cs2, hcs, hback⟩ := ih
    obtain ⟨c2, hc, hcback⟩ := QueryUnescape_escaped_char c (QueryEscape cs)
    refine ⟨c2 :: cs2, ?_, ?_⟩
    · rw [QueryEscape_cons, hc, hcs]
      rfl
    · intro hall
      rw [hcback (hall c2 (List.mem_cons_self _ _)),
        hback (fun x hx => hall x (List.mem_cons_of_mem _ hx))]

/-- A text that `QueryEscape` returns holds none of `&`, `;` and `=`. -/
theorem QueryEscape_no_separator (s : GoString) (x : Char)
    (hx : x = '&' ∨ x = ';' ∨ x = '=') : x ∉ QueryEscape s := by
  have hxa : x.isAlphanum = false := by rcases hx with h | h | h <;> rw [h] <;> decide
  have hxe : shouldEscape x = true := by rcases hx with h | h | h <;> rw [h] <;> decide
  have hxp : x ≠ '+' ∧ x ≠ '%' := by rcases hx with h | h | h <;> rw [h] <;> decide
  induction s with
  | nil => simp [QueryEscape]
  | cons c cs ih =>
    rw [QueryEscape_cons]
    intro hmem
    rcases List.mem_append.mp hmem with h | h
    · cases hesc : shouldEscape c with
      | false =>
        simp only [hesc, Bool.false_eq_true, if_false, List.mem_singleton] at h
        rw [h, hesc] at hxe
        cases hxe
      | true =>
        by_cases hsp : c = ' '
        · subst hsp
          simp only [hesc, if_true, List.mem_singleton] at h
          exact hxp.1 h
        · simp only [hesc, if_true, hsp, if_false, List.mem_cons, List.mem_singleton,
            List.not_mem_nil, or_false] at h
          rcases h with h | h | h
          · exact hxp.2 h
          · rw [h, upperhex_alphanum] at hxa
            cases hxa
          · rw [h, upperhex_alphanum] at hxa
            cases hxa
    · exact ih h

theorem intercalate_pair (sep a b : GoString) (rest : List GoString) :
    List.intercalate sep (a :: b :: rest) = a ++ sep ++ List.intercalate sep (b :: rest) := by
  simp [List.intercalate, List.intersperse]

/-- Splitting at `&` gives back the pieces that were joined by `&`. -/
theorem Split_intercalate (pieces : List GoString) (hne : pieces ≠ [])
    (hno : ∀ piece ∈ pieces, '&' ∉ piece) :
    Split '&' (List.intercalate ['&'] pieces) = pieces := by
  induction pieces with
  | nil => exact absurd rfl hne
  | cons a rest ih =>
    cases rest with
    | nil =>
      have : List.intercalate ['&'] [a] = a := by simp [List.intercalate]
      rw [this]
      exact Split_no_sep '&' a (hno a (List.mem_cons_self _ _))
    | cons b rest2 =>
      rw [intercalate_pair, List.append_assoc, List.singleton_append, Split_append_sep,
        Split_no_sep '&' a (hno a (List.mem_cons_self _ _)),
        ih (by simp) (fun piece hp => hno piece (List.mem_cons_of_mem _ hp))]
      rfl

theorem lookup_map_ne (v : Values) (key p : GoString)
    (f : GoString × List GoString → GoString × List GoString)
    (hf : ∀ e, (f e).1 = e.1) (hne : key ≠ p) :
    (v.map (fun e => if e.1 = key then f e else e)).lookup p = v.lookup p := by
  induction v with
  | nil => rfl
  | cons e rest ih =>
    by_cases hk : e.1 = key
    · have hb1 : (p == e.1) = false := by
        simpa using fun h => hne (hk.symm.trans h.symm)
      have hb2 : (p == (f e).1) = false := by rw [hf e]; exact hb1
      rw [List.map_cons, if_pos hk]
      obtain ⟨k, x⟩ := e
      rcases hfe : f (k, x) with ⟨k2, x2⟩
      rw [hfe] at hb2
      simp only [List.lookup, hb1, hb2]
      exact ih
    · rw [List.map_cons, if_neg hk]
      obtain ⟨k, x⟩ := e
      simp only [List.lookup]
      rw [ih]

theorem lookup_append_ne (v : Values) (key p : GoString) (x : List GoString)
    (hne : key ≠ p) : (v ++ [(key, x)]).lookup p = v.lookup p := by
  have hb : (p == key) = false := by simpa using fun e => hne e.symm
  induction v with
  | nil => simp [List.lookup, hb]
  | cons e rest ih =>
    obtain ⟨k, y⟩ := e
    show List.lookup p ((k, y) :: (rest ++ [(key, x)])) = List.lookup p ((k, y) :: rest)
    cases hk : p == k with
    | true => simp only [List.lookup, hk]
    | false => simp only [List.lookup, hk, ih]

theorem Values.lookup_Add_ne (v : Values) (key value p : GoString) (hne : key ≠ p)
    (h : v.lookup p = none) : (Values.Add v key value).lookup p = none := by
  unfold Values.Add
  split
  · rw [lookup_map_ne v key p (fun e => (e.1, e.2 ++ [value])) (fun _ => rfl) hne]
    exact h
  · rw [lookup_append_ne v key p [value] hne]
    exact h

theorem not_mem_keys_of_lookup_none (v : Values) (p : GoString) (h : v.lookup p = none) :
    p ∉ v.map Prod.fst := by
  induction v with
  | nil => simp
  | cons e rest ih =>
    obtain ⟨k, x⟩ := e
    by_cases hk : p = k
    · subst hk
      simp [List.lookup] at h
    · have hbk : (p == k) = false := by simpa using hk
      simp only [List.lookup, hbk] at h
      simp only [List.map_cons, List.mem_cons, not_or]
      exact ⟨hk, ih h⟩

/-- The step of `url.ParseQuery` on a piece that `Values.Encode` wrote for the
key `k`: it adds a value under a key that is `k` whenever it holds letters and
digits only. -/
theorem parseQueryStep_encoded (acc : Values × Option GoString) (k x : GoString) :
    ∃ k2 x2, parseQueryStep acc (QueryEscape k ++ '=' :: QueryEscape x) =
        (acc.1.Add k2 x2, acc.2) ∧
      ((∀ c ∈ k2, c.isAlphanum = true) → k2 = k) := by
  obtain ⟨k2, hk2, hback⟩ := QueryUnescape_QueryEscape k
  obtain ⟨x2, hx2, _⟩ := QueryUnescape_QueryEscape x
  have hsemi : Contains (QueryEscape k ++ '=' :: QueryEscape x) ';' = false := by
    have h1 := QueryEscape_no_separator k ';' (Or.inr (Or.inl rfl))
    have h2 := QueryEscape_no_separator x ';' (Or.inr (Or.inl rfl))
    simp [Contains, h1, h2]
  have hcut : Cut '=' (QueryEscape k ++ '=' :: QueryEscape x) = (QueryEscape k, QueryEscape x) :=
    Cut_append_sep '=' _ _ (QueryEscape_no_separator k '=' (Or.inr (Or.inr rfl)))
  have hne : QueryEscape k ++ '=' :: QueryEscape x ≠ [] := by simp
  refine ⟨k2, x2, ?_, hback⟩
  simp only [parseQueryStep, hsemi, Bool.false_eq_true, if_false, hne, hcut, hk2, hx2]

theorem foldl_parseQueryStep_encoded (p : GoString) (hp : ∀ c ∈ p, c.isAlphanum = true)
    (pieces : List GoString)
    (hpieces : ∀ piece ∈ pieces, ∃ k x, k ≠ p ∧
      piece = QueryEscape k ++ '=' :: QueryEscape x) :
    ∀ acc : Values × Option GoString, acc.1.lookup p = none →
      (pieces.foldl parseQueryStep acc).1.lookup p = none := by
  induction pieces with
  | nil => intro acc h; exact h
  | cons piece rest ih =>
    intro acc h
    rw [List.foldl_cons]
    apply ih (fun q hq => hpieces q (List.mem_cons_of_mem _ hq))
    obtain ⟨k, x, hne, hpiece⟩ := hpieces piece (List.mem_cons_self _ _)
    obtain ⟨k2, x2, hstep, hback⟩ := parseQueryStep_encoded acc k x
    rw [hpiece, hstep]
    apply Values.lookup_Add_ne _ _ _ _ _ h
    intro hk2
    apply hne
    rw [← hback (by rw [hk2]; exact hp), hk2]

/-- The pieces of the query that `Values.Encode` writes. -/
theorem Values.Encode_pieces (v : Values) :
    ∃ pieces, Values.Encode v = List.intercalate ['&'] pieces ∧
      ∀ piece ∈ pieces, ∃ k x, k ∈ v.map Prod.fst ∧
        piece = QueryEscape k ++ '=' :: QueryEscape x := by
  refine ⟨_, rfl, ?_⟩
  intro piece hmem
  obtain ⟨k, hk, hin⟩ := List.mem_flatMap.mp hmem
  obtain ⟨x, _, hx⟩ := List.mem_map.mp hin
  exact ⟨k, x, (List.mem_insertionSort _).mp hk, hx.symm⟩

/-- A parameter with an alphanumeric name that the values do not hold is not in
the query that `Values.Encode` writes for them either. -/
theorem ParseQuery_Encode_lookup_none (v : Values) (p : GoString)
    (hp : ∀ c ∈ p, c.isAlphanum = true) (h : v.lookup p = none) :
    (ParseQuery (Values.Encode v)).1.lookup p = none := by
  have hkeys := not_mem_keys_of_lookup_none v p h
  obtain ⟨pieces, henc, hpieces⟩ := Values.Encode_pieces v
  have hpieces2 : ∀ piece ∈ pieces, ∃ k x, k ≠ p ∧
      piece = QueryEscape k ++ '=' :: QueryEscape x := by
    intro piece hmem
    obtain ⟨k, x, hk, hpiece⟩ := hpieces piece hmem
    exact ⟨k, x, fun hkp => hkeys (hkp ▸ hk), hpiece⟩
  rw [henc]
  unfold ParseQuery
  by_cases hnil : pieces = []
  · rw [hnil]
    rfl
  · rw [Split_intercalate _ hnil]
    · exact foldl_parseQueryStep_encoded p hp _ hpieces2 ([], none) rfl
    · intro piece hmem
      obtain ⟨k, x, _, hpiece⟩ := hpieces2 piece hmem
      rw [hpiece]
      intro hamp
      rcases List.mem_append.mp hamp with h1 | h1
      · exact QueryEscape_no_separator k '&' (Or.inl rfl) h1
      · rcases List.mem_cons.mp h1 with h2 | h2
        · exact absurd h2 (by decide)
        · exact QueryEscape_no_separator x '&' (Or.inl rfl) h2

/-- C29, as stated, fails.  For the base URL `http://x.example/?rid=zzzzzzz`, whose
query holds a parameter `rid` already, the phishing URL is
`http://x.example/?rid=zzzzzzz&rid=abcDEF1` and `setupContext` reads back
`zzzzzzz`.  For the base URL `http://x.example/#top` the phishing URL is
`http://x.example/?rid=abcDEF1#top`, which does not end in the pair. -/
theorem C29_counterexample :
    phishingURL sampleTemplateEnv
        (sampleTemplateContext "http://x.example/?rid=zzzzzzz".toList) sampleRecipient
        "abcDEF1".toList =
      some "http://x.example/?rid=zzzzzzz&rid=abcDEF1".toList ∧
    ridValue (sampleRequest GET "rid=zzzzzzz&rid=abcDEF1".toList) = "zzzzzzz".toList ∧
    phishingURL sampleTemplateEnv
        (sampleTemplateContext "http://x.example/#top".toList) sampleRecipient
        "abcDEF1".toList =
      some "http://x.example/?rid=abcDEF1#top".toList ∧
    HasSuffix "http://x.example/?rid=abcDEF1#top".toList "rid=abcDEF1".toList = false := by
  decide

/-- C29, amended: for every base URL without fragment whose query holds no
parameter named `RecipientParameter`, for a `RecipientParameter` and a rid that
are non-empty and alphanumeric: the phishing URL and the tracking URL end in the
pair `RecipientParameter=rid` after a `?` or a `&`, their query is
`encodedQuery`, and on a request with that query `setupContext` selects
`RecipientParameter` as the parameter name and reads back exactly `rid`. -/
theorem C29_rid_round_trip (env : TemplateEnv) (ctx : TemplateContext)
    (r : BaseRecipient) (rid templateURL : GoString) (u : URL)
    (ptx : PhishingTemplateContext)
    (hbuilt : NewPhishingTemplateContext env ctx r rid = .ok ptx)
    (htemplate : env.ExecuteTemplate ctx.BaseURL r = .ok templateURL)
    (hparse : env.urlParse templateURL = .ok u)
    (hfrag : u.Fragment = [])
    (hkey : (ParseQuery u.RawQuery).1.lookup env.RecipientParameter = none)
    (hparam : isAlphanumName env.RecipientParameter = true)
    (hrid : isAlphanumName rid = true) :
    (∃ head sep, (sep = '?' ∨ sep = '&') ∧
      ptx.URL = head ++ sep :: (env.RecipientParameter ++ '=' :: rid)) ∧
    (∃ head sep, (sep = '?' ∨ sep = '&') ∧
      ptx.TrackingURL = head ++ sep :: (env.RecipientParameter ++ '=' :: rid)) ∧
    (∃ head, ptx.URL = head ++ '?' :: encodedQuery env u.RawQuery rid) ∧
    (∃ head, ptx.TrackingURL = head ++ '?' :: encodedQuery env u.RawQuery rid) ∧
    (∀ req : Request, req.RawQuery = encodedQuery env u.RawQuery rid →
      urlparamOf req.RawQuery = env.RecipientParameter ∧ ridValue req = rid) := by
  obtain ⟨hurl, htrack⟩ :=
    NewPhishingTemplateContext_urls env ctx r rid templateURL u ptx hbuilt htemplate hparse
  have hkey2 := ParseQuery_Encode_lookup_none (ParseQuery u.RawQuery).1
    env.RecipientParameter (isAlphanumName_spec _ hparam).2 hkey
  have hne : encodedQuery env u.RawQuery rid ≠ [] := by
    rcases encodedQuery_cases env u.RawQuery rid with ⟨_, h⟩ | ⟨_, h⟩ <;> rw [h] <;> simp
  have hstring : ∀ v : URL, v.RawQuery = encodedQuery env u.RawQuery rid → v.Fragment = [] →
      URL.String env v = env.urlHead v ++ '?' :: encodedQuery env u.RawQuery rid := by
    intro v hq hf
    simp only [URL.String, hq, hf, hne, ne_eq, not_false_eq_true, or_true, if_true,
      not_true_eq_false, if_false, List.append_nil]
  have h1 := hstring { u with RawQuery := encodedQuery env u.RawQuery rid } rfl hfrag
  have h2 := hstring
    { u with Path := env.pathJoin u.Path "/track".toList,
             RawQuery := encodedQuery env u.RawQuery rid } rfl hfrag
  rw [← hurl] at h1
  rw [← htrack] at h2
  have hend : ∀ head : GoString, ∃ head2 sep, (sep = '?' ∨ sep = '&') ∧
      head ++ '?' :: encodedQuery env u.RawQuery rid =
        head2 ++ sep :: (env.RecipientParameter ++ '=' :: rid) := by
    intro head
    rcases encodedQuery_cases env u.RawQuery rid with ⟨_, h⟩ | ⟨_, h⟩
    · exact ⟨head, '?', Or.inl rfl, by rw [h]⟩
    · refine ⟨head ++ '?' :: Values.Encode (ParseQuery u.RawQuery).1, '&', Or.inr rfl, ?_⟩
      rw [h]
      simp
  refine ⟨?_, ?_, ⟨_, h1⟩, ⟨_, h2⟩, ?_⟩
  · rw [h1]
    exact hend _
  · rw [h2]
    exact hend _
  · intro req hreq
    unfold ridValue Request.Query
    rw [hreq]
    rcases encodedQuery_cases env u.RawQuery rid with ⟨_, h⟩ | ⟨_, h⟩
    · rw [h, (urlparamOf_pair_last [] _ rid hparam hrid).1]
      exact ⟨rfl, (ParseQuery_pair_last [] _ rid hparam hrid).1⟩
    · rw [h, (urlparamOf_pair_last _ _ rid hparam hrid).2]
      exact ⟨rfl, (ParseQuery_pair_last _ _ rid hparam hrid).2 hkey2⟩

/-- C29, amended, at the base URL `http://x.example/login` and the rid
`abcDEF1`: both URLs end in `?rid=abcDEF1`, and `setupContext` reads back the
rid. -/
theorem C29_rid_round_trip_witness :
    phishingURL sampleTemplateEnv (sampleTemplateContext "http://x.example/login".toList)
      sampleRecipient "abcDEF1".toList = some "http://x.example/login?rid=abcDEF1".toList ∧
    trackingURLOf sampleTemplateEnv (sampleTemplateContext "http://x.example/login".toList)
      sampleRecipient "abcDEF1".toList =
        some "http://x.example/login/track?rid=abcDEF1".toList ∧
    urlparamOf (sampleRequest GET "rid=abcDEF1".toList).RawQuery = "rid".toList ∧
    ridValue (sampleRequest GET "rid=abcDEF1".toList) = "abcDEF1".toList := by
  cases hb : NewPhishingTemplateContext sampleTemplateEnv
      (sampleTemplateContext "http://x.example/login".toList) sampleRecipient
      "abcDEF1".toList with
  | error e =>
    have hsome : (NewPhishingTemplateContext sampleTemplateEnv
        (sampleTemplateContext "http://x.example/login".toList) sampleRecipient
        "abcDEF1".toList).toOption.isSome = true := by decide
    rw [hb] at hsome
    cases hsome
  | ok ptx =>
    have h := C29_rid_round_trip sampleTemplateEnv
      (sampleTemplateContext "http://x.example/login".toList) sampleRecipient
      "abcDEF1".toList "http://x.example/login".toList
      ⟨"http".toList, [], [], "x.example".toList, "/login".toList, false, [], []⟩ ptx hb rfl rfl
      rfl (by decide) (by decide) (by decide)
    exact ⟨by decide, by decide,
      (h.2.2.2.2 (sampleRequest GET "rid=abcDEF1".toList) (by decide)).1,
      (h.2.2.2.2 (sampleRequest GET "rid=abcDEF1".toList) (by decide)).2⟩

end Anglerphish
